import Mathlib

/-! House-price prediction page: the form pipeline, the currency formatter and the
coordinate fields of `static/js/predict.js`.

The development has three layers.

* The values the script computes with: ECMAScript numbers (IEEE-754 binary64, kept
  exactly), strings, `undefined`, and ordinary objects with their property order.
* The built-ins the script calls: `parseFloat`, `parseInt`, `Number.prototype.toFixed`,
  `Number::toString`, `Math.round`, `toLocaleString('en-IN')`, the `in` operator.
* The functions of the script itself, statement by statement: the form pipeline with its
  effects, the currency formatter, and the map adapter with the geocoding bridge.
-/

namespace HousePrice

/-! ## ECMAScript numbers -/

/-- A Number value. Every finite binary64 value is an integer multiple of `2^-1074`
(the least subnormal), so a finite value is kept as a sign and the magnitude counted
in that unit: `fin neg k` is `(-1)^neg * k * 2^-1074`. `fin true 0` is `-0`. -/
inductive JSNum where
  | nan : JSNum
  | inf (neg : Bool) : JSNum
  | fin (neg : Bool) (k : Nat) : JSNum
deriving DecidableEq, Repr

/-- The unit of a finite magnitude is `2^-1074`; `one` is the magnitude of `1`. -/
def one : Nat := 2 ^ 1074

/-- The integer `n` as a Number, for `n` small enough to be exact (`n ≤ 2^53`). -/
def ofNat (n : Nat) : JSNum := JSNum.fin false (n * one)

/-- Nearest integer to `a / b`, ties to the even one (`b > 0`). -/
def divRoundEven (a b : Nat) : Nat :=
  let n := a / b
  let r := a % b
  if 2 * r < b then n
  else if b < 2 * r then n + 1
  else if n % 2 = 0 then n else n + 1

/-- Number of halvings that take `n` below 2, added to `acc`; `fuel` bounds the count. -/
def log2Aux : Nat → Nat → Nat → Nat
  | 0, _, acc => acc
  | fuel + 1, n, acc => if n < 2 then acc else log2Aux fuel (n / 2) (acc + 1)

/-- The integer `e` with `2^e ≤ n < 2^(e+1)`, for `n > 0`. -/
def log2 (n : Nat) : Nat := log2Aux n n 0

/-- The integer `e` with `2^e ≤ p / q < 2^(e+1)`, for `p, q > 0`. -/
def floorLog2Ratio (p q : Nat) : Int :=
  let e0 : Int := (log2 p : Int) - (log2 q : Int)
  if 0 ≤ e0 then
    if q * 2 ^ e0.toNat ≤ p then e0 else e0 - 1
  else
    if q ≤ p * 2 ^ (-e0).toNat then e0 else e0 - 1

/-- Round the real number `p / q` (`q > 0`) to binary64, round-to-nearest, ties to even:
the result is the magnitude in units of `2^-1074`, or `none` on overflow to infinity. -/
def roundMag (p q : Nat) : Option Nat :=
  if p = 0 then some 0
  else
    let e := floorLog2Ratio p q
    -- exponent of the unit in the last place: 52 below the binade, never below 2^-1074
    let s : Int := max e (-1022) - 52
    let n := if 0 ≤ s then divRoundEven p (q * 2 ^ s.toNat)
             else divRoundEven (p * 2 ^ (-s).toNat) q
    let k := n * 2 ^ (s + 1074).toNat
    if k < 2 ^ 2098 then some k else none

/-- The Number for the real `(-1)^neg * p / q`. -/
def toNumber (neg : Bool) (p q : Nat) : JSNum :=
  match roundMag p q with
  | some k => JSNum.fin neg k
  | none => JSNum.inf neg

/-- Is the value NaN (`isNaN` on a Number). -/
def JSNum.isNaN : JSNum → Bool
  | JSNum.nan => true
  | _ => false

/-- ToBoolean on a Number: false for `+0`, `-0` and NaN. -/
def JSNum.truthy : JSNum → Bool
  | JSNum.nan => false
  | JSNum.inf _ => true
  | JSNum.fin _ k => k != 0

/-! ## Decimal text -/

/-- Value of a decimal digit character. -/
def digitVal (c : Char) : Nat := c.toNat - 48

/-- Value of a string of decimal digits, most significant first. -/
def digitsVal (ds : List Char) : Nat := ds.foldl (fun acc c => acc * 10 + digitVal c) 0

/-- The character of a decimal digit `d < 10`. -/
def digitChar (d : Nat) : Char := Char.ofNat (48 + d)

/-- The decimal digits of `n`, most significant first, put in front of `acc`; one digit
per unit of `fuel`. -/
def natDigitsAux : Nat → Nat → List Char → List Char
  | 0, _, acc => acc
  | fuel + 1, n, acc =>
    if n < 10 then digitChar n :: acc
    else natDigitsAux fuel (n / 10) (digitChar (n % 10) :: acc)

/-- Decimal rendering of a natural number, no leading zeros, `0` as one digit. -/
def natDigits (n : Nat) : List Char := natDigitsAux (n + 1) n []

/-- WhiteSpace and LineTerminator code points, the ones `parseFloat` and `parseInt` skip. -/
def isJSSpace (c : Char) : Bool :=
  let n := c.toNat
  n = 0x09 || n = 0x0A || n = 0x0B || n = 0x0C || n = 0x0D || n = 0x20 || n = 0xA0 ||
  n = 0x1680 || (0x2000 ≤ n && n ≤ 0x200A) || n = 0x2028 || n = 0x2029 || n = 0x202F ||
  n = 0x205F || n = 0x3000 || n = 0xFEFF

/-- Drop leading white space. -/
def trimStart : List Char → List Char
  | [] => []
  | c :: cs => if isJSSpace c then trimStart cs else c :: cs

/-- Split off the longest run of decimal digits at the front. -/
def spanDigits : List Char → List Char × List Char
  | [] => ([], [])
  | c :: cs =>
    if c.isDigit then
      let r := spanDigits cs
      (c :: r.1, r.2)
    else ([], c :: cs)

/-- Does `cs` begin with `pre`. -/
def startsWith : List Char → List Char → Bool
  | _, [] => true
  | [], _ :: _ => false
  | c :: cs, p :: ps => c == p && startsWith cs ps

/-- ExponentPart at the front of `cs`, if any: `e` or `E`, an optional sign, at least one
digit. The value is 0 when there is no complete exponent part. -/
def exponentPart (cs : List Char) : Int :=
  match cs with
  | e :: rest =>
    if e = 'e' || e = 'E' then
      match rest with
      | '+' :: r => let d := (spanDigits r).1; if d = [] then 0 else (digitsVal d : Int)
      | '-' :: r => let d := (spanDigits r).1; if d = [] then 0 else -(digitsVal d : Int)
      | r => let d := (spanDigits r).1; if d = [] then 0 else (digitsVal d : Int)
    else 0
  | [] => 0

/-- The Number for `(-1)^neg * m * 10^x`. -/
def decimalToNumber (neg : Bool) (m : Nat) (x : Int) : JSNum :=
  if 0 ≤ x then toNumber neg (m * 10 ^ x.toNat) 1 else toNumber neg m (10 ^ (-x).toNat)

/-- The longest StrUnsignedDecimalLiteral at the front of `cs`, as a Number of sign `neg`;
NaN when no such literal starts there. -/
def parseUnsignedDecimal (neg : Bool) (cs : List Char) : JSNum :=
  if startsWith cs "Infinity".toList then JSNum.inf neg
  else
    let (ip, r1) := spanDigits cs
    match r1 with
    | '.' :: r2 =>
      let (fp, r3) := spanDigits r2
      if ip = [] ∧ fp = [] then JSNum.nan
      else decimalToNumber neg (digitsVal (ip ++ fp)) (exponentPart r3 - (fp.length : Int))
    | _ =>
      if ip = [] then JSNum.nan
      else decimalToNumber neg (digitsVal ip) (exponentPart r1)

/-- The global `parseFloat` on a string: leading white space is skipped, the longest
initial StrDecimalLiteral is converted, anything after it is ignored, NaN if there is none. -/
def parseFloatStr (s : String) : JSNum :=
  match trimStart s.toList with
  | '+' :: cs => parseUnsignedDecimal false cs
  | '-' :: cs => parseUnsignedDecimal true cs
  | cs => parseUnsignedDecimal false cs

/-! ## Number to text -/

/-- The integer `n` with `10^(n-1) ≤ p / q < 10^n`, for `0 < p < q`: `fuel` bounds the
search for the first `j` with `q ≤ p * 10^j`, and `n = 1 - j`. -/
def smallDecExp : Nat → Nat → Nat → Nat → Int
  | 0, _, _, j => 1 - (j : Int)
  | fuel + 1, p, q, j => if q ≤ p * 10 ^ j then 1 - (j : Int) else smallDecExp fuel p q (j + 1)

/-- The integer `n` with `10^(n-1) ≤ p / q < 10^n`, for `p, q > 0`. -/
def decExp (p q : Nat) : Int :=
  if q ≤ p then ((natDigits (p / q)).length : Int) else smallDecExp 400 p q 1

/-- Does the real `s * 10^x` round to the finite magnitude `k`. -/
def roundsTo (s : Nat) (x : Int) (k : Nat) : Bool :=
  (if 0 ≤ x then roundMag (s * 10 ^ x.toNat) 1 else roundMag s (10 ^ (-x).toNat)) == some k

/-- Number::toString, step 5: the digits `s` and the exponent `n` of the shortest decimal
`s * 10^(n - len)` that rounds to the magnitude `k > 0`, nearest to the value among those of
that length. The search tries the lengths `len`, `len + 1`, ... for `fuel` steps; `n0` is the
decimal exponent of the value. -/
def shortestAux : Nat → Nat → Nat → Int → List Char × Int
  | 0, _, k, n0 => (natDigits k, n0)
  | fuel + 1, len, k, n0 =>
    let x : Int := n0 - (len : Int)
    -- the value is `P / Q` in units of `10^x`
    let P := if 0 ≤ x then k else k * 10 ^ (-x).toNat
    let Q := if 0 ≤ x then one * 10 ^ x.toNat else one
    let lo := P / Q
    let hi := lo + 1
    let okLo := decide (10 ^ (len - 1) ≤ lo) && roundsTo lo x k
    let okHi := roundsTo hi x k
    let pick (s : Nat) : List Char × Int :=
      if s = 10 ^ len then (natDigits (10 ^ (len - 1)), n0 + 1) else (natDigits s, n0)
    if okLo && okHi then
      if 2 * (P % Q) < Q then pick lo
      else if Q < 2 * (P % Q) then pick hi
      else if lo % 2 = 0 then pick lo else pick hi
    else if okLo then pick lo
    else if okHi then pick hi
    else shortestAux fuel (len + 1) k n0

/-- Number::toString for a positive finite magnitude, steps 5 to 10. -/
def magToString (k : Nat) : List Char :=
  let (ds, n) := shortestAux 17 1 k (decExp k one)
  let len : Int := ds.length
  if len ≤ n ∧ n ≤ 21 then ds ++ List.replicate (n - len).toNat '0'
  else if 0 < n ∧ n ≤ 21 then ds.take n.toNat ++ '.' :: ds.drop n.toNat
  else if -6 < n ∧ n ≤ 0 then '0' :: '.' :: List.replicate (-n).toNat '0' ++ ds
  else
    let e := n - 1
    let es := (if e < 0 then '-' else '+') :: natDigits e.natAbs
    match ds with
    | [d] => d :: 'e' :: es
    | d :: rest => d :: '.' :: rest ++ 'e' :: es
    | [] => []

/-- Number::toString in radix 10 (ToString applied to a Number). -/
def numberToString : JSNum → String
  | JSNum.nan => "NaN"
  | JSNum.inf false => "Infinity"
  | JSNum.inf true => "-Infinity"
  | JSNum.fin neg k =>
    if k = 0 then "0"
    else String.mk ((if neg then ['-'] else []) ++ magToString k)

/-! ## parseInt, toFixed, Math.round, toLocaleString, division, comparison -/

/-- Value of a hexadecimal digit, if `c` is one. -/
def hexVal (c : Char) : Option Nat :=
  let n := c.toNat
  if 48 ≤ n ∧ n ≤ 57 then some (n - 48)
  else if 97 ≤ n ∧ n ≤ 102 then some (n - 87)
  else if 65 ≤ n ∧ n ≤ 70 then some (n - 55)
  else none

/-- The longest run of hexadecimal digits at the front, as digit values. -/
def spanHex : List Char → List Nat
  | [] => []
  | c :: cs =>
    match hexVal c with
    | some d => d :: spanHex cs
    | none => []

/-- The integer parsed from the digits at the front of `body` in radix 10, NaN if none. -/
def parseIntDec (neg : Bool) (body : List Char) : JSNum :=
  let ds := (spanDigits body).1
  if ds = [] then JSNum.nan else toNumber neg (digitsVal ds) 1

/-- The integer parsed from the digits at the front of `body` in radix 16, NaN if none. -/
def parseIntHex (neg : Bool) (body : List Char) : JSNum :=
  let ds := spanHex body
  if ds = [] then JSNum.nan else toNumber neg (ds.foldl (fun acc d => acc * 16 + d) 0) 1

/-- The global `parseInt` on a string with no radix argument: leading white space and a sign
are skipped, `0x` or `0X` selects radix 16, the longest run of digits is converted. -/
def parseIntStr (s : String) : JSNum :=
  let t := trimStart s.toList
  let signed : Bool × List Char :=
    match t with
    | '-' :: r => (true, r)
    | '+' :: r => (false, r)
    | r => (false, r)
  match signed.2 with
  | '0' :: x :: r =>
    if x = 'x' || x = 'X' then parseIntHex signed.1 r else parseIntDec signed.1 signed.2
  | body => parseIntDec signed.1 body

/-- The method `Number.prototype.toFixed(f)`: the nearest multiple of `10^-f` (the larger on a tie) in
decimal with `f` digits after the point; the ToString form for values of magnitude at least
`10^21` and for non-finite values. -/
def toFixed (f : Nat) : JSNum → String
  | JSNum.nan => "NaN"
  | JSNum.inf false => "Infinity"
  | JSNum.inf true => "-Infinity"
  | JSNum.fin neg k =>
    let sgn : List Char := if neg && k != 0 then ['-'] else []
    if 10 ^ 21 * one ≤ k then String.mk (sgn ++ (numberToString (JSNum.fin false k)).toList)
    else
      let n := (2 * k * 10 ^ f + one) / (2 * one)
      let m := natDigits n
      if f = 0 then String.mk (sgn ++ m)
      else
        let m1 := List.replicate (f + 1 - m.length) '0' ++ m
        String.mk (sgn ++ m1.take (m1.length - f) ++ '.' :: m1.drop (m1.length - f))

/-- The magnitude of the integer nearest to `(-1)^neg * k * 2^-1074`, the one closer to
`+∞` on a tie. -/
def nearestInteger (neg : Bool) (k : Nat) : Nat :=
  if neg then (2 * k + one - 1) / (2 * one) else (2 * k + one) / (2 * one)

/-- The function `Math.round`: the nearest integer, the one closer to `+∞` on a tie; the sign of a
negative argument is kept on a zero result. -/
def mathRound : JSNum → JSNum
  | JSNum.nan => JSNum.nan
  | JSNum.inf neg => JSNum.inf neg
  | JSNum.fin neg k => JSNum.fin neg (nearestInteger neg k * one)

/-- Commas of the Indian grouping, on the digits beyond the lowest three, least significant
first: one comma before every pair. -/
def groupPairs : List Char → List Char
  | a :: b :: rest => ',' :: a :: b :: groupPairs rest
  | [a] => [',', a]
  | [] => []

/-- Indian digit grouping of an integer given by its decimal digits: the lowest three
digits, then groups of two. -/
def groupIndian (ds : List Char) : List Char :=
  let r := ds.reverse
  (r.take 3 ++ groupPairs (r.drop 3)).reverse

/-- Drop trailing zeros of a fraction. -/
def stripZeros (ds : List Char) : List Char := (ds.reverse.dropWhile (fun c => c = '0')).reverse

/-- The digits and the decimal exponent of the shortest decimal that reads back as the
positive magnitude `k` (Number::toString, step 5): the value is `0.d1d2... * 10^n`. -/
def shortestDecimal (k : Nat) : List Char × Int := shortestAux 17 1 k (decExp k one)

/-- The decimal `0.d1d2... * 10^n` with the digits `ds`, as the locale `en-IN` writes it
with the default options: rounded to at most three fraction digits (ties away from zero),
no trailing fraction zeros, the integer digits grouped the Indian way. -/
def formatEnIN (neg : Bool) (ds : List Char) (n : Int) : String :=
  -- the decimal is `digitsVal ds * 10^x` thousandths
  let x : Int := n - (ds.length : Int) + 3
  let t := if 0 ≤ x then digitsVal ds * 10 ^ x.toNat
           else (2 * digitsVal ds + 10 ^ (-x).toNat) / (2 * 10 ^ (-x).toNat)
  let ip := groupIndian (natDigits (t / 1000))
  let fd := natDigits (t % 1000)
  let fp := stripZeros (List.replicate (3 - fd.length) '0' ++ fd)
  String.mk ((if neg then ['-'] else []) ++ ip ++ (if fp = [] then [] else '.' :: fp))

/-- The method `Number.prototype.toLocaleString('en-IN')` with the default options. The
formatter takes the shortest decimal that reads back as the value, as `Number::toString`
does, and writes that decimal: an integer above `2^53` shows the digits of its shortest
decimal followed by zeros, not the digits of its exact value. -/
def toLocaleStringEnIN : JSNum → String
  | JSNum.nan => "NaN"
  | JSNum.inf false => "∞"
  | JSNum.inf true => "-∞"
  | JSNum.fin neg k =>
    if k = 0 then formatEnIN neg ['0'] 1
    else formatEnIN neg (shortestDecimal k).1 (shortestDecimal k).2

/-- The `/` operator on Numbers. -/
def jsDiv : JSNum → JSNum → JSNum
  | JSNum.nan, _ => JSNum.nan
  | _, JSNum.nan => JSNum.nan
  | JSNum.inf _, JSNum.inf _ => JSNum.nan
  | JSNum.inf a, JSNum.fin b _ => JSNum.inf (a != b)
  | JSNum.fin a _, JSNum.inf b => JSNum.fin (a != b) 0
  | JSNum.fin a k, JSNum.fin b d =>
    if d = 0 then (if k = 0 then JSNum.nan else JSNum.inf (a != b))
    else toNumber (a != b) k d

/-- The `>=` operator on Numbers: false when either side is NaN. -/
def jsGe : JSNum → JSNum → Bool
  | JSNum.nan, _ => false
  | _, JSNum.nan => false
  | JSNum.inf false, _ => true
  | JSNum.inf true, JSNum.inf true => true
  | JSNum.inf true, _ => false
  | JSNum.fin _ _, JSNum.inf neg => neg
  | JSNum.fin a k, JSNum.fin b d =>
    let x : Int := if a then -(k : Int) else k
    let y : Int := if b then -(d : Int) else d
    decide (y ≤ x)

/-- The `===` operator on Numbers: NaN equals nothing, `+0` equals `-0`. -/
def jsStrictEq : JSNum → JSNum → Bool
  | JSNum.nan, _ => false
  | _, JSNum.nan => false
  | JSNum.inf a, JSNum.inf b => a == b
  | JSNum.fin a k, JSNum.fin b d => (k == 0 && d == 0) || (a == b && k == d)
  | _, _ => false

/-! ## `formatCurrency` -/

/-- Line 544: `amount / 10000000`. -/
def croresOf (amount : JSNum) : JSNum := jsDiv amount (ofNat 10000000)

/-- Line 545: `amount / 100000`. -/
def lakhsOf (amount : JSNum) : JSNum := jsDiv amount (ofNat 100000)

/-- The function `formatCurrency(amount)` of predict.js, on a Number. -/
def formatCurrency (amount : JSNum) : String :=
  -- if (!amount || amount === 0) return '₹0';
  if !amount.truthy || jsStrictEq amount (ofNat 0) then "₹0"
  else
    let crores := croresOf amount
    let lakhs := lakhsOf amount
    if jsGe crores (ofNat 1) then "₹" ++ toFixed 2 crores ++ " Cr"
    else if jsGe lakhs (ofNat 1) then "₹" ++ toFixed 2 lakhs ++ " L"
    else "₹" ++ toLocaleStringEnIN (mathRound amount)

/-! ## Values and objects -/

/-- The values held by the submitted data: `undefined` (an absent property read), Numbers
and strings. Form entries are strings (text, number and select controls, checkboxes). -/
inductive JSVal where
  | undefined : JSVal
  | num (x : JSNum) : JSVal
  | str (s : String) : JSVal
deriving DecidableEq, Repr

/-- ToBoolean. -/
def JSVal.truthy : JSVal → Bool
  | JSVal.undefined => false
  | JSVal.num x => x.truthy
  | JSVal.str s => s != ""

/-- ToString. -/
def JSVal.toStr : JSVal → String
  | JSVal.undefined => "undefined"
  | JSVal.num x => numberToString x
  | JSVal.str s => s

/-- The expression `a || b`. -/
def jsOr (a b : JSVal) : JSVal := if a.truthy then a else b

/-- The global `parseFloat(v)`: ToString, then the string is parsed. -/
def parseFloatVal (v : JSVal) : JSNum := parseFloatStr v.toStr

/-- The global `parseInt(v)`: ToString, then the string is parsed. -/
def parseIntVal (v : JSVal) : JSNum := parseIntStr v.toStr

/-- An ordinary object created by `{}`: its own properties in creation order, each key
once. Its prototype is `Object.prototype`. -/
abbrev JSObject := List (String × JSVal)

/-- Does the object have an own property `k`. -/
def hasOwn : JSObject → String → Bool
  | [], _ => false
  | (k1, _) :: rest, k => if k1 = k then true else hasOwn rest k

/-- The read `o[k]` of an own property, `undefined` when there is none. The script reads
only names that `Object.prototype` does not define, or keys it has just enumerated. -/
def get : JSObject → String → JSVal
  | [], _ => JSVal.undefined
  | (k1, v1) :: rest, k => if k1 = k then v1 else get rest k

/-- Define or overwrite the own property `k`: an existing key keeps its place, a new key
goes last. -/
def put : JSObject → String → JSVal → JSObject
  | [], k, v => [(k, v)]
  | (k1, v1) :: rest, k, v => if k1 = k then (k1, v) :: rest else (k1, v1) :: put rest k v

/-- The assignment `o[k] = v` of a primitive value. Assigning to `__proto__` calls the
inherited setter, which ignores a value that is not an object: nothing is stored. -/
def set (o : JSObject) (k : String) (v : JSVal) : JSObject :=
  if k = "__proto__" then o else put o k v

/-- The property names of `Object.prototype`. -/
def objectPrototypeNames : List String :=
  ["constructor", "__defineGetter__", "__defineSetter__", "hasOwnProperty",
   "__lookupGetter__", "__lookupSetter__", "isPrototypeOf", "propertyIsEnumerable",
   "toString", "valueOf", "__proto__", "toLocaleString"]

/-- The expression `k in o`: own properties and those of the prototype. -/
def jsIn (k : String) (o : JSObject) : Bool := hasOwn o k || objectPrototypeNames.contains k

/-- Is the key an array index: the canonical decimal form of an integer below `2^32 - 1`. -/
def isArrayIndex (k : String) : Bool :=
  let cs := k.toList
  cs != [] && cs.all Char.isDigit && (cs == ['0'] || cs.head? != some '0') &&
    decide (digitsVal cs < 2 ^ 32 - 1)

/-- Insert an array-index key into a list sorted by numeric value. -/
def insertIndex (k : String) : List String → List String
  | [] => [k]
  | k1 :: rest =>
    if digitsVal k.toList ≤ digitsVal k1.toList then k :: k1 :: rest
    else k1 :: insertIndex k rest

/-- The array indices among the keys `ks`, in ascending numeric order. -/
def sortedIndices (ks : List String) : List String :=
  (ks.filter isArrayIndex).foldr insertIndex []

/-- Enumeration order of the keys `ks` given in creation order: array indices in ascending
numeric order, then the other keys as they are. -/
def orderKeys (ks : List String) : List String :=
  sortedIndices ks ++ ks.filter (fun k => !isArrayIndex k)

/-- The own keys that are array indices, in ascending numeric order. -/
def indexKeys (o : JSObject) : List String := sortedIndices (o.map Prod.fst)

/-- The own keys that are not array indices, in creation order. -/
def plainKeys (o : JSObject) : List String := (o.map Prod.fst).filter (fun k => !isArrayIndex k)

/-- The own property keys in enumeration order (`for ... in`, `JSON.stringify`): array
indices in ascending numeric order, then the other keys in creation order. -/
def ownKeys (o : JSObject) : List String := orderKeys (o.map Prod.fst)

/-- The members of the JSON object text `JSON.stringify(o)` writes, in order, each with
the value it serialises (a Number that is not finite is written as `null`). -/
def jsonMembers (o : JSObject) : List (String × JSVal) :=
  ((ownKeys o).map (fun k => (k, get o k))).filter (fun e => e.2 != JSVal.undefined)

/-- The member names of `JSON.stringify(o)`, in order. -/
def jsonKeys (o : JSObject) : List String := (jsonMembers o).map Prod.fst

/-! ## `handleFormSubmit`: building the payload -/

/-- The form data: the entries of `new FormData(e.target)`, in order. -/
abbrev FormData := List (String × String)

/-- Lines 316 to 319: the object after the four flag defaults. -/
def initData : JSObject :=
  [("UNDER_CONSTRUCTION", JSVal.num (ofNat 0)), ("RERA", JSVal.num (ofNat 0)),
   ("READY_TO_MOVE", JSVal.num (ofNat 0)), ("RESALE", JSVal.num (ofNat 0))]

/-- Lines 323 to 333: the body of the loop over the form entries. -/
def collectEntry (data : JSObject) (key value : String) : JSObject :=
  if key = "UNDER_CONSTRUCTION" ∨ key = "RERA" ∨ key = "READY_TO_MOVE" ∨ key = "RESALE" then
    set data key (JSVal.num (if value = "1" ∨ value = "on" then ofNat 1 else ofNat 0))
  else if ["BHK_NO.", "SQUARE_FT", "LONGITUDE", "LATITUDE"].contains key then
    let numValue := parseFloatStr value
    set data key (JSVal.num (if numValue.isNaN then ofNat 0 else numValue))
  else
    set data key (jsOr (JSVal.str value) (JSVal.str ""))

/-- Lines 313 to 334: the defaults, then the loop over the form entries. -/
def collect (formData : FormData) : JSObject :=
  formData.foldl (fun data e => collectEntry data e.1 e.2) initData

/-- One of the lines 337 to 340: `if (data[k]) data[k] = parseFloat(data[k]) || 0`. -/
def ensureNumber (data : JSObject) (k : String) : JSObject :=
  if (get data k).truthy then
    set data k (jsOr (JSVal.num (parseFloatVal (get data k))) (JSVal.num (ofNat 0)))
  else data

/-- Lines 337 to 340. -/
def ensureNumbers (data : JSObject) : JSObject :=
  ensureNumber (ensureNumber (ensureNumber (ensureNumber data "BHK_NO.") "SQUARE_FT")
    "LONGITUDE") "LATITUDE"

/-- One of the lines 344 to 347: `if (!(k in data)) data[k] = 0`. -/
def ensureFlag (data : JSObject) (k : String) : JSObject :=
  if !jsIn k data then set data k (JSVal.num (ofNat 0)) else data

/-- Lines 344 to 347. -/
def ensureFlags (data : JSObject) : JSObject :=
  ensureFlag (ensureFlag (ensureFlag (ensureFlag data "UNDER_CONSTRUCTION") "RERA")
    "READY_TO_MOVE") "RESALE"

/-- The data checked by the validation: lines 313 to 347. -/
def collected (formData : FormData) : JSObject := ensureFlags (ensureNumbers (collect formData))

/-- The condition of line 350: true when a required field is missing or falsy. -/
def validationFails (data : JSObject) : Bool :=
  !(get data "BHK_OR_RK").truthy || !(get data "BHK_NO.").truthy ||
  !(get data "SQUARE_FT").truthy || !(get data "POSTED_BY").truthy ||
  !(get data "LONGITUDE").truthy || !(get data "LATITUDE").truthy

/-- One of the lines 356 to 359: `if (!data[alias]) data[alias] = data[source]`. -/
def deriveAlias (data : JSObject) (aliasKey source : String) : JSObject :=
  if !(get data aliasKey).truthy then set data aliasKey (get data source) else data

/-- Lines 356 to 360. -/
def deriveAliases (data : JSObject) : JSObject :=
  let d1 := deriveAlias data "area" "SQUARE_FT"
  let d2 := deriveAlias d1 "bedrooms" "BHK_NO."
  let d3 := deriveAlias d2 "longitude" "LONGITUDE"
  let d4 := deriveAlias d3 "latitude" "LATITUDE"
  if !(get d4 "CITY_NAME").truthy then
    set d4 "CITY_NAME" (jsOr (get d4 "ADDRESS") (JSVal.str "Unknown"))
  else d4

/-- One of the lines 364 to 367:
`data[k] = data[k] !== undefined ? parseInt(data[k]) || 0 : 0`. -/
def normalizeFlag (data : JSObject) (k : String) : JSObject :=
  set data k
    (if get data k ≠ JSVal.undefined then
      jsOr (JSVal.num (parseIntVal (get data k))) (JSVal.num (ofNat 0))
     else JSVal.num (ofNat 0))

/-- Lines 364 to 367. -/
def normalizeFlags (data : JSObject) : JSObject :=
  normalizeFlag (normalizeFlag (normalizeFlag (normalizeFlag data "UNDER_CONSTRUCTION") "RERA")
    "READY_TO_MOVE") "RESALE"

/-- Line 371: the order of the features the preprocessor expects. -/
def expectedOrder : List String :=
  ["POSTED_BY", "UNDER_CONSTRUCTION", "RERA", "BHK_NO.", "BHK_OR_RK", "SQUARE_FT",
   "READY_TO_MOVE", "RESALE", "ADDRESS", "LONGITUDE", "LATITUDE", "area", "bedrooms",
   "longitude", "latitude", "CITY_NAME"]

/-- Lines 372 to 385: the keys of `expectedOrder` that are in `data` first, then the keys
that `for ... in` enumerates and that are not yet `in` the new object. -/
def reorder (data : JSObject) : JSObject :=
  let orderedData : JSObject :=
    expectedOrder.foldl (fun od key => if jsIn key data then set od key (get data key) else od) []
  (ownKeys data).foldl (fun od key => if !jsIn key od then set od key (get data key) else od)
    orderedData

/-- The data just before the reorder step: lines 313 to 367. -/
def prepared (formData : FormData) : JSObject :=
  normalizeFlags (deriveAliases (collected formData))

/-- The object passed to `JSON.stringify` at line 398, for form data that passed the
validation: lines 313 to 385. -/
def payload (formData : FormData) : JSObject := reorder (prepared formData)

/-! ## `handleFormSubmit`: the request and the messages -/

/-- The value of `expected_columns` in an error body: an array of names or a text. -/
inductive Columns where
  | list (names : List String) : Columns
  | text (s : String) : Columns
deriving DecidableEq, Repr

/-- The JSON body of a reply of the prediction endpoint, as far as the handler reads it:
each field may be absent. -/
structure ResponseBody where
  error : Option String
  received_columns : Option (List String)
  expected_columns : Option Columns
  details : Option String
  hint : Option String
deriving DecidableEq, Repr

/-- How the `try` block of lines 392 to 421 ends: `fetch`, `response.json()` or a read of
the parsed body throws an error with the given `message` (`none` when it has none), or a
body is read. -/
inductive FetchOutcome where
  | threw (message : Option String) : FetchOutcome
  | response (ok : Bool) (result : ResponseBody) : FetchOutcome
deriving DecidableEq, Repr

/-- What the handler does to the page and the network, in order. -/
inductive Effect where
  | showError (message : String) (details : Option ResponseBody) : Effect
  | setLoadingState (loading : Bool) : Effect
  | hideResults : Effect
  | hideError : Effect
  | fetchPredict (body : JSObject) : Effect
  | consoleError (label : String) : Effect
  | displayResultsAfter (ms : Nat) (result : ResponseBody) : Effect
deriving DecidableEq, Repr

/-- ToBoolean of an optional string field: absent and empty are falsy. -/
def fieldTruthy : Option String → Bool
  | some s => s != ""
  | none => false

/-- ToBoolean of `expected_columns`: an array is truthy, a text when it is not empty. -/
def columnsTruthy : Option Columns → Bool
  | some (Columns.list _) => true
  | some (Columns.text s) => s != ""
  | none => false

/-- Line 409: the text of `expected_columns`, joined when it is an array. -/
def columnsText : Columns → String
  | Columns.list names => ", ".intercalate names
  | Columns.text s => s

/-- Lines 407 to 410: the column lists, when both fields are truthy. -/
def columnsSection (result : ResponseBody) : String :=
  match result.received_columns, result.expected_columns with
  | some received, some expected =>
    if columnsTruthy (some expected) then
      "\n\nReceived columns: " ++ ", ".intercalate received ++
        ("\nExpected columns: " ++ columnsText expected)
    else ""
  | _, _ => ""

/-- Lines 411 to 413. -/
def detailsSection (result : ResponseBody) : String :=
  if fieldTruthy result.details then "\n\nDetails: " ++ result.details.getD "" else ""

/-- Lines 414 to 416. -/
def hintSection (result : ResponseBody) : String :=
  if fieldTruthy result.hint then "\n\nHint: " ++ result.hint.getD "" else ""

/-- Line 406: `result.error || 'Prediction failed'`. -/
def errorHead (result : ResponseBody) : String :=
  if fieldTruthy result.error then result.error.getD "" else "Prediction failed"

/-- Lines 406 to 416: the message built for a reply that is not ok. -/
def composeErrorMsg (result : ResponseBody) : String :=
  ((errorHead result ++ columnsSection result) ++ detailsSection result) ++ hintSection result

/-- Does `cs` contain `sub` as a contiguous part (`String.prototype.includes`). -/
def includesChars : List Char → List Char → Bool
  | [], sub => sub.isEmpty
  | c :: cs, sub => startsWith (c :: cs) sub || includesChars cs sub

/-- Lines 430 to 433: the message for a thrown error. -/
def caughtErrorMsg (message : Option String) : String :=
  let errorMsg := if fieldTruthy message then message.getD ""
                  else "Failed to get prediction. Please try again."
  if fieldTruthy message && includesChars (message.getD "").toList "fetch".toList then
    "Cannot connect to server. Make sure the server is running on http://localhost:5001"
  else errorMsg

/-- Lines 560 to 570 of `showError`: the full message, before line breaks become `<br>`. -/
def showErrorText (message : String) (details : Option ResponseBody) : String :=
  match details with
  | none => message
  | some d =>
    if fieldTruthy d.error then
      let m1 := message ++ ("\n\nError: " ++ d.error.getD "")
      if fieldTruthy d.hint then m1 ++ ("\n\nHint: " ++ d.hint.getD "") else m1
    else message

/-- Line 572: the markup put in the error card, every line feed replaced by `<br>`. -/
def errorCardHtml (message : String) (details : Option ResponseBody) : String :=
  String.mk ((showErrorText message details).toList.flatMap
    (fun c => if c = '\n' then "<br>".toList else [c]))

/-- The function `handleFormSubmit(e)` of predict.js, after `e.preventDefault()`: the
effects of one submission of the form data, when the request ends as `reply` says. -/
def handleFormSubmit (formData : FormData) (reply : FetchOutcome) : List Effect :=
  let data := collected formData
  if validationFails data then
    [Effect.showError "Please fill in all required fields (marked with *)" none]
  else
    let body := reorder (normalizeFlags (deriveAliases data))
    [Effect.setLoadingState true, Effect.hideResults, Effect.hideError,
     Effect.fetchPredict body] ++
    (match reply with
     | FetchOutcome.response true result => [Effect.displayResultsAfter 300 result]
     | FetchOutcome.response false result =>
       [Effect.consoleError "API Error:", Effect.showError (composeErrorMsg result) (some result)]
     | FetchOutcome.threw message =>
       [Effect.consoleError "Prediction error:", Effect.showError (caughtErrorMsg message) none])
    ++ [Effect.setLoadingState false]

/-- The body of the request a submission sends, if it sends one. -/
def sentBody (formData : FormData) (reply : FetchOutcome) : Option JSObject :=
  (handleFormSubmit formData reply).findSome? (fun e =>
    match e with
    | Effect.fetchPredict body => some body
    | _ => none)

/-! ## `handleFormSubmit`: the body of a reply that is not ok -/

/-- The JSON object in the body of a reply, as it is sent: the fields of `ResponseBody`,
where `received_columns` may be a text (a JSON string) as well as an array of names. -/
structure ErrorObject where
  error : Option String
  received_columns : Option Columns
  expected_columns : Option Columns
  details : Option String
  hint : Option String
deriving DecidableEq, Repr

/-- The body of a reply as line 401 finds it: text that is not JSON (an HTML error page, an
empty body), the JSON text `null`, or a JSON object. -/
inductive ReplyBody where
  | notJson : ReplyBody
  | null : ReplyBody
  | object (o : ErrorObject) : ReplyBody
deriving DecidableEq, Repr

/-- Lines 407 and 408: `result.received_columns.join(', ')` is evaluated when both column
fields are truthy, and throws a TypeError when `received_columns` is a text, which has no
`join`. -/
def joinThrows (o : ErrorObject) : Bool :=
  match o.received_columns with
  | some (Columns.text s) => s != "" && columnsTruthy o.expected_columns
  | _ => false

/-- The fields of the object as the lines 406 to 419 read them when line 408 does not
throw: a `received_columns` that is a text is then empty or goes with a falsy
`expected_columns`, adds nothing to the message, and is left out. -/
def ErrorObject.fields (o : ErrorObject) : ResponseBody :=
  { error := o.error,
    received_columns :=
      match o.received_columns with
      | some (Columns.list names) => some names
      | _ => none,
    expected_columns := o.expected_columns,
    details := o.details,
    hint := o.hint }

/-- Does reading the body of a reply that is not ok throw inside the `try` block:
`response.json()` rejects at line 401 when the body is not JSON, `result.error` at line 406
throws a TypeError when the body is `null`, and line 408 throws as `joinThrows` says. -/
def readThrows : ReplyBody → Bool
  | ReplyBody.notJson => true
  | ReplyBody.null => true
  | ReplyBody.object o => joinThrows o

/-- How the `try` block ends for a reply whose status is not ok, given its body: line 401
parses the body before line 403 tests `response.ok`, so a read that throws takes the handler
to the `catch` block with the error of that read; `thrown` is the message of this error,
which the engine words. Otherwise the fields are read. -/
def errorReplyOutcome (thrown : Option String) : ReplyBody → FetchOutcome
  | ReplyBody.notJson => FetchOutcome.threw thrown
  | ReplyBody.null => FetchOutcome.threw thrown
  | ReplyBody.object o =>
    if joinThrows o then FetchOutcome.threw thrown else FetchOutcome.response false o.fields

/-! ## `updateCoordinates` -/

/-- A location as the map libraries hand it over: a two-element array, an object with the
number properties `lat` and `lng`, or an object with the methods `lat()` and `lng()`. -/
inductive Location where
  | array (lat lng : JSNum) : Location
  | props (lat lng : JSNum) : Location
  | methods (lat lng : JSNum) : Location
deriving DecidableEq, Repr

/-- The form controls the map writes to. -/
structure CoordinateFields where
  latitude : String
  longitude : String
  address : String
deriving DecidableEq, Repr

/-- Lines 220 to 227: the pair `lat`, `lng` read from the location; `none` when the read
throws a TypeError (a method call on a value without that method, or `toFixed` looked up
on a function). -/
def readLatLng (useGoogleMaps : Bool) : Location → Option (JSNum × JSNum)
  | Location.methods lat lng => if useGoogleMaps then some (lat, lng) else none
  | Location.array lat lng => if useGoogleMaps then none else some (lat, lng)
  | Location.props lat lng => if useGoogleMaps then none else some (lat, lng)

/-- The function `updateCoordinates(location)` of predict.js up to line 230: the two
coordinate fields after the call. The reverse geocoding that follows writes the address
field only, and later. -/
def updateCoordinates (useGoogleMaps : Bool) (location : Location) (fields : CoordinateFields) :
    Option CoordinateFields :=
  match readLatLng useGoogleMaps location with
  | some (lat, lng) =>
    some { fields with latitude := toFixed 6 lat, longitude := toFixed 6 lng }
  | none => none

/-! ## `setLoadingState` and what the user sees of a submission -/

/-- The parts of the submit control that `setLoadingState` writes: the `disabled` property
of the button, the text of its label, the `display` of the loader and the `opacity` of the
button content. -/
structure SubmitControl where
  disabled : Bool
  btnText : String
  loaderDisplay : String
  contentOpacity : String
deriving DecidableEq, Repr

/-- The function `setLoadingState(loading)` of predict.js. -/
def setLoadingState (loading : Bool) (_control : SubmitControl) : SubmitControl :=
  if loading then
    { disabled := true, btnText := "Predicting...", loaderDisplay := "block",
      contentOpacity := "0.5" }
  else
    { disabled := false, btnText := "Predict Price", loaderDisplay := "none",
      contentOpacity := "1" }

/-- The parts of the error card the script writes: the markup of the message element
(`errorMessage.innerHTML`) and the inline style of the card. -/
structure ErrorCard where
  messageHtml : String
  display : String
  opacity : String
  transform : String
  transition : String
deriving DecidableEq, Repr

/-- The callbacks that `showError` and `hideError` hand to `setTimeout`: lines 578 to 580
and line 592. -/
inductive TimerCallback where
  | fadeInErrorCard : TimerCallback
  | removeErrorCard : TimerCallback
deriving DecidableEq, Repr

/-- The page as a submission sees it: the clock in milliseconds, the submit control, the
error card, and the pending timers, each with the time it is due, in the order in which
they will run. -/
structure SubmitPage where
  now : Nat
  control : SubmitControl
  card : ErrorCard
  timers : List (Nat × TimerCallback)
deriving DecidableEq, Repr

/-- Put a timer in the queue, behind every timer that is due no later: timers run in the
order of their due times, and those of one due time in the order they were set. -/
def enqueueTimer (due : Nat) (callback : TimerCallback) :
    List (Nat × TimerCallback) → List (Nat × TimerCallback)
  | [] => [(due, callback)]
  | t :: rest =>
    if t.1 ≤ due then t :: enqueueTimer due callback rest else (due, callback) :: t :: rest

/-- The call `setTimeout(callback, delay)`. -/
def setTimeout (callback : TimerCallback) (delay : Nat) (p : SubmitPage) : SubmitPage :=
  { p with timers := enqueueTimer (p.now + delay) callback p.timers }

/-- What a timer callback writes when it runs. -/
def runCallback : TimerCallback → ErrorCard → ErrorCard
  | TimerCallback.fadeInErrorCard, c =>
    { c with transition := "all 0.3s ease-out", opacity := "1", transform := "scale(1)" }
  | TimerCallback.removeErrorCard, c => { c with display := "none" }

/-- The function `showError(message, details)` of predict.js: the message goes into the
card, the card is displayed, and a timer fades it in after 50 ms. The scrolling of line 583
is left out. -/
def showError (message : String) (details : Option ResponseBody) (p : SubmitPage) : SubmitPage :=
  setTimeout TimerCallback.fadeInErrorCard 50
    { p with card := { p.card with messageHtml := errorCardHtml message details,
                                   display := "block", opacity := "0",
                                   transform := "scale(0.9)" } }

/-- The function `hideError()` of predict.js: the card fades out, and a timer takes it off
the page after 300 ms. The timer is never cancelled. -/
def hideError (p : SubmitPage) : SubmitPage :=
  setTimeout TimerCallback.removeErrorCard 300
    { p with card := { p.card with transition := "all 0.3s ease-out", opacity := "0",
                                   transform := "scale(0.9)" } }

/-- The event loop while the handler waits until the time `t`: the timers due by then run,
in order. A timer due at `t` itself is taken to run before the handler goes on. -/
def runTimersUntil (t : Nat) (p : SubmitPage) : SubmitPage :=
  { p with
    now := t,
    card := (p.timers.takeWhile (fun x => decide (x.1 ≤ t))).foldl
      (fun c x => runCallback x.2 c) p.card,
    timers := p.timers.dropWhile (fun x => decide (x.1 ≤ t)) }

/-- The event loop after the handler has returned: every pending timer runs, in order. -/
def runAllTimers (p : SubmitPage) : SubmitPage :=
  { p with card := p.timers.foldl (fun c x => runCallback x.2 c) p.card, timers := [] }

/-- What one effect of the handler does to the page. The request is where the handler
waits (the `await` of lines 393 and 401): it goes on `latency` milliseconds later, after the
timers due in between. The effects on the results card and the console write neither the
submit control nor the error card. -/
def runEffect (latency : Nat) : Effect → SubmitPage → SubmitPage
  | Effect.showError message details, p => showError message details p
  | Effect.setLoadingState loading, p => { p with control := setLoadingState loading p.control }
  | Effect.hideError, p => hideError p
  | Effect.fetchPredict _, p => runTimersUntil (p.now + latency) p
  | _, p => p

/-- The page when one submission is over and every timer it set has run: the effects of
`handleFormSubmit` in order, for a request that ends `latency` milliseconds after it was
sent. -/
def submissionEnd (formData : FormData) (reply : FetchOutcome) (latency : Nat)
    (p : SubmitPage) : SubmitPage :=
  runAllTimers ((handleFormSubmit formData reply).foldl (fun q e => runEffect latency e q) p)

/-! ## The map adapter and the geocoding bridge -/

/-- The two map libraries. -/
inductive Backend where
  | leaflet : Backend
  | google : Backend
deriving DecidableEq, Repr

/-- A map made by a library constructor: `serial` tells the objects apart, in the order of
their creation. -/
structure MapObject where
  serial : Nat
  backend : Backend
  center : Location
  zoom : Nat
deriving DecidableEq, Repr

/-- A marker made by a library constructor, with the position it was last given. -/
structure MarkerObject where
  serial : Nat
  backend : Backend
  position : Option Location
deriving DecidableEq, Repr

/-- The module variables `useGoogleMaps`, `map`, `marker`, `geocoder` and `autocomplete` of
predict.js (an unset variable is `none`), the number of library objects created so far, and
the parts of the page the map code and `showError` write: the coordinate fields, the markup
of the error card (`none` while `showError` has not run) and the console. -/
structure MapPage where
  useGoogleMaps : Bool
  map : Option MapObject
  marker : Option MarkerObject
  geocoder : Option Nat
  autocomplete : Option Nat
  created : Nat
  fields : CoordinateFields
  errorCard : Option String
  console : List String
deriving DecidableEq, Repr

/-- What `initMap` finds when it runs: whether `google.maps` is defined, the value of
`window.google_maps_key`, whether the page has the address input, and whether the first
constructor call of the map library returns (it throws, for example, on a container that
already holds a map of that library). -/
structure InitEnv where
  googleLoaded : Bool
  googleMapsKey : Option String
  hasAddressInput : Bool
  libraryReturns : Bool
deriving DecidableEq, Repr

/-- Line 31: the default center `[20.5937, 78.9629]`. -/
def defaultCenterArray : Location :=
  Location.array (parseFloatStr "20.5937") (parseFloatStr "78.9629")

/-- Line 83: the default center as an object with `lat` and `lng`. -/
def defaultCenterProps : Location :=
  Location.props (parseFloatStr "20.5937") (parseFloatStr "78.9629")

/-- The function `initOpenStreetMap()` of predict.js: a Leaflet map and a draggable marker
at the default center. When `L.map` throws, nothing is assigned. -/
def initOpenStreetMap (env : InitEnv) (p : MapPage) : MapPage :=
  if env.libraryReturns then
    { p with
      map := some { serial := p.created, backend := Backend.leaflet,
                    center := defaultCenterArray, zoom := 5 },
      marker := some { serial := p.created + 1, backend := Backend.leaflet,
                       position := some defaultCenterArray },
      created := p.created + 2 }
  else p

/-- The function `initGoogleMap()` of predict.js: a map, a geocoder, a marker without a
position and, when the address input exists, an autocomplete. When the map constructor
throws, nothing is assigned. -/
def initGoogleMap (env : InitEnv) (p : MapPage) : MapPage :=
  if env.libraryReturns then
    { p with
      map := some { serial := p.created, backend := Backend.google,
                    center := defaultCenterProps, zoom := 5 },
      geocoder := some (p.created + 1),
      marker := some { serial := p.created + 2, backend := Backend.google, position := none },
      autocomplete := if env.hasAddressInput then some (p.created + 3) else p.autocomplete,
      created := if env.hasAddressInput then p.created + 4 else p.created + 3 }
  else p

/-- Line 18: `window.google_maps_key && window.google_maps_key !== 'YOUR_API_KEY'`. -/
def hasGoogleMapsKey (env : InitEnv) : Bool :=
  fieldTruthy env.googleMapsKey && env.googleMapsKey != some "YOUR_API_KEY"

/-- The function `initMap()` of predict.js. -/
def initMap (env : InitEnv) (p : MapPage) : MapPage :=
  if env.googleLoaded && hasGoogleMapsKey env then
    initGoogleMap env { p with useGoogleMaps := true }
  else
    initOpenStreetMap env p

/-- The three places that call `initMap` during a page load: lines 282 and 283 (when the
page is ready, if the library is already there), the timer of line 290, and the load
callback of the commercial library, which calls `window.initMap`. -/
inductive InitCall where
  | immediate : InitCall
  | fallbackTimer : InitCall
  | loadCallback : InitCall
deriving DecidableEq, Repr

/-- One call site of `initMap`: only the timer of lines 290 to 294 tests `!map` first. -/
def initCall (env : InitEnv) : InitCall → MapPage → MapPage
  | InitCall.immediate, p => if env.googleLoaded then initMap env p else p
  | InitCall.fallbackTimer, p => if p.map.isNone then initMap env p else p
  | InitCall.loadCallback, p => initMap env p

/-- A sequence of calls, each with what it finds, run in order. -/
def runInitCalls (calls : List (InitCall × InitEnv)) (p : MapPage) : MapPage :=
  calls.foldl (fun q c => initCall c.2 c.1 q) p

/-- The function `placeMarkerAndGetCoordinates(location)` of predict.js, with
`updateCoordinates` up to line 230: the page after the call, and whether the call returned
(`false` when it threw: a method call on an unset `marker`, `map` or `geocoder`, the
TypeError of `readLatLng`, or the error with which the free map library refuses a
coordinate that is NaN in `setLatLng`). What was assigned before a throw stays. -/
def placeMarkerAndGetCoordinates (location : Location) (p : MapPage) : MapPage × Bool :=
  match p.marker with
  | none => (p, false)
  | some m =>
    if p.useGoogleMaps then
      let p1 := { p with marker := some { m with position := some location } }
      match p1.map with
      | none => (p1, false)
      | some mp =>
        let p2 := { p1 with map := some { mp with center := location, zoom := 15 } }
        match updateCoordinates true location p2.fields with
        | some f => ({ p2 with fields := f }, p2.geocoder.isSome)
        | none => (p2, false)
    else
      match readLatLng false location with
      | none => (p, false)
      | some (lat, lng) =>
        if lat.isNaN || lng.isNaN then (p, false)
        else
          let p1 :=
            { p with marker := some { m with position := some (Location.array lat lng) } }
          match p1.map with
          | none => (p1, false)
          | some mp =>
            let p2 := { p1 with map := some { mp with center := Location.array lat lng,
                                                       zoom := 15 } }
            match updateCoordinates false (Location.array lat lng) p2.fields with
            | some f => ({ p2 with fields := f }, true)
            | none => (p2, false)

/-- One result of the address search service, as far as the script reads it. -/
structure GeoResult where
  lat : JSVal
  lon : JSVal
deriving DecidableEq, Repr

/-- How the `try` block of `searchAddress` gets its data: `fetch` or `response.json()`
throws, or the body is a list of results, or it is a JSON value with no positive `length`
(`null`, or an object that describes an error). -/
inductive GeocodeReply where
  | threw : GeocodeReply
  | results (rs : List GeoResult) : GeocodeReply
  | notAList : GeocodeReply
deriving DecidableEq, Repr

/-- Line 197: `console.error('Geocoding error:', error)`. -/
def logGeocodingError (p : MapPage) : MapPage :=
  { p with console := p.console ++ ["Geocoding error:"] }

/-- The function `searchAddress(query)` of predict.js, when the request ends as `reply`
says: the page after the call. -/
def searchAddress (reply : GeocodeReply) (p : MapPage) : MapPage :=
  match reply with
  | GeocodeReply.threw => logGeocodingError p
  | GeocodeReply.notAList => p
  | GeocodeReply.results [] => p
  | GeocodeReply.results (result :: _) =>
    let lat := parseFloatVal result.lat
    let lon := parseFloatVal result.lon
    let r := placeMarkerAndGetCoordinates (Location.array lat lon) p
    if r.2 then r.1 else logGeocodingError r.1

/-! ## Predicates used in the statements -/

/-- The four flag fields. -/
def isFlagKey (k : String) : Prop :=
  k = "UNDER_CONSTRUCTION" ∨ k = "RERA" ∨ k = "READY_TO_MOVE" ∨ k = "RESALE"

/-- Every flag field holds the Number 0 or the Number 1. -/
def FlagsOk (data : JSObject) : Prop :=
  ∀ k, isFlagKey k → get data k = JSVal.num (ofNat 0) ∨ get data k = JSVal.num (ofNat 1)

/-- Each key occurs once among the own properties. -/
def KeysNodup (o : JSObject) : Prop := (o.map Prod.fst).Nodup

/-- No own property holds `undefined`. -/
def AllDefined (o : JSObject) : Prop := ∀ e ∈ o, e.2 ≠ JSVal.undefined

/-- The property `k` of `data` as a key and value pair. -/
def entryOf (data : JSObject) (k : String) : String × JSVal := (k, get data k)

/-! ## Sample inputs -/

/-- A filled form with the RERA box checked: the sample of the specification, 1200 square
feet, 2 bedrooms, the coordinate (28.6139, 77.2090). -/
def sampleForm : FormData :=
  [("POSTED_BY", "Owner"), ("RERA", "on"), ("BHK_NO.", "2"), ("BHK_OR_RK", "BHK"),
   ("SQUARE_FT", "1200"), ("ADDRESS", "Connaught Place, New Delhi"),
   ("LONGITUDE", "77.2090"), ("LATITUDE", "28.6139")]

/-- The numeric value of a key made of digits. -/
def indexVal (k : String) : Nat := digitsVal k.toList

/-- The keys are in ascending order of numeric value. -/
def IndexSorted (l : List String) : Prop := l.Pairwise (fun a b => indexVal a ≤ indexVal b)

/-- The keys of the data, other than array indices, that the second loop of the reorder
step appends: those outside the expected order that `Object.prototype` does not define. -/
def extraKeys (data : JSObject) : List String :=
  (plainKeys data).filter
    (fun k => !expectedOrder.contains k && !objectPrototypeNames.contains k)

/-- The sample form with one more field, named `7`. -/
def indexNamedForm : FormData := sampleForm ++ [("7", "x")]

/-- The sample form with one more field, named `toString`. -/
def protoNamedForm : FormData := sampleForm ++ [("toString", "x")]

/-- Every key of the object is in the expected-order list or names a form entry. -/
def KeysFrom (o : JSObject) (formData : FormData) : Prop :=
  ∀ k ∈ o.map Prod.fst, k ∈ expectedOrder ∨ k ∈ formData.map Prod.fst

/-- No form entry is named by an array index or by a property of `Object.prototype`. -/
def PlainNames (formData : FormData) : Prop :=
  ∀ e ∈ formData, isArrayIndex e.1 = false ∧ objectPrototypeNames.contains e.1 = false

/-- The sample form without the address field. -/
def noAddressForm : FormData :=
  [("POSTED_BY", "Owner"), ("RERA", "on"), ("BHK_NO.", "2"), ("BHK_OR_RK", "BHK"),
   ("SQUARE_FT", "1200"), ("LONGITUDE", "77.2090"), ("LATITUDE", "28.6139")]

/-- Every own key of the first object is an own key of the second. -/
def Extends (o o2 : JSObject) : Prop := ∀ k, hasOwn o k = true → hasOwn o2 k = true

/-- The fields the validation of line 350 requires. -/
def requiredFields : List String :=
  ["BHK_OR_RK", "BHK_NO.", "SQUARE_FT", "POSTED_BY", "LONGITUDE", "LATITUDE"]

/-- The message of line 351. -/
def validationMessage : String := "Please fill in all required fields (marked with *)"

/-- The sample form without the property type. -/
def noTypeForm : FormData :=
  [("POSTED_BY", "Owner"), ("RERA", "on"), ("BHK_NO.", "2"), ("SQUARE_FT", "1200"),
   ("ADDRESS", "Connaught Place, New Delhi"), ("LONGITUDE", "77.2090"),
   ("LATITUDE", "28.6139")]

/-- The alias fields of lines 356 to 360. -/
def aliasFields : List String := ["area", "bedrooms", "longitude", "latitude", "CITY_NAME"]

/-- The form supplies no value for an alias field: every entry of such a name is empty. -/
def NoAliasValues (formData : FormData) : Prop :=
  ∀ e ∈ formData, e.1 ∈ aliasFields → e.2 = ""

/-- The fields line 328 converts to Numbers. -/
def numericFields : List String := ["BHK_NO.", "SQUARE_FT", "LONGITUDE", "LATITUDE"]

/-- The value of the last form entry named `k`, if there is one. -/
def lastValue (formData : FormData) (k : String) : Option String :=
  formData.foldl (fun acc e => if e.1 = k then some e.2 else acc) none

/-- The sample form with a bedroom count that is not a number. -/
def unparsedForm : FormData :=
  [("POSTED_BY", "Owner"), ("RERA", "on"), ("BHK_NO.", "two"), ("BHK_OR_RK", "BHK"),
   ("SQUARE_FT", "1200"), ("ADDRESS", "Connaught Place, New Delhi"),
   ("LONGITUDE", "77.2090"), ("LATITUDE", "28.6139")]

/-- The message of line 432. -/
def connectivityMessage : String :=
  "Cannot connect to server. Make sure the server is running on http://localhost:5001"

/-- The fallback message of line 430. -/
def fallbackMessage : String := "Failed to get prediction. Please try again."

/-- An error body with every field the handler reads. -/
def sampleErrorBody : ResponseBody :=
  { error := some "Feature mismatch",
    received_columns := some ["POSTED_BY", "RERA"],
    expected_columns := some (Columns.list ["POSTED_BY", "UNDER_CONSTRUCTION", "RERA"]),
    details := some "2 columns received, 3 expected",
    hint := some "Send every expected column" }

/-- The message of the SyntaxError an engine throws for a body that starts with `<`. -/
def htmlParseError : String := "Unexpected token < in JSON at position 0"

/-- The message of the TypeError for a call of `join` on a text. -/
def joinTypeError : String := "result.received_columns.join is not a function"

/-- An error body whose `received_columns` is a text, not an array. -/
def textColumnsObject : ErrorObject :=
  { error := some "Feature mismatch", received_columns := some (Columns.text "POSTED_BY, RERA"),
    expected_columns := some (Columns.list ["POSTED_BY", "UNDER_CONSTRUCTION", "RERA"]),
    details := none, hint := none }

/-- The sample error body as it is sent. -/
def sampleErrorObject : ErrorObject :=
  { error := some "Feature mismatch",
    received_columns := some (Columns.list ["POSTED_BY", "RERA"]),
    expected_columns := some (Columns.list ["POSTED_BY", "UNDER_CONSTRUCTION", "RERA"]),
    details := some "2 columns received, 3 expected",
    hint := some "Send every expected column" }

/-- The text is the value `(-1)^neg * k * 2^-1074` in decimal with exactly `f` digits after
the point: an optional minus sign, the digits of the integer part, a point and `f` digits,
and the digits read as one integer are the nearest integer to the magnitude times `10^f`
(the larger on a tie). -/
def IsFixedDecimal (f : Nat) (neg : Bool) (k : Nat) (text : String) : Prop :=
  ∃ ip fp : List Char,
    text = String.mk ((if neg && k != 0 then ['-'] else []) ++ ip ++ '.' :: fp) ∧
    fp.length = f ∧ ip ≠ [] ∧ (∀ c ∈ ip ++ fp, c.isDigit = true) ∧
    2 * digitsVal (ip ++ fp) * one ≤ 2 * k * 10 ^ f + one ∧
    2 * k * 10 ^ f + one < 2 * digitsVal (ip ++ fp) * one + 2 * one

/-- A finite Number of magnitude below `10^21`; every latitude in [-90, 90] and every
longitude in [-180, 180] is one. -/
def IsPlainFinite (x : JSNum) : Prop := ∃ neg k, x = JSNum.fin neg k ∧ k < 10 ^ 21 * one

/-- The text is `x` in decimal with exactly six digits after the point. -/
def IsSixDecimals (x : JSNum) (text : String) : Prop :=
  ∃ neg k, x = JSNum.fin neg k ∧ IsFixedDecimal 6 neg k text

/-- The binary64 value of the literal `28.6139`: `8054096836101040 * 2^-48`. -/
def sampleLat : JSNum := JSNum.fin false (8054096836101040 * 2 ^ 1026)

/-- The binary64 value of the literal `77.2090`: `5433100369213260 * 2^-46`. -/
def sampleLng : JSNum := JSNum.fin false (5433100369213260 * 2 ^ 1028)

/-- The Number a flag field gets from its last form entry: 1 for the value `1` or `on`,
0 for any other value and when the form has no entry of that name. -/
def flagValue : Option String → JSNum
  | some v => if v = "1" ∨ v = "on" then ofNat 1 else ofNat 0
  | none => ofNat 0

/-- The sample form with the RERA box submitted with the value `true`. -/
def checkedTrueForm : FormData :=
  [("POSTED_BY", "Owner"), ("RERA", "true"), ("BHK_NO.", "2"), ("BHK_OR_RK", "BHK"),
   ("SQUARE_FT", "1200"), ("ADDRESS", "Connaught Place, New Delhi"),
   ("LONGITUDE", "77.2090"), ("LATITUDE", "28.6139")]

/-- The page before any map is made: the module variables as declared at lines 9 to 13. -/
def freshPage : MapPage :=
  { useGoogleMaps := false, map := none, marker := none, geocoder := none,
    autocomplete := none, created := 0, fields := ⟨"", "", ""⟩, errorCard := none,
    console := [] }

/-- The commercial library is not loaded. -/
def envWithoutGoogle : InitEnv :=
  { googleLoaded := false, googleMapsKey := some "AIzaSample", hasAddressInput := true,
    libraryReturns := true }

/-- The commercial library is loaded and the page has a key. -/
def envWithGoogle : InitEnv :=
  { googleLoaded := true, googleMapsKey := some "AIzaSample", hasAddressInput := true,
    libraryReturns := true }

/-- The page after the free backend was set up and the marker was moved to the sample
coordinate. -/
def markedPage : MapPage :=
  (placeMarkerAndGetCoordinates (Location.array sampleLat sampleLng)
    (initMap envWithoutGoogle freshPage)).1

/-- The submit control as `setLoadingState(false)` leaves it. -/
def idleControl : SubmitControl :=
  { disabled := false, btnText := "Predict Price", loaderDisplay := "none",
    contentOpacity := "1" }

/-- A page at rest before a submission: the control idle, the error card not displayed,
no timer pending. -/
def restingPage : SubmitPage :=
  { now := 0, control := idleControl,
    card := { messageHtml := "", display := "none", opacity := "0", transform := "scale(0.9)",
              transition := "" },
    timers := [] }

/-- The page after the fallback timer set up the free backend. -/
def pageAfterFallback : MapPage :=
  runInitCalls [(InitCall.fallbackTimer, envWithoutGoogle)] freshPage

/-- The page after the fallback timer and then the load callback of the commercial
library. -/
def pageAfterLateCallback : MapPage :=
  runInitCalls [(InitCall.fallbackTimer, envWithoutGoogle), (InitCall.loadCallback, envWithGoogle)]
    freshPage

/-! # Properties -/

/-! ## Objects -/

theorem get_put_same (o : JSObject) (k : String) (v : JSVal) : get (put o k v) k = v := by
  induction o with
  | nil => simp [put, get]
  | cons e rest ih =>
    obtain ⟨k1, v1⟩ := e
    by_cases h : k1 = k
    · simp [put, get, h]
    · simp [put, get, h, ih]

theorem get_put_other (o : JSObject) (k k2 : String) (v : JSVal) (h : k2 ≠ k) :
    get (put o k v) k2 = get o k2 := by
  induction o with
  | nil => simp [put, get, Ne.symm h]
  | cons e rest ih =>
    obtain ⟨k1, v1⟩ := e
    by_cases h1 : k1 = k
    · subst h1
      simp [put, get, Ne.symm h]
    · by_cases h2 : k1 = k2
      · subst h2
        simp [put, get, h1]
      · simp [put, get, h1, h2, ih]

theorem hasOwn_put (o : JSObject) (k k2 : String) (v : JSVal) :
    hasOwn (put o k v) k2 = (decide (k2 = k) || hasOwn o k2) := by
  induction o with
  | nil => simp [put, hasOwn, eq_comm]
  | cons e rest ih =>
    obtain ⟨k1, v1⟩ := e
    by_cases h1 : k1 = k
    · subst h1
      by_cases h2 : k1 = k2
      · simp [put, hasOwn, h2]
      · simp [put, hasOwn, h2, Ne.symm h2]
    · by_cases h2 : k1 = k2
      · subst h2
        simp [put, hasOwn, h1]
      · simp [put, hasOwn, h1, h2, ih]

theorem hasOwn_iff_mem (o : JSObject) (k : String) :
    hasOwn o k = true ↔ k ∈ o.map Prod.fst := by
  induction o with
  | nil => simp [hasOwn]
  | cons e rest ih =>
    obtain ⟨k1, v1⟩ := e
    by_cases h : k1 = k
    · simp [hasOwn, h]
    · simp [hasOwn, h, ih, Ne.symm h]

theorem put_of_not_hasOwn (o : JSObject) (k : String) (v : JSVal) (h : hasOwn o k = false) :
    put o k v = o ++ [(k, v)] := by
  induction o with
  | nil => simp [put]
  | cons e rest ih =>
    obtain ⟨k1, v1⟩ := e
    by_cases h1 : k1 = k
    · simp [hasOwn, h1] at h
    · simp only [hasOwn, h1, if_false] at h
      simp [put, h1, ih h]

theorem keys_put_of_hasOwn (o : JSObject) (k : String) (v : JSVal) (h : hasOwn o k = true) :
    (put o k v).map Prod.fst = o.map Prod.fst := by
  induction o with
  | nil => simp [hasOwn] at h
  | cons e rest ih =>
    obtain ⟨k1, v1⟩ := e
    by_cases h1 : k1 = k
    · simp [put, h1]
    · simp only [hasOwn, h1, if_false] at h
      simp [put, h1, ih h]

theorem get_undefined_of_not_hasOwn (o : JSObject) (k : String) (h : hasOwn o k = false) :
    get o k = JSVal.undefined := by
  induction o with
  | nil => simp [get]
  | cons e rest ih =>
    obtain ⟨k1, v1⟩ := e
    by_cases h1 : k1 = k
    · simp [hasOwn, h1] at h
    · simp only [hasOwn, h1, if_false] at h
      simp [get, h1, ih h]

theorem get_set_other (o : JSObject) (k k2 : String) (v : JSVal) (h : k2 ≠ k) :
    get (set o k v) k2 = get o k2 := by
  unfold set
  split
  · rfl
  · exact get_put_other o k k2 v h

theorem get_set_same (o : JSObject) (k : String) (v : JSVal) (h : k ≠ "__proto__") :
    get (set o k v) k = v := by
  simp [set, h, get_put_same]

theorem hasOwn_set_of_hasOwn (o : JSObject) (k k2 : String) (v : JSVal)
    (h : hasOwn o k2 = true) : hasOwn (set o k v) k2 = true := by
  unfold set
  split
  · exact h
  · simp [hasOwn_put, h]

theorem hasOwn_set_same (o : JSObject) (k : String) (v : JSVal) (h : k ≠ "__proto__") :
    hasOwn (set o k v) k = true := by
  simp [set, h, hasOwn_put]

theorem keysNodup_put (o : JSObject) (k : String) (v : JSVal) (h : KeysNodup o) :
    KeysNodup (put o k v) := by
  unfold KeysNodup at *
  cases hk : hasOwn o k with
  | true => rw [keys_put_of_hasOwn o k v hk]; exact h
  | false =>
    rw [put_of_not_hasOwn o k v hk, List.map_append, List.nodup_append]
    refine ⟨h, by simp, ?_⟩
    intro a ha hb
    simp only [List.map_cons, List.map_nil, List.mem_singleton] at hb
    subst hb
    have := (hasOwn_iff_mem o a).mpr ha
    simp [hk] at this

theorem keysNodup_set (o : JSObject) (k : String) (v : JSVal) (h : KeysNodup o) :
    KeysNodup (set o k v) := by
  unfold set
  split
  · exact h
  · exact keysNodup_put o k v h

theorem allDefined_put (o : JSObject) (k : String) (v : JSVal) (h : AllDefined o)
    (hv : v ≠ JSVal.undefined) : AllDefined (put o k v) := by
  induction o with
  | nil =>
    intro e he
    simp only [put, List.mem_singleton] at he
    subst he
    exact hv
  | cons e rest ih =>
    obtain ⟨k1, v1⟩ := e
    have hrest : AllDefined rest := fun e he => h e (List.mem_cons_of_mem _ he)
    by_cases h1 : k1 = k
    · intro e he
      simp only [put, h1, if_true, List.mem_cons] at he
      rcases he with he | he
      · subst he; exact hv
      · exact hrest e he
    · intro e he
      simp only [put, h1, if_false, List.mem_cons] at he
      rcases he with he | he
      · subst he; exact h (k1, v1) (List.mem_cons_self _ _)
      · exact ih hrest e he

theorem allDefined_set (o : JSObject) (k : String) (v : JSVal) (h : AllDefined o)
    (hv : v ≠ JSVal.undefined) : AllDefined (set o k v) := by
  unfold set
  split
  · exact h
  · exact allDefined_put o k v h hv

theorem get_mem_of_hasOwn (o : JSObject) (k : String) (h : hasOwn o k = true) :
    (k, get o k) ∈ o := by
  induction o with
  | nil => simp [hasOwn] at h
  | cons e rest ih =>
    obtain ⟨k1, v1⟩ := e
    by_cases h1 : k1 = k
    · simp [get, h1]
    · simp only [hasOwn, h1, if_false] at h
      simp [get, h1, ih h]

theorem get_defined_of_hasOwn (o : JSObject) (k : String) (hd : AllDefined o)
    (h : hasOwn o k = true) : get o k ≠ JSVal.undefined :=
  hd (k, get o k) (get_mem_of_hasOwn o k h)

theorem hasOwn_of_get_defined (o : JSObject) (k : String) (h : get o k ≠ JSVal.undefined) :
    hasOwn o k = true := by
  cases hk : hasOwn o k with
  | true => rfl
  | false => exact absurd (get_undefined_of_not_hasOwn o k hk) h

/-! ## Enumeration order -/

theorem perm_insertIndex (k : String) (l : List String) : (insertIndex k l).Perm (k :: l) := by
  induction l with
  | nil => simp [insertIndex]
  | cons k1 rest ih =>
    unfold insertIndex
    split
    · exact List.Perm.refl _
    · exact ((List.Perm.cons k1 ih).trans (List.Perm.swap k k1 rest))

theorem perm_sortIndex (l : List String) : (l.foldr insertIndex []).Perm l := by
  induction l with
  | nil => simp
  | cons k rest ih =>
    simp only [List.foldr_cons]
    exact (perm_insertIndex k _).trans (List.Perm.cons k ih)

theorem mem_ownKeys (o : JSObject) (k : String) : k ∈ ownKeys o ↔ k ∈ o.map Prod.fst := by
  unfold ownKeys orderKeys sortedIndices
  simp only [List.mem_append, (perm_sortIndex _).mem_iff, List.mem_filter]
  constructor
  · rintro (h | h) <;> exact h.1
  · intro h
    cases hk : isArrayIndex k with
    | true => exact Or.inl ⟨h, rfl⟩
    | false => exact Or.inr ⟨h, by simp [hk]⟩

theorem nodup_ownKeys (o : JSObject) (h : KeysNodup o) : (ownKeys o).Nodup := by
  unfold ownKeys orderKeys sortedIndices
  rw [List.nodup_append]
  refine ⟨(perm_sortIndex _).nodup_iff.mpr (h.filter _), h.filter _, ?_⟩
  intro a ha hb
  rw [(perm_sortIndex _).mem_iff] at ha
  simp only [List.mem_filter] at ha hb
  simp [ha.2] at hb

theorem get_eq_of_mem (o : JSObject) (k : String) (v : JSVal) (hn : KeysNodup o)
    (h : (k, v) ∈ o) : get o k = v := by
  induction o with
  | nil => simp at h
  | cons e rest ih =>
    obtain ⟨k1, v1⟩ := e
    unfold KeysNodup at hn
    simp only [List.map_cons, List.nodup_cons] at hn
    simp only [List.mem_cons, Prod.mk.injEq] at h
    rcases h with ⟨hk, hv⟩ | h
    · simp [get, hk, hv]
    · have hne : k1 ≠ k := by
        intro hk
        apply hn.1
        rw [hk]
        exact List.mem_map_of_mem Prod.fst h
      simp [get, hne, ih hn.2 h]

theorem mem_jsonMembers (o : JSObject) (k : String) (v : JSVal) :
    (k, v) ∈ jsonMembers o ↔ k ∈ o.map Prod.fst ∧ v = get o k ∧ v ≠ JSVal.undefined := by
  unfold jsonMembers
  simp only [List.mem_filter, List.mem_map, mem_ownKeys, Prod.mk.injEq]
  constructor
  · rintro ⟨⟨a, ha, rfl, rfl⟩, hv⟩
    exact ⟨ha, rfl, by simpa using hv⟩
  · rintro ⟨hk, rfl, hv⟩
    exact ⟨⟨k, hk, rfl, rfl⟩, by simpa using hv⟩

/-! ## The reorder step -/

theorem proto_contains_proto : objectPrototypeNames.contains "__proto__" = true := by decide

theorem not_proto_of_not_contains (k : String)
    (h : objectPrototypeNames.contains k = false) : k ≠ "__proto__" := by
  intro hk
  rw [hk, proto_contains_proto] at h
  exact Bool.noConfusion h

theorem hasOwn_snoc (od : JSObject) (k a : String) (v : JSVal) (h : hasOwn od k = false) :
    hasOwn (od ++ [(k, v)]) a = (decide (a = k) || hasOwn od a) := by
  rw [← put_of_not_hasOwn od k v h, hasOwn_put]

theorem firstLoop_eq (data : JSObject) (l : List String) :
    ∀ od : JSObject, l.Nodup → (∀ k ∈ l, objectPrototypeNames.contains k = false) →
      (∀ k ∈ l, hasOwn od k = false) →
      l.foldl (fun od key => if jsIn key data then set od key (get data key) else od) od =
        od ++ (l.filter (fun k => hasOwn data k)).map (entryOf data) := by
  induction l with
  | nil => intro od _ _ _; simp
  | cons k rest ih =>
    intro od hnd hp hod
    have hpk := hp k (List.mem_cons_self _ _)
    have hk := not_proto_of_not_contains k hpk
    have hodk := hod k (List.mem_cons_self _ _)
    rw [List.nodup_cons] at hnd
    have hjs : jsIn k data = hasOwn data k := by
      unfold jsIn
      rw [hpk, Bool.or_false]
    rw [List.foldl_cons, hjs]
    cases hd : hasOwn data k with
    | false =>
      rw [if_neg (by simp), List.filter_cons_of_neg (by simp [hd])]
      exact ih od hnd.2 (fun a ha => hp a (List.mem_cons_of_mem _ ha))
        (fun a ha => hod a (List.mem_cons_of_mem _ ha))
    | true =>
      rw [if_pos rfl, List.filter_cons_of_pos hd]
      have hput : set od k (get data k) = od ++ [(k, get data k)] := by
        unfold set
        rw [if_neg hk]
        exact put_of_not_hasOwn od k _ hodk
      rw [hput, ih (od ++ [(k, get data k)]) hnd.2
        (fun a ha => hp a (List.mem_cons_of_mem _ ha))]
      · rw [List.map_cons, List.append_assoc]
        rfl
      · intro a ha
        rw [hasOwn_snoc od k a _ hodk]
        have hne : a ≠ k := fun h => hnd.1 (h ▸ ha)
        simp [hne, hod a (List.mem_cons_of_mem _ ha)]

theorem secondLoop_eq (data : JSObject) (l : List String) :
    ∀ od : JSObject, l.Nodup →
      l.foldl (fun od key => if !jsIn key od then set od key (get data key) else od) od =
        od ++ (l.filter (fun k => !hasOwn od k && !objectPrototypeNames.contains k)).map
          (entryOf data) := by
  induction l with
  | nil => intro od _; simp
  | cons k rest ih =>
    intro od hnd
    rw [List.nodup_cons] at hnd
    rw [List.foldl_cons]
    cases hj : jsIn k od with
    | true =>
      have hc : ¬ ((fun k => !hasOwn od k && !objectPrototypeNames.contains k) k = true) := by
        unfold jsIn at hj
        rw [Bool.or_eq_true] at hj
        show ¬ ((!hasOwn od k && !objectPrototypeNames.contains k) = true)
        rcases hj with h | h
        · rw [h]; simp
        · rw [h]; simp
      rw [if_neg (by simp), @List.filter_cons_of_neg _
        (fun k => !hasOwn od k && !objectPrototypeNames.contains k) k rest hc]
      exact ih od hnd.2
    | false =>
      unfold jsIn at hj
      rw [Bool.or_eq_false_iff] at hj
      have hk := not_proto_of_not_contains k hj.2
      have hc : (fun k => !hasOwn od k && !objectPrototypeNames.contains k) k = true := by
        show (!hasOwn od k && !objectPrototypeNames.contains k) = true
        rw [hj.1, hj.2]
        rfl
      rw [if_pos (by simp), @List.filter_cons_of_pos _
        (fun k => !hasOwn od k && !objectPrototypeNames.contains k) k rest hc]
      have hput : set od k (get data k) = od ++ [(k, get data k)] := by
        unfold set
        rw [if_neg hk]
        exact put_of_not_hasOwn od k _ hj.1
      rw [hput, ih (od ++ [(k, get data k)]) hnd.2]
      have hf : rest.filter (fun a => !hasOwn (od ++ [(k, get data k)]) a &&
            !objectPrototypeNames.contains a) =
          rest.filter (fun a => !hasOwn od a && !objectPrototypeNames.contains a) := by
        apply List.filter_congr
        intro a ha
        rw [hasOwn_snoc od k a _ hj.1]
        have hne : a ≠ k := fun h => hnd.1 (h ▸ ha)
        simp [hne]
      rw [hf, List.map_cons, List.append_assoc]
      rfl

theorem hasOwn_map_entryOf (data : JSObject) (l : List String) (k : String) :
    hasOwn (l.map (entryOf data)) k = true ↔ k ∈ l := by
  rw [hasOwn_iff_mem, List.map_map]
  have : (Prod.fst ∘ entryOf data) = id := by
    funext a
    rfl
  rw [this, List.map_id]

theorem reorder_eq (data : JSObject) (h : KeysNodup data) :
    reorder data =
      (expectedOrder.filter (fun k => hasOwn data k)).map (entryOf data) ++
      ((ownKeys data).filter
        (fun k => !expectedOrder.contains k && !objectPrototypeNames.contains k)).map
          (entryOf data) := by
  unfold reorder
  simp only
  rw [firstLoop_eq data expectedOrder [] (by decide) (by decide) (fun _ _ => rfl),
    secondLoop_eq data (ownKeys data) _ (nodup_ownKeys data h), List.nil_append]
  congr 2
  apply List.filter_congr
  intro k hk
  have hown : hasOwn data k = true := (hasOwn_iff_mem data k).mpr ((mem_ownKeys data k).mp hk)
  have hiff := hasOwn_map_entryOf data (expectedOrder.filter (fun k => hasOwn data k)) k
  have : hasOwn ((expectedOrder.filter (fun k => hasOwn data k)).map (entryOf data)) k =
      expectedOrder.contains k := by
    rw [Bool.eq_iff_iff, hiff, List.mem_filter]
    simp [hown]
  rw [this]

/-! ## What every stage keeps -/

theorem get_set_cases (o : JSObject) (k k2 : String) (v : JSVal) :
    (k2 = k ∧ get (set o k v) k2 = v) ∨ get (set o k v) k2 = get o k2 := by
  by_cases h : k2 = k
  · by_cases hp : k = "__proto__"
    · right
      simp [set, hp]
    · left
      exact ⟨h, by rw [h]; exact get_set_same o k v hp⟩
  · right
    exact get_set_other o k k2 v h

theorem flagsOk_set (o : JSObject) (k : String) (v : JSVal) (h : FlagsOk o)
    (hv : isFlagKey k → v = JSVal.num (ofNat 0) ∨ v = JSVal.num (ofNat 1)) :
    FlagsOk (set o k v) := by
  intro k2 hk2
  rcases get_set_cases o k k2 v with ⟨hk, hg⟩ | hg
  · rw [hg]
    exact hv (hk ▸ hk2)
  · rw [hg]
    exact h k2 hk2

theorem flagsOk_initData : FlagsOk initData := by
  intro k hk
  rcases hk with rfl | rfl | rfl | rfl <;> exact Or.inl rfl

theorem keysNodup_initData : KeysNodup initData := by
  unfold KeysNodup initData
  decide

theorem allDefined_initData : AllDefined initData := by
  intro e he
  simp only [initData, List.mem_cons, List.mem_singleton, List.not_mem_nil, or_false] at he
  rcases he with rfl | rfl | rfl | rfl <;> simp

theorem numeric_not_flag (k : String)
    (h : ["BHK_NO.", "SQUARE_FT", "LONGITUDE", "LATITUDE"].contains k = true) : ¬ isFlagKey k := by
  intro hk
  rcases hk with rfl | rfl | rfl | rfl <;> exact absurd h (by decide)

theorem jsOr_defined (a b : JSVal) (hb : b ≠ JSVal.undefined) : jsOr a b ≠ JSVal.undefined := by
  unfold jsOr
  split
  · intro h
    rename_i ht
    rw [h] at ht
    exact absurd ht (by decide)
  · exact hb

theorem flagsOk_collectEntry (data : JSObject) (key value : String) (h : FlagsOk data) :
    FlagsOk (collectEntry data key value) := by
  unfold collectEntry
  split
  · apply flagsOk_set _ _ _ h
    intro _
    split
    · exact Or.inr rfl
    · exact Or.inl rfl
  · rename_i hnf
    split
    · exact flagsOk_set _ _ _ h (fun hk => absurd hk hnf)
    · exact flagsOk_set _ _ _ h (fun hk => absurd hk hnf)

theorem keysNodup_collectEntry (data : JSObject) (key value : String) (h : KeysNodup data) :
    KeysNodup (collectEntry data key value) := by
  unfold collectEntry
  split
  · exact keysNodup_set _ _ _ h
  · split
    · exact keysNodup_set _ _ _ h
    · exact keysNodup_set _ _ _ h

theorem allDefined_collectEntry (data : JSObject) (key value : String) (h : AllDefined data) :
    AllDefined (collectEntry data key value) := by
  unfold collectEntry
  split
  · exact allDefined_set _ _ _ h (by simp)
  · split
    · exact allDefined_set _ _ _ h (by simp)
    · exact allDefined_set _ _ _ h (jsOr_defined _ _ (by simp))

theorem collect_invariants (formData : FormData) :
    FlagsOk (collect formData) ∧ KeysNodup (collect formData) ∧ AllDefined (collect formData) := by
  unfold collect
  have key : ∀ (l : FormData) (d : JSObject), FlagsOk d ∧ KeysNodup d ∧ AllDefined d →
      FlagsOk (l.foldl (fun data e => collectEntry data e.1 e.2) d) ∧
      KeysNodup (l.foldl (fun data e => collectEntry data e.1 e.2) d) ∧
      AllDefined (l.foldl (fun data e => collectEntry data e.1 e.2) d) := by
    intro l
    induction l with
    | nil => intro d hd; exact hd
    | cons e rest ih =>
      intro d hd
      rw [List.foldl_cons]
      exact ih _ ⟨flagsOk_collectEntry d e.1 e.2 hd.1, keysNodup_collectEntry d e.1 e.2 hd.2.1,
        allDefined_collectEntry d e.1 e.2 hd.2.2⟩
  exact key formData initData ⟨flagsOk_initData, keysNodup_initData, allDefined_initData⟩

theorem ensureNumber_invariants (data : JSObject) (k : String) (hk : ¬ isFlagKey k)
    (h : FlagsOk data ∧ KeysNodup data ∧ AllDefined data) :
    FlagsOk (ensureNumber data k) ∧ KeysNodup (ensureNumber data k) ∧
      AllDefined (ensureNumber data k) := by
  unfold ensureNumber
  split
  · exact ⟨flagsOk_set _ _ _ h.1 (fun hf => absurd hf hk), keysNodup_set _ _ _ h.2.1,
      allDefined_set _ _ _ h.2.2 (jsOr_defined _ _ (by simp))⟩
  · exact h

theorem ensureFlag_invariants (data : JSObject) (k : String)
    (h : FlagsOk data ∧ KeysNodup data ∧ AllDefined data) :
    FlagsOk (ensureFlag data k) ∧ KeysNodup (ensureFlag data k) ∧
      AllDefined (ensureFlag data k) := by
  unfold ensureFlag
  split
  · exact ⟨flagsOk_set _ _ _ h.1 (fun _ => Or.inl rfl), keysNodup_set _ _ _ h.2.1,
      allDefined_set _ _ _ h.2.2 (by simp)⟩
  · exact h

theorem collected_invariants (formData : FormData) :
    FlagsOk (collected formData) ∧ KeysNodup (collected formData) ∧
      AllDefined (collected formData) := by
  unfold collected ensureFlags ensureNumbers
  have hn : ∀ k, k = "BHK_NO." ∨ k = "SQUARE_FT" ∨ k = "LONGITUDE" ∨ k = "LATITUDE" →
      ¬ isFlagKey k := by
    intro k hk hf
    rcases hk with rfl | rfl | rfl | rfl <;> rcases hf with hf | hf | hf | hf <;>
      exact absurd hf (by decide)
  apply ensureFlag_invariants
  apply ensureFlag_invariants
  apply ensureFlag_invariants
  apply ensureFlag_invariants
  apply ensureNumber_invariants _ _ (hn _ (by simp))
  apply ensureNumber_invariants _ _ (hn _ (by simp))
  apply ensureNumber_invariants _ _ (hn _ (by simp))
  apply ensureNumber_invariants _ _ (hn _ (by simp))
  exact collect_invariants formData

theorem deriveAlias_invariants (data : JSObject) (a src : String) (ha : ¬ isFlagKey a)
    (h : FlagsOk data ∧ KeysNodup data) :
    FlagsOk (deriveAlias data a src) ∧ KeysNodup (deriveAlias data a src) := by
  unfold deriveAlias
  split
  · exact ⟨flagsOk_set _ _ _ h.1 (fun hf => absurd hf ha), keysNodup_set _ _ _ h.2⟩
  · exact h

theorem deriveAlias_allDefined (data : JSObject) (a src : String) (h : AllDefined data)
    (hs : (get data src).truthy = true) : AllDefined (deriveAlias data a src) := by
  unfold deriveAlias
  split
  · apply allDefined_set _ _ _ h
    intro hu
    rw [hu] at hs
    exact absurd hs (by decide)
  · exact h

theorem get_deriveAlias_other (data : JSObject) (a src k : String) (h : k ≠ a) :
    get (deriveAlias data a src) k = get data k := by
  unfold deriveAlias
  split
  · exact get_set_other _ _ _ _ h
  · rfl

theorem deriveAliases_invariants (data : JSObject) (h : FlagsOk data ∧ KeysNodup data) :
    FlagsOk (deriveAliases data) ∧ KeysNodup (deriveAliases data) := by
  have hn : ∀ k, k = "area" ∨ k = "bedrooms" ∨ k = "longitude" ∨ k = "latitude" ∨
      k = "CITY_NAME" → ¬ isFlagKey k := by
    intro k hk hf
    rcases hk with rfl | rfl | rfl | rfl | rfl <;> rcases hf with hf | hf | hf | hf <;>
      exact absurd hf (by decide)
  have h4 := deriveAlias_invariants _ "latitude" "LATITUDE" (hn _ (by simp))
    (deriveAlias_invariants _ "longitude" "LONGITUDE" (hn _ (by simp))
      (deriveAlias_invariants _ "bedrooms" "BHK_NO." (hn _ (by simp))
        (deriveAlias_invariants data "area" "SQUARE_FT" (hn _ (by simp)) h)))
  unfold deriveAliases
  simp only
  split
  · exact ⟨flagsOk_set _ _ _ h4.1 (fun hf => absurd hf (hn _ (by simp))),
      keysNodup_set _ _ _ h4.2⟩
  · exact h4

theorem truthy_of_validation (data : JSObject) (h : validationFails data = false) :
    (get data "BHK_OR_RK").truthy = true ∧ (get data "BHK_NO.").truthy = true ∧
    (get data "SQUARE_FT").truthy = true ∧ (get data "POSTED_BY").truthy = true ∧
    (get data "LONGITUDE").truthy = true ∧ (get data "LATITUDE").truthy = true := by
  unfold validationFails at h
  simp only [Bool.or_eq_false_iff, Bool.not_eq_false_eq_eq_true, Bool.not_eq_eq_eq_not,
    Bool.not_false] at h
  obtain ⟨⟨⟨⟨⟨h1, h2⟩, h3⟩, h4⟩, h5⟩, h6⟩ := h
  exact ⟨h1, h2, h3, h4, h5, h6⟩

theorem deriveAliases_allDefined (data : JSObject) (h : AllDefined data)
    (hv : validationFails data = false) : AllDefined (deriveAliases data) := by
  obtain ⟨_, h2, h3, _, h5, h6⟩ := truthy_of_validation data hv
  have d1 := deriveAlias_allDefined data "area" "SQUARE_FT" h h3
  have d2 := deriveAlias_allDefined _ "bedrooms" "BHK_NO." d1
    (by rw [get_deriveAlias_other _ _ _ _ (by decide)]; exact h2)
  have d3 := deriveAlias_allDefined _ "longitude" "LONGITUDE" d2
    (by rw [get_deriveAlias_other _ _ _ _ (by decide),
          get_deriveAlias_other _ _ _ _ (by decide)]; exact h5)
  have d4 := deriveAlias_allDefined _ "latitude" "LATITUDE" d3
    (by rw [get_deriveAlias_other _ _ _ _ (by decide),
          get_deriveAlias_other _ _ _ _ (by decide),
          get_deriveAlias_other _ _ _ _ (by decide)]; exact h6)
  unfold deriveAliases
  simp only
  split
  · exact allDefined_set _ _ _ d4 (jsOr_defined _ _ (by simp))
  · exact d4

theorem normalizeFlag_value_zero :
    (if JSVal.num (ofNat 0) ≠ JSVal.undefined then
      jsOr (JSVal.num (parseIntVal (JSVal.num (ofNat 0)))) (JSVal.num (ofNat 0))
     else JSVal.num (ofNat 0)) = JSVal.num (ofNat 0) := by decide!

theorem normalizeFlag_value_one :
    (if JSVal.num (ofNat 1) ≠ JSVal.undefined then
      jsOr (JSVal.num (parseIntVal (JSVal.num (ofNat 1)))) (JSVal.num (ofNat 0))
     else JSVal.num (ofNat 0)) = JSVal.num (ofNat 1) := by decide!

theorem normalizeFlag_invariants (data : JSObject) (k : String) (hk : isFlagKey k)
    (h : FlagsOk data ∧ KeysNodup data ∧ AllDefined data) :
    FlagsOk (normalizeFlag data k) ∧ KeysNodup (normalizeFlag data k) ∧
      AllDefined (normalizeFlag data k) := by
  unfold normalizeFlag
  refine ⟨flagsOk_set _ _ _ h.1 (fun _ => ?_), keysNodup_set _ _ _ h.2.1,
    allDefined_set _ _ _ h.2.2 ?_⟩
  · rcases h.1 k hk with h0 | h1
    · rw [h0]; exact Or.inl normalizeFlag_value_zero
    · rw [h1]; exact Or.inr normalizeFlag_value_one
  · split
    · exact jsOr_defined _ _ (by simp)
    · simp

theorem normalizeFlags_invariants (data : JSObject)
    (h : FlagsOk data ∧ KeysNodup data ∧ AllDefined data) :
    FlagsOk (normalizeFlags data) ∧ KeysNodup (normalizeFlags data) ∧
      AllDefined (normalizeFlags data) := by
  unfold normalizeFlags
  apply normalizeFlag_invariants _ _ (Or.inr (Or.inr (Or.inr rfl)))
  apply normalizeFlag_invariants _ _ (Or.inr (Or.inr (Or.inl rfl)))
  apply normalizeFlag_invariants _ _ (Or.inr (Or.inl rfl))
  apply normalizeFlag_invariants _ _ (Or.inl rfl)
  exact h

theorem prepared_invariants (formData : FormData)
    (hv : validationFails (collected formData) = false) :
    FlagsOk (prepared formData) ∧ KeysNodup (prepared formData) ∧
      AllDefined (prepared formData) := by
  have hc := collected_invariants formData
  have ha := deriveAliases_invariants _ ⟨hc.1, hc.2.1⟩
  exact normalizeFlags_invariants _ ⟨ha.1, ha.2, deriveAliases_allDefined _ hc.2.2 hv⟩

theorem keys_reorder (data : JSObject) (h : KeysNodup data) :
    (reorder data).map Prod.fst =
      expectedOrder.filter (fun k => hasOwn data k) ++
      (ownKeys data).filter
        (fun k => !expectedOrder.contains k && !objectPrototypeNames.contains k) := by
  have hid : (Prod.fst ∘ entryOf data) = id := by
    funext a
    rfl
  rw [reorder_eq data h, List.map_append, List.map_map, List.map_map, hid, List.map_id,
    List.map_id]

theorem keysNodup_reorder (data : JSObject) (h : KeysNodup data) : KeysNodup (reorder data) := by
  unfold KeysNodup
  rw [keys_reorder data h, List.nodup_append]
  refine ⟨List.Nodup.filter _ (by decide), (nodup_ownKeys data h).filter _, ?_⟩
  intro a ha hb
  rw [List.mem_filter] at ha hb
  have : expectedOrder.contains a = true := by simpa using ha.1
  rw [this] at hb
  simp at hb

theorem get_reorder_of_mem_keys (data : JSObject) (h : KeysNodup data) (k : String)
    (hk : k ∈ (reorder data).map Prod.fst) : get (reorder data) k = get data k := by
  apply get_eq_of_mem _ _ _ (keysNodup_reorder data h)
  rw [keys_reorder data h, List.mem_append] at hk
  rw [reorder_eq data h, List.mem_append]
  rcases hk with hk | hk
  · exact Or.inl (List.mem_map.mpr ⟨k, hk, rfl⟩)
  · exact Or.inr (List.mem_map.mpr ⟨k, hk, rfl⟩)

theorem mem_keys_reorder_of_expected (data : JSObject) (h : KeysNodup data) (k : String)
    (hk : k ∈ expectedOrder) (ho : hasOwn data k = true) : k ∈ (reorder data).map Prod.fst := by
  rw [keys_reorder data h, List.mem_append]
  exact Or.inl (List.mem_filter.mpr ⟨hk, ho⟩)

theorem sentBody_eq (formData : FormData) (reply : FetchOutcome) :
    sentBody formData reply =
      if validationFails (collected formData) then none else some (payload formData) := by
  unfold sentBody handleFormSubmit
  simp only
  split
  · rfl
  · rfl

theorem flag_mem_expectedOrder (k : String) (hk : isFlagKey k) : k ∈ expectedOrder := by
  rcases hk with rfl | rfl | rfl | rfl <;> decide

/-! ## The flags in the payload -/

/-- C1. For every form submission that sends a request, whatever entries the form has and
whichever boxes are checked, the body has a member for each of UNDER_CONSTRUCTION, RERA,
READY_TO_MOVE and RESALE, and its value is the Number 0 or the Number 1. -/
theorem flags_present_and_binary (formData : FormData) (reply : FetchOutcome) (body : JSObject)
    (hsent : sentBody formData reply = some body) (k : String) (hk : isFlagKey k) :
    (k, JSVal.num (ofNat 0)) ∈ jsonMembers body ∨ (k, JSVal.num (ofNat 1)) ∈ jsonMembers body := by
  rw [sentBody_eq] at hsent
  split at hsent
  · exact absurd hsent (by simp)
  · rename_i hv
    have hv2 : validationFails (collected formData) = false := by simpa using hv
    have hbody : body = reorder (prepared formData) := (Option.some.inj hsent).symm
    rw [hbody]
    obtain ⟨hf, hn, _⟩ := prepared_invariants formData hv2
    have hval := hf k hk
    have hown : hasOwn (prepared formData) k = true := by
      apply hasOwn_of_get_defined
      rcases hval with h | h <;> rw [h] <;> simp
    have hmem := mem_keys_reorder_of_expected _ hn k (flag_mem_expectedOrder k hk) hown
    have hget := get_reorder_of_mem_keys _ hn k hmem
    rcases hval with h | h
    · left
      rw [mem_jsonMembers]
      exact ⟨hmem, by rw [hget, h], by simp⟩
    · right
      rw [mem_jsonMembers]
      exact ⟨hmem, by rw [hget, h], by simp⟩

theorem flags_present_and_binary_witness :
    sentBody sampleForm (FetchOutcome.threw none) = some (payload sampleForm) ∧
    isFlagKey "RERA" ∧
    ((("RERA", JSVal.num (ofNat 0)) ∈ jsonMembers (payload sampleForm)) ∨
      (("RERA", JSVal.num (ofNat 1)) ∈ jsonMembers (payload sampleForm))) :=
  ⟨by decide!, Or.inr (Or.inl rfl),
    flags_present_and_binary sampleForm (FetchOutcome.threw none) (payload sampleForm)
      (by decide!) "RERA" (Or.inr (Or.inl rfl))⟩

/-! ## The order of the keys in the body -/

theorem indexSorted_insertIndex (k : String) (l : List String) (h : IndexSorted l) :
    IndexSorted (insertIndex k l) := by
  induction l with
  | nil => simp [insertIndex, IndexSorted]
  | cons k1 rest ih =>
    unfold IndexSorted at h ih ⊢
    rw [List.pairwise_cons] at h
    unfold insertIndex
    by_cases hle : digitsVal k.toList ≤ digitsVal k1.toList
    · rw [if_pos hle, List.pairwise_cons]
      refine ⟨?_, List.pairwise_cons.mpr h⟩
      intro a ha
      rcases List.mem_cons.mp ha with rfl | ha
      · exact hle
      · exact Nat.le_trans hle (h.1 a ha)
    · rw [if_neg hle, List.pairwise_cons]
      refine ⟨?_, ih h.2⟩
      intro a ha
      rcases List.mem_cons.mp ((perm_insertIndex k rest).mem_iff.mp ha) with rfl | ha
      · exact Nat.le_of_lt (Nat.lt_of_not_le hle)
      · exact h.1 a ha

theorem indexSorted_sortedIndices (ks : List String) : IndexSorted (sortedIndices ks) := by
  unfold sortedIndices
  induction ks.filter isArrayIndex with
  | nil => simp [IndexSorted]
  | cons k rest ih => exact indexSorted_insertIndex k _ ih

theorem sort_of_indexSorted (l : List String) (h : IndexSorted l) :
    l.foldr insertIndex [] = l := by
  induction l with
  | nil => rfl
  | cons k rest ih =>
    unfold IndexSorted at h ih
    rw [List.pairwise_cons] at h
    rw [List.foldr_cons, ih h.2]
    cases rest with
    | nil => rfl
    | cons k1 r =>
      have hle : digitsVal k.toList ≤ digitsVal k1.toList := h.1 k1 (List.mem_cons_self _ _)
      unfold insertIndex
      rw [if_pos hle]

theorem isArrayIndex_of_mem_sortedIndices (ks : List String) (k : String)
    (h : k ∈ sortedIndices ks) : isArrayIndex k = true := by
  unfold sortedIndices at h
  rw [(perm_sortIndex _).mem_iff, List.mem_filter] at h
  exact h.2

theorem filter_index_sortedIndices (ks : List String) :
    (sortedIndices ks).filter isArrayIndex = sortedIndices ks :=
  List.filter_eq_self.mpr (fun k hk => isArrayIndex_of_mem_sortedIndices ks k hk)

theorem filter_plain_sortedIndices (ks : List String) :
    (sortedIndices ks).filter (fun k => !isArrayIndex k) = [] := by
  rw [List.filter_eq_nil_iff]
  intro k hk
  simp [isArrayIndex_of_mem_sortedIndices ks k hk]

theorem orderKeys_of_layout (idx a b : List String) (hs : IndexSorted idx)
    (hi : ∀ k ∈ idx, isArrayIndex k = true) (ha : ∀ k ∈ a, isArrayIndex k = false)
    (hb : ∀ k ∈ b, isArrayIndex k = false) :
    orderKeys (a ++ (idx ++ b)) = idx ++ (a ++ b) := by
  have fa : a.filter isArrayIndex = [] :=
    List.filter_eq_nil_iff.mpr (fun k hk => by simp [ha k hk])
  have fb : b.filter isArrayIndex = [] :=
    List.filter_eq_nil_iff.mpr (fun k hk => by simp [hb k hk])
  have fi : idx.filter isArrayIndex = idx := List.filter_eq_self.mpr hi
  have ga : a.filter (fun k => !isArrayIndex k) = a :=
    List.filter_eq_self.mpr (fun k hk => by simp [ha k hk])
  have gb : b.filter (fun k => !isArrayIndex k) = b :=
    List.filter_eq_self.mpr (fun k hk => by simp [hb k hk])
  have gi : idx.filter (fun k => !isArrayIndex k) = [] :=
    List.filter_eq_nil_iff.mpr (fun k hk => by simp [hi k hk])
  unfold orderKeys sortedIndices
  rw [List.filter_append, List.filter_append, List.filter_append, List.filter_append,
    fa, fb, fi, ga, gb, gi, List.nil_append, List.append_nil, List.nil_append,
    sort_of_indexSorted idx hs]

theorem expected_not_index (k : String) (h : k ∈ expectedOrder) : isArrayIndex k = false := by
  have hall : expectedOrder.all (fun k => !isArrayIndex k) = true := by decide!
  rw [List.all_eq_true] at hall
  simpa using hall k h

theorem proto_not_index (k : String) (h : k ∈ objectPrototypeNames) :
    isArrayIndex k = false := by
  have hall : objectPrototypeNames.all (fun k => !isArrayIndex k) = true := by decide!
  rw [List.all_eq_true] at hall
  simpa using hall k h

theorem ownKeys_reorder (data : JSObject) (h : KeysNodup data) :
    ownKeys (reorder data) =
      indexKeys data ++ (expectedOrder.filter (fun k => hasOwn data k) ++ extraKeys data) := by
  have hkeep : (indexKeys data).filter
      (fun k => !expectedOrder.contains k && !objectPrototypeNames.contains k) =
      indexKeys data := by
    apply List.filter_eq_self.mpr
    intro k hk
    have hidx := isArrayIndex_of_mem_sortedIndices _ k hk
    have h1 : expectedOrder.contains k = false := by
      cases hc : expectedOrder.contains k with
      | false => rfl
      | true =>
        have := expected_not_index k (by simpa using hc)
        rw [hidx] at this
        exact Bool.noConfusion this
    have h2 : objectPrototypeNames.contains k = false := by
      cases hc : objectPrototypeNames.contains k with
      | false => rfl
      | true =>
        have := proto_not_index k (by simpa using hc)
        rw [hidx] at this
        exact Bool.noConfusion this
    rw [h1, h2]
    rfl
  have hown : ownKeys data = indexKeys data ++ plainKeys data := rfl
  unfold ownKeys
  rw [keys_reorder data h, hown, List.filter_append, hkeep]
  apply orderKeys_of_layout
  · exact indexSorted_sortedIndices _
  · exact fun k hk => isArrayIndex_of_mem_sortedIndices _ k hk
  · intro k hk
    exact expected_not_index k (List.mem_filter.mp hk).1
  · intro k hk
    have := (List.mem_filter.mp (List.mem_filter.mp hk).1).2
    simpa using this

theorem allDefined_reorder (data : JSObject) (h : KeysNodup data) (hd : AllDefined data) :
    AllDefined (reorder data) := by
  intro e he
  have hk : e.1 ∈ (reorder data).map Prod.fst := List.mem_map_of_mem Prod.fst he
  have hg := get_reorder_of_mem_keys data h e.1 hk
  have he2 : get (reorder data) e.1 = e.2 :=
    get_eq_of_mem _ _ _ (keysNodup_reorder data h) he
  rw [← he2, hg]
  apply get_defined_of_hasOwn data e.1 hd
  rw [keys_reorder data h, List.mem_append] at hk
  rcases hk with hk | hk
  · exact (List.mem_filter.mp hk).2
  · exact (hasOwn_iff_mem data e.1).mpr ((mem_ownKeys data e.1).mp (List.mem_filter.mp hk).1)

theorem jsonKeys_eq_ownKeys (o : JSObject) (hd : AllDefined o) : jsonKeys o = ownKeys o := by
  unfold jsonKeys jsonMembers
  have hall : ((ownKeys o).map (fun k => (k, get o k))).filter
      (fun e => e.2 != JSVal.undefined) = (ownKeys o).map (fun k => (k, get o k)) := by
    apply List.filter_eq_self.mpr
    intro e he
    obtain ⟨k, hk, rfl⟩ := List.mem_map.mp he
    have := get_defined_of_hasOwn o k hd ((hasOwn_iff_mem o k).mpr ((mem_ownKeys o k).mp hk))
    simpa using this
  rw [hall, List.map_map]
  have : (Prod.fst ∘ fun k => (k, get o k)) = id := by
    funext a
    rfl
  rw [this, List.map_id]

theorem mem_keys_set (o : JSObject) (k k2 : String) (v : JSVal)
    (h : k2 ∈ (set o k v).map Prod.fst) : k2 = k ∨ k2 ∈ o.map Prod.fst := by
  unfold set at h
  split at h
  · exact Or.inr h
  · rw [← hasOwn_iff_mem, hasOwn_put, Bool.or_eq_true, decide_eq_true_eq, hasOwn_iff_mem] at h
    exact h

theorem keysFrom_set (o : JSObject) (formData : FormData) (k : String) (v : JSVal)
    (h : KeysFrom o formData) (hk : k ∈ expectedOrder ∨ k ∈ formData.map Prod.fst) :
    KeysFrom (set o k v) formData := by
  intro k2 hk2
  rcases mem_keys_set o k k2 v hk2 with rfl | h2
  · exact hk
  · exact h k2 h2

theorem keysFrom_collect (formData : FormData) : KeysFrom (collect formData) formData := by
  unfold collect
  have key : ∀ (l : FormData) (d : JSObject), (∀ e ∈ l, e ∈ formData) → KeysFrom d formData →
      KeysFrom (l.foldl (fun data e => collectEntry data e.1 e.2) d) formData := by
    intro l
    induction l with
    | nil => intro d _ hd; exact hd
    | cons e rest ih =>
      intro d hl hd
      rw [List.foldl_cons]
      apply ih _ (fun a ha => hl a (List.mem_cons_of_mem _ ha))
      have hmem : e.1 ∈ expectedOrder ∨ e.1 ∈ formData.map Prod.fst :=
        Or.inr (List.mem_map_of_mem Prod.fst (hl e (List.mem_cons_self _ _)))
      unfold collectEntry
      split
      · exact keysFrom_set _ _ _ _ hd hmem
      · split
        · exact keysFrom_set _ _ _ _ hd hmem
        · exact keysFrom_set _ _ _ _ hd hmem
  apply key formData initData (fun e he => he)
  intro k hk
  left
  simp only [initData, List.map_cons, List.map_nil, List.mem_cons, List.mem_singleton,
    List.not_mem_nil, or_false] at hk
  rcases hk with rfl | rfl | rfl | rfl <;> decide

theorem keysFrom_prepared (formData : FormData) : KeysFrom (prepared formData) formData := by
  have hset : ∀ (o : JSObject) (k : String) (v : JSVal), KeysFrom o formData →
      k ∈ expectedOrder → KeysFrom (set o k v) formData :=
    fun o k v h hk => keysFrom_set o formData k v h (Or.inl hk)
  have hnum : ∀ (o : JSObject) (k : String), KeysFrom o formData → k ∈ expectedOrder →
      KeysFrom (ensureNumber o k) formData := by
    intro o k h hk
    unfold ensureNumber
    split
    · exact hset _ _ _ h hk
    · exact h
  have hflag : ∀ (o : JSObject) (k : String), KeysFrom o formData → k ∈ expectedOrder →
      KeysFrom (ensureFlag o k) formData := by
    intro o k h hk
    unfold ensureFlag
    split
    · exact hset _ _ _ h hk
    · exact h
  have halias : ∀ (o : JSObject) (a src : String), KeysFrom o formData → a ∈ expectedOrder →
      KeysFrom (deriveAlias o a src) formData := by
    intro o a src h hk
    unfold deriveAlias
    split
    · exact hset _ _ _ h hk
    · exact h
  have hnorm : ∀ (o : JSObject) (k : String), KeysFrom o formData → k ∈ expectedOrder →
      KeysFrom (normalizeFlag o k) formData := by
    intro o k h hk
    unfold normalizeFlag
    exact hset _ _ _ h hk
  have hc : KeysFrom (collected formData) formData := by
    unfold collected ensureFlags ensureNumbers
    apply hflag _ _ _ (by decide)
    apply hflag _ _ _ (by decide)
    apply hflag _ _ _ (by decide)
    apply hflag _ _ _ (by decide)
    apply hnum _ _ _ (by decide)
    apply hnum _ _ _ (by decide)
    apply hnum _ _ _ (by decide)
    apply hnum _ _ _ (by decide)
    exact keysFrom_collect formData
  have ha : KeysFrom (deriveAliases (collected formData)) formData := by
    unfold deriveAliases
    simp only
    have h4 := halias _ "latitude" "LATITUDE" (halias _ "longitude" "LONGITUDE"
      (halias _ "bedrooms" "BHK_NO." (halias _ "area" "SQUARE_FT" hc (by decide)) (by decide))
      (by decide)) (by decide)
    split
    · exact hset _ _ _ h4 (by decide)
    · exact h4
  unfold prepared normalizeFlags
  apply hnorm _ _ _ (by decide)
  apply hnorm _ _ _ (by decide)
  apply hnorm _ _ _ (by decide)
  apply hnorm _ _ _ (by decide)
  exact ha

theorem plain_key_of_prepared (formData : FormData) (hp : PlainNames formData) (k : String)
    (hk : k ∈ (prepared formData).map Prod.fst) :
    isArrayIndex k = false ∧ (expectedOrder.contains k = true ∨
      objectPrototypeNames.contains k = false) := by
  rcases keysFrom_prepared formData k hk with h | h
  · exact ⟨expected_not_index k h, Or.inl (by simpa using h)⟩
  · obtain ⟨e, he, rfl⟩ := List.mem_map.mp h
    exact ⟨(hp e he).1, Or.inr (hp e he).2⟩

/-- The member names of the body for any form data: the array-index keys of the data in
ascending numeric order; the keys of the expected-order list that the data has, in the order
of the list; the other keys of the data in creation order, except those that
`Object.prototype` defines. -/
theorem general_key_order (formData : FormData) (reply : FetchOutcome) (body : JSObject)
    (hsent : sentBody formData reply = some body) :
    jsonKeys body =
      indexKeys (prepared formData) ++
        (expectedOrder.filter (fun k => hasOwn (prepared formData) k) ++
          extraKeys (prepared formData)) := by
  rw [sentBody_eq] at hsent
  split at hsent
  · exact absurd hsent (by simp)
  · rename_i hv
    have hv2 : validationFails (collected formData) = false := by simpa using hv
    have hbody : body = reorder (prepared formData) := (Option.some.inj hsent).symm
    obtain ⟨_, hn, hd⟩ := prepared_invariants formData hv2
    rw [hbody, jsonKeys_eq_ownKeys _ (allDefined_reorder _ hn hd), ownKeys_reorder _ hn]

/-- C2, amended. For every submission that sends a request and whose field names are
neither array indices nor names of `Object.prototype` properties, the member names of the
JSON body are the keys of the expected-order list that the data has, in the order of the
list, followed by every other key of the data, in creation order. -/
theorem body_key_order (formData : FormData) (reply : FetchOutcome) (body : JSObject)
    (hsent : sentBody formData reply = some body) (hp : PlainNames formData) :
    jsonKeys body =
      expectedOrder.filter (fun k => hasOwn (prepared formData) k) ++
        ((prepared formData).map Prod.fst).filter (fun k => !expectedOrder.contains k) := by
  rw [general_key_order formData reply body hsent]
  have hidx : indexKeys (prepared formData) = [] := by
    unfold indexKeys sortedIndices
    have : ((prepared formData).map Prod.fst).filter isArrayIndex = [] := by
      rw [List.filter_eq_nil_iff]
      intro k hk
      simp [(plain_key_of_prepared formData hp k hk).1]
    rw [this]
    rfl
  have hplain : plainKeys (prepared formData) = (prepared formData).map Prod.fst := by
    unfold plainKeys
    apply List.filter_eq_self.mpr
    intro k hk
    simp [(plain_key_of_prepared formData hp k hk).1]
  have hextra : extraKeys (prepared formData) =
      ((prepared formData).map Prod.fst).filter (fun k => !expectedOrder.contains k) := by
    unfold extraKeys
    rw [hplain]
    apply List.filter_congr
    intro k hk
    rcases (plain_key_of_prepared formData hp k hk).2 with h | h
    · rw [h]; rfl
    · rw [h]; simp
  rw [hidx, hextra, List.nil_append]

theorem plainNames_sampleForm : PlainNames (sampleForm ++ [("floor", "3")]) := by
  intro e he
  simp only [sampleForm, List.cons_append, List.nil_append, List.mem_cons, List.mem_singleton,
    List.not_mem_nil, or_false] at he
  rcases he with rfl | rfl | rfl | rfl | rfl | rfl | rfl | rfl | rfl <;> decide!

theorem body_key_order_witness :
    sentBody (sampleForm ++ [("floor", "3")]) (FetchOutcome.threw none) =
      some (payload (sampleForm ++ [("floor", "3")])) ∧
    PlainNames (sampleForm ++ [("floor", "3")]) ∧
    jsonKeys (payload (sampleForm ++ [("floor", "3")])) =
      expectedOrder.filter (fun k => hasOwn (prepared (sampleForm ++ [("floor", "3")])) k) ++
        ((prepared (sampleForm ++ [("floor", "3")])).map Prod.fst).filter
          (fun k => !expectedOrder.contains k) :=
  ⟨by decide!, plainNames_sampleForm,
    body_key_order (sampleForm ++ [("floor", "3")]) (FetchOutcome.threw none)
      (payload (sampleForm ++ [("floor", "3")])) (by decide!) plainNames_sampleForm⟩

/-- C2, as stated, fails in three ways. Without an address entry the body has fifteen
member names, so it is not the expected-order list followed by anything; with all sixteen
expected keys and one more field named `7`, the body starts with `7`; and with one more
field named `toString`, that key of the data is in no member of the body. -/
theorem body_key_order_counterexample :
    (sentBody noAddressForm (FetchOutcome.threw none) = some (payload noAddressForm) ∧
      ¬ ∃ extras, jsonKeys (payload noAddressForm) = expectedOrder ++ extras) ∧
    (sentBody indexNamedForm (FetchOutcome.threw none) = some (payload indexNamedForm) ∧
      ¬ ∃ extras, jsonKeys (payload indexNamedForm) = expectedOrder ++ extras) ∧
    (sentBody protoNamedForm (FetchOutcome.threw none) = some (payload protoNamedForm) ∧
      hasOwn (prepared protoNamedForm) "toString" = true ∧
      "toString" ∉ expectedOrder ∧
      "toString" ∉ jsonKeys (payload protoNamedForm)) := by
  refine ⟨⟨by decide!, ?_⟩, ⟨by decide!, ?_⟩, by decide!, by decide!, by decide, by decide!⟩
  · rintro ⟨extras, he⟩
    have hk : (jsonKeys (payload noAddressForm)).length = 15 := by decide!
    rw [he, List.length_append] at hk
    have : expectedOrder.length = 16 := by decide
    omega
  · rintro ⟨extras, he⟩
    have hk : jsonKeys (payload indexNamedForm) = "7" :: expectedOrder := by decide!
    rw [hk] at he
    have := List.head_eq_of_cons_eq he
    exact absurd this (by decide)

/-! ## Which keys the body has -/

theorem hasOwn_set_other (o : JSObject) (k k2 : String) (v : JSVal) (h : k2 ≠ k) :
    hasOwn (set o k v) k2 = hasOwn o k2 := by
  unfold set
  split
  · rfl
  · rw [hasOwn_put]
    simp [h]

theorem extends_set (o : JSObject) (k : String) (v : JSVal) : Extends o (set o k v) :=
  fun k2 h => hasOwn_set_of_hasOwn o k k2 v h

theorem extends_trans (a b c : JSObject) (h1 : Extends a b) (h2 : Extends b c) : Extends a c :=
  fun k h => h2 k (h1 k h)

theorem extends_collectEntry (d : JSObject) (key value : String) :
    Extends d (collectEntry d key value) := by
  unfold collectEntry
  split
  · exact extends_set _ _ _
  · split
    · exact extends_set _ _ _
    · exact extends_set _ _ _

theorem hasOwn_collectEntry_same (d : JSObject) (key value : String) (h : key ≠ "__proto__") :
    hasOwn (collectEntry d key value) key = true := by
  unfold collectEntry
  split
  · exact hasOwn_set_same _ _ _ h
  · split
    · exact hasOwn_set_same _ _ _ h
    · exact hasOwn_set_same _ _ _ h

theorem hasOwn_collectEntry_cases (d : JSObject) (key value k2 : String)
    (h : hasOwn (collectEntry d key value) k2 = true) : k2 = key ∨ hasOwn d k2 = true := by
  have hm : k2 ∈ (collectEntry d key value).map Prod.fst := (hasOwn_iff_mem _ _).mp h
  have : k2 = key ∨ k2 ∈ d.map Prod.fst := by
    unfold collectEntry at hm
    split at hm
    · exact mem_keys_set _ _ _ _ hm
    · split at hm
      · exact mem_keys_set _ _ _ _ hm
      · exact mem_keys_set _ _ _ _ hm
  rcases this with h1 | h1
  · exact Or.inl h1
  · exact Or.inr ((hasOwn_iff_mem _ _).mpr h1)

theorem hasOwn_fold_collect (k2 : String) (hk : k2 ≠ "__proto__") (l : FormData) :
    ∀ d : JSObject, hasOwn (l.foldl (fun data e => collectEntry data e.1 e.2) d) k2 = true ↔
      (hasOwn d k2 = true ∨ k2 ∈ l.map Prod.fst) := by
  induction l with
  | nil => intro d; simp
  | cons e rest ih =>
    intro d
    rw [List.foldl_cons, ih, List.map_cons, List.mem_cons]
    constructor
    · rintro (h | h)
      · rcases hasOwn_collectEntry_cases d e.1 e.2 k2 h with h1 | h1
        · exact Or.inr (Or.inl h1)
        · exact Or.inl h1
      · exact Or.inr (Or.inr h)
    · rintro (h | h | h)
      · exact Or.inl (extends_collectEntry d e.1 e.2 k2 h)
      · left
        rw [h]
        exact hasOwn_collectEntry_same d e.1 e.2 (h ▸ hk)
      · exact Or.inr h

theorem extends_ensureNumber (d : JSObject) (k : String) : Extends d (ensureNumber d k) := by
  unfold ensureNumber
  split
  · exact extends_set _ _ _
  · exact fun _ h => h

theorem extends_ensureFlag (d : JSObject) (k : String) : Extends d (ensureFlag d k) := by
  unfold ensureFlag
  split
  · exact extends_set _ _ _
  · exact fun _ h => h

theorem extends_deriveAlias (d : JSObject) (a src : String) :
    Extends d (deriveAlias d a src) := by
  unfold deriveAlias
  split
  · exact extends_set _ _ _
  · exact fun _ h => h

theorem extends_normalizeFlags (d : JSObject) : Extends d (normalizeFlags d) := by
  unfold normalizeFlags normalizeFlag
  exact extends_trans _ _ _ (extends_trans _ _ _ (extends_trans _ _ _ (extends_set _ _ _)
    (extends_set _ _ _)) (extends_set _ _ _)) (extends_set _ _ _)

theorem hasOwn_ensureNumber_other (d : JSObject) (k k2 : String) (h : k2 ≠ k) :
    hasOwn (ensureNumber d k) k2 = hasOwn d k2 := by
  unfold ensureNumber
  split
  · exact hasOwn_set_other _ _ _ _ h
  · rfl

theorem hasOwn_ensureFlag_other (d : JSObject) (k k2 : String) (h : k2 ≠ k) :
    hasOwn (ensureFlag d k) k2 = hasOwn d k2 := by
  unfold ensureFlag
  split
  · exact hasOwn_set_other _ _ _ _ h
  · rfl

theorem hasOwn_deriveAlias_other (d : JSObject) (a src k2 : String) (h : k2 ≠ a) :
    hasOwn (deriveAlias d a src) k2 = hasOwn d k2 := by
  unfold deriveAlias
  split
  · exact hasOwn_set_other _ _ _ _ h
  · rfl

theorem hasOwn_deriveAlias_same (d : JSObject) (a src : String) (h : a ≠ "__proto__") :
    hasOwn (deriveAlias d a src) a = true := by
  unfold deriveAlias
  split
  · exact hasOwn_set_same _ _ _ h
  · rename_i ht
    apply hasOwn_of_get_defined
    intro hu
    rw [hu] at ht
    exact ht rfl

theorem extends_deriveAliases (d : JSObject) : Extends d (deriveAliases d) := by
  have h4 : Extends d (deriveAlias (deriveAlias (deriveAlias (deriveAlias d "area" "SQUARE_FT")
      "bedrooms" "BHK_NO.") "longitude" "LONGITUDE") "latitude" "LATITUDE") :=
    extends_trans _ _ _ (extends_trans _ _ _ (extends_trans _ _ _ (extends_deriveAlias _ _ _)
      (extends_deriveAlias _ _ _)) (extends_deriveAlias _ _ _)) (extends_deriveAlias _ _ _)
  unfold deriveAliases
  simp only
  split
  · exact extends_trans _ _ _ h4 (extends_set _ _ _)
  · exact h4

theorem hasOwn_deriveAliases_alias (d : JSObject) (a : String)
    (ha : a = "area" ∨ a = "bedrooms" ∨ a = "longitude" ∨ a = "latitude" ∨ a = "CITY_NAME") :
    hasOwn (deriveAliases d) a = true := by
  have h1 := hasOwn_deriveAlias_same d "area" "SQUARE_FT" (by decide)
  have h2 := hasOwn_deriveAlias_same (deriveAlias d "area" "SQUARE_FT") "bedrooms" "BHK_NO."
    (by decide)
  have h3 := hasOwn_deriveAlias_same
    (deriveAlias (deriveAlias d "area" "SQUARE_FT") "bedrooms" "BHK_NO.") "longitude"
    "LONGITUDE" (by decide)
  have h4 := hasOwn_deriveAlias_same
    (deriveAlias (deriveAlias (deriveAlias d "area" "SQUARE_FT") "bedrooms" "BHK_NO.")
      "longitude" "LONGITUDE") "latitude" "LATITUDE" (by decide)
  have e2 := extends_deriveAlias (deriveAlias d "area" "SQUARE_FT") "bedrooms" "BHK_NO."
  have e3 := extends_deriveAlias
    (deriveAlias (deriveAlias d "area" "SQUARE_FT") "bedrooms" "BHK_NO.") "longitude" "LONGITUDE"
  have e4 := extends_deriveAlias
    (deriveAlias (deriveAlias (deriveAlias d "area" "SQUARE_FT") "bedrooms" "BHK_NO.")
      "longitude" "LONGITUDE") "latitude" "LATITUDE"
  have hfour : a ≠ "CITY_NAME" →
      hasOwn (deriveAlias (deriveAlias (deriveAlias (deriveAlias d "area" "SQUARE_FT")
        "bedrooms" "BHK_NO.") "longitude" "LONGITUDE") "latitude" "LATITUDE") a = true := by
    intro hne
    rcases ha with rfl | rfl | rfl | rfl | rfl
    · exact e4 _ (e3 _ (e2 _ h1))
    · exact e4 _ (e3 _ h2)
    · exact e4 _ h3
    · exact h4
    · exact absurd rfl hne
  unfold deriveAliases
  simp only
  split
  · by_cases hc : a = "CITY_NAME"
    · rw [hc]
      exact hasOwn_set_same _ _ _ (by decide)
    · exact extends_set _ _ _ _ (hfour hc)
  · rename_i ht
    by_cases hc : a = "CITY_NAME"
    · rw [hc]
      apply hasOwn_of_get_defined
      intro hu
      rw [hu] at ht
      exact ht rfl
    · exact hfour hc

theorem hasOwn_of_truthy (o : JSObject) (k : String) (h : (get o k).truthy = true) :
    hasOwn o k = true := by
  apply hasOwn_of_get_defined
  intro hu
  rw [hu] at h
  exact absurd h (by decide)

theorem hasOwn_prepared_of_expected (formData : FormData)
    (hv : validationFails (collected formData) = false) (k : String) (hk : k ∈ expectedOrder)
    (hne : k ≠ "ADDRESS") : hasOwn (prepared formData) k = true := by
  obtain ⟨t1, t2, t3, t4, t5, t6⟩ := truthy_of_validation _ hv
  have hreq : ∀ a, (get (collected formData) a).truthy = true →
      hasOwn (prepared formData) a = true := fun a ha =>
    extends_normalizeFlags _ a (extends_deriveAliases _ a (hasOwn_of_truthy _ a ha))
  have halias : ∀ a, (a = "area" ∨ a = "bedrooms" ∨ a = "longitude" ∨ a = "latitude" ∨
      a = "CITY_NAME") → hasOwn (prepared formData) a = true := fun a ha =>
    extends_normalizeFlags _ a (hasOwn_deriveAliases_alias _ a ha)
  have hflag : ∀ a, isFlagKey a → hasOwn (prepared formData) a = true := by
    intro a ha
    apply hasOwn_of_get_defined
    rcases (prepared_invariants formData hv).1 a ha with h | h <;> rw [h] <;> simp
  simp only [expectedOrder, List.mem_cons, List.mem_singleton, List.not_mem_nil, or_false] at hk
  rcases hk with rfl | rfl | rfl | rfl | rfl | rfl | rfl | rfl | rfl | rfl | rfl | rfl | rfl |
    rfl | rfl | rfl
  · exact hreq _ t4
  · exact hflag _ (Or.inl rfl)
  · exact hflag _ (Or.inr (Or.inl rfl))
  · exact hreq _ t2
  · exact hreq _ t1
  · exact hreq _ t3
  · exact hflag _ (Or.inr (Or.inr (Or.inl rfl)))
  · exact hflag _ (Or.inr (Or.inr (Or.inr rfl)))
  · exact absurd rfl hne
  · exact hreq _ t5
  · exact hreq _ t6
  · exact halias _ (Or.inl rfl)
  · exact halias _ (Or.inr (Or.inl rfl))
  · exact halias _ (Or.inr (Or.inr (Or.inl rfl)))
  · exact halias _ (Or.inr (Or.inr (Or.inr (Or.inl rfl))))
  · exact halias _ (Or.inr (Or.inr (Or.inr (Or.inr rfl))))

theorem hasOwn_prepared_address (formData : FormData) :
    hasOwn (prepared formData) "ADDRESS" = true ↔ "ADDRESS" ∈ formData.map Prod.fst := by
  have h1 : hasOwn (prepared formData) "ADDRESS" = hasOwn (collect formData) "ADDRESS" := by
    unfold prepared normalizeFlags normalizeFlag
    rw [hasOwn_set_other _ _ _ _ (by decide), hasOwn_set_other _ _ _ _ (by decide),
      hasOwn_set_other _ _ _ _ (by decide), hasOwn_set_other _ _ _ _ (by decide)]
    have h2 : hasOwn (deriveAliases (collected formData)) "ADDRESS" =
        hasOwn (collected formData) "ADDRESS" := by
      unfold deriveAliases
      simp only
      split
      · rw [hasOwn_set_other _ _ _ _ (by decide), hasOwn_deriveAlias_other _ _ _ _ (by decide),
          hasOwn_deriveAlias_other _ _ _ _ (by decide),
          hasOwn_deriveAlias_other _ _ _ _ (by decide),
          hasOwn_deriveAlias_other _ _ _ _ (by decide)]
      · rw [hasOwn_deriveAlias_other _ _ _ _ (by decide),
          hasOwn_deriveAlias_other _ _ _ _ (by decide),
          hasOwn_deriveAlias_other _ _ _ _ (by decide),
          hasOwn_deriveAlias_other _ _ _ _ (by decide)]
    rw [h2]
    unfold collected ensureFlags ensureNumbers
    rw [hasOwn_ensureFlag_other _ _ _ (by decide), hasOwn_ensureFlag_other _ _ _ (by decide),
      hasOwn_ensureFlag_other _ _ _ (by decide), hasOwn_ensureFlag_other _ _ _ (by decide),
      hasOwn_ensureNumber_other _ _ _ (by decide), hasOwn_ensureNumber_other _ _ _ (by decide),
      hasOwn_ensureNumber_other _ _ _ (by decide), hasOwn_ensureNumber_other _ _ _ (by decide)]
  rw [h1]
  unfold collect
  rw [hasOwn_fold_collect "ADDRESS" (by decide)]
  have : hasOwn initData "ADDRESS" = false := by decide
  rw [this]
  simp

theorem mem_jsonKeys_reorder_expected (data : JSObject) (hn : KeysNodup data)
    (hd : AllDefined data) (k : String) (hk : k ∈ expectedOrder) :
    k ∈ jsonKeys (reorder data) ↔ hasOwn data k = true := by
  rw [jsonKeys_eq_ownKeys _ (allDefined_reorder _ hn hd), mem_ownKeys, keys_reorder data hn,
    List.mem_append, List.mem_filter, List.mem_filter]
  constructor
  · rintro (h | h)
    · exact h.2
    · have hc : expectedOrder.contains k = true := by simpa using hk
      rw [hc] at h
      simp at h
  · intro h
    exact Or.inl ⟨hk, h⟩

/-- C3, amended. For every submission that passes the validation, the body has a member for
each key of the expected-order list other than ADDRESS, whatever fields the form supplied;
it has the member ADDRESS exactly when the form has an entry of that name. -/
theorem expected_keys_in_body (formData : FormData) (reply : FetchOutcome) (body : JSObject)
    (hsent : sentBody formData reply = some body) :
    (∀ k ∈ expectedOrder, k ≠ "ADDRESS" → k ∈ jsonKeys body) ∧
    ("ADDRESS" ∈ jsonKeys body ↔ "ADDRESS" ∈ formData.map Prod.fst) := by
  rw [sentBody_eq] at hsent
  split at hsent
  · exact absurd hsent (by simp)
  · rename_i hv
    have hv2 : validationFails (collected formData) = false := by simpa using hv
    have hbody : body = reorder (prepared formData) := (Option.some.inj hsent).symm
    obtain ⟨_, hn, hd⟩ := prepared_invariants formData hv2
    rw [hbody]
    constructor
    · intro k hk hne
      rw [mem_jsonKeys_reorder_expected _ hn hd k hk]
      exact hasOwn_prepared_of_expected formData hv2 k hk hne
    · rw [mem_jsonKeys_reorder_expected _ hn hd "ADDRESS" (by decide)]
      exact hasOwn_prepared_address formData

theorem expected_keys_in_body_witness :
    sentBody noAddressForm (FetchOutcome.response true ⟨none, none, none, none, none⟩) =
      some (payload noAddressForm) ∧
    ((∀ k ∈ expectedOrder, k ≠ "ADDRESS" → k ∈ jsonKeys (payload noAddressForm)) ∧
      ("ADDRESS" ∈ jsonKeys (payload noAddressForm) ↔
        "ADDRESS" ∈ noAddressForm.map Prod.fst)) :=
  ⟨by decide!, expected_keys_in_body noAddressForm
    (FetchOutcome.response true ⟨none, none, none, none, none⟩) (payload noAddressForm)
    (by decide!)⟩

/-- C3, as stated, fails: a form that passes the validation and has no address entry sends
a body without the member ADDRESS, one of the sixteen keys of the expected order. -/
theorem expected_keys_counterexample :
    sentBody noAddressForm (FetchOutcome.response true ⟨none, none, none, none, none⟩) =
      some (payload noAddressForm) ∧
    "ADDRESS" ∈ expectedOrder ∧
    "ADDRESS" ∉ jsonKeys (payload noAddressForm) := by
  refine ⟨by decide!, by decide, by decide!⟩

/-! ## The validation -/

theorem not_hasOwn_ensureNumber (d : JSObject) (k k2 : String) (h : hasOwn d k2 = false) :
    hasOwn (ensureNumber d k) k2 = false := by
  by_cases hk : k2 = k
  · unfold ensureNumber
    rw [← hk, get_undefined_of_not_hasOwn d k2 h]
    exact h
  · rw [hasOwn_ensureNumber_other d k k2 hk]
    exact h

theorem not_hasOwn_collected (formData : FormData) (k : String) (hk : k ∈ requiredFields)
    (hmiss : k ∉ formData.map Prod.fst) : hasOwn (collected formData) k = false := by
  have hproto : k ≠ "__proto__" := by
    intro h
    rw [h] at hk
    exact absurd hk (by decide)
  have hflag : ∀ f, isFlagKey f → k ≠ f := by
    intro f hf h
    rw [h] at hk
    rcases hf with rfl | rfl | rfl | rfl <;> exact absurd hk (by decide)
  have hc : hasOwn (collect formData) k = false := by
    cases hh : hasOwn (collect formData) k with
    | false => rfl
    | true =>
      unfold collect at hh
      rw [hasOwn_fold_collect k hproto] at hh
      rcases hh with h | h
      · have hm := (hasOwn_iff_mem _ _).mp h
        simp only [initData, List.map_cons, List.map_nil, List.mem_cons, List.mem_singleton,
          List.not_mem_nil, or_false] at hm
        rcases hm with h | h | h | h
        · exact absurd h (hflag _ (Or.inl rfl))
        · exact absurd h (hflag _ (Or.inr (Or.inl rfl)))
        · exact absurd h (hflag _ (Or.inr (Or.inr (Or.inl rfl))))
        · exact absurd h (hflag _ (Or.inr (Or.inr (Or.inr rfl))))
      · exact absurd h hmiss
  unfold collected ensureFlags ensureNumbers
  rw [hasOwn_ensureFlag_other _ _ _ (hflag _ (Or.inr (Or.inr (Or.inr rfl)))),
    hasOwn_ensureFlag_other _ _ _ (hflag _ (Or.inr (Or.inr (Or.inl rfl)))),
    hasOwn_ensureFlag_other _ _ _ (hflag _ (Or.inr (Or.inl rfl))),
    hasOwn_ensureFlag_other _ _ _ (hflag _ (Or.inl rfl))]
  exact not_hasOwn_ensureNumber _ _ _ (not_hasOwn_ensureNumber _ _ _
    (not_hasOwn_ensureNumber _ _ _ (not_hasOwn_ensureNumber _ _ _ hc)))

theorem validationFails_of_undefined (data : JSObject) (k : String) (hk : k ∈ requiredFields)
    (h : get data k = JSVal.undefined) : validationFails data = true := by
  simp only [requiredFields, List.mem_cons, List.mem_singleton, List.not_mem_nil, or_false] at hk
  unfold validationFails
  rcases hk with rfl | rfl | rfl | rfl | rfl | rfl <;> rw [h] <;> simp [JSVal.truthy]

/-- C4. For every form submission in which one of the required fields BHK_OR_RK, BHK_NO.,
SQUARE_FT, POSTED_BY, LONGITUDE, LATITUDE has no entry in the form data, the only thing the
handler does is show the message of line 351: no request is sent, whatever the server
would have replied. -/
theorem missing_required_field_rejected (formData : FormData) (reply : FetchOutcome)
    (k : String) (hk : k ∈ requiredFields) (hmiss : k ∉ formData.map Prod.fst) :
    handleFormSubmit formData reply = [Effect.showError validationMessage none] ∧
    sentBody formData reply = none ∧
    ∀ body, Effect.fetchPredict body ∉ handleFormSubmit formData reply := by
  have hv : validationFails (collected formData) = true :=
    validationFails_of_undefined _ k hk
      (get_undefined_of_not_hasOwn _ _ (not_hasOwn_collected formData k hk hmiss))
  have h1 : handleFormSubmit formData reply = [Effect.showError validationMessage none] := by
    unfold handleFormSubmit
    simp only
    rw [if_pos hv]
    rfl
  refine ⟨h1, ?_, ?_⟩
  · rw [sentBody_eq, if_pos hv]
  · intro body hb
    rw [h1] at hb
    simp at hb

theorem missing_required_field_rejected_witness :
    "BHK_OR_RK" ∈ requiredFields ∧ "BHK_OR_RK" ∉ noTypeForm.map Prod.fst ∧
    (handleFormSubmit noTypeForm (FetchOutcome.response true ⟨none, none, none, none, none⟩) =
        [Effect.showError validationMessage none] ∧
      sentBody noTypeForm (FetchOutcome.response true ⟨none, none, none, none, none⟩) = none ∧
      ∀ body, Effect.fetchPredict body ∉
        handleFormSubmit noTypeForm (FetchOutcome.response true ⟨none, none, none, none, none⟩)) :=
  ⟨by decide, by decide,
    missing_required_field_rejected noTypeForm
      (FetchOutcome.response true ⟨none, none, none, none, none⟩) "BHK_OR_RK"
      (by decide) (by decide)⟩

/-! ## The alias fields -/

theorem get_collectEntry_other (d : JSObject) (key value k : String) (h : k ≠ key) :
    get (collectEntry d key value) k = get d k := by
  unfold collectEntry
  split
  · exact get_set_other _ _ _ _ h
  · split
    · exact get_set_other _ _ _ _ h
    · exact get_set_other _ _ _ _ h

theorem get_ensureNumber_other (d : JSObject) (k k2 : String) (h : k2 ≠ k) :
    get (ensureNumber d k) k2 = get d k2 := by
  unfold ensureNumber
  split
  · exact get_set_other _ _ _ _ h
  · rfl

theorem get_ensureFlag_other (d : JSObject) (k k2 : String) (h : k2 ≠ k) :
    get (ensureFlag d k) k2 = get d k2 := by
  unfold ensureFlag
  split
  · exact get_set_other _ _ _ _ h
  · rfl

theorem get_normalizeFlags_other (d : JSObject) (k : String) (h : ¬ isFlagKey k) :
    get (normalizeFlags d) k = get d k := by
  unfold normalizeFlags normalizeFlag
  rw [get_set_other _ _ _ _ (fun e => h (Or.inr (Or.inr (Or.inr e)))),
    get_set_other _ _ _ _ (fun e => h (Or.inr (Or.inr (Or.inl e)))),
    get_set_other _ _ _ _ (fun e => h (Or.inr (Or.inl e))),
    get_set_other _ _ _ _ (fun e => h (Or.inl e))]

theorem get_collected_other (formData : FormData) (k : String) (hf : ¬ isFlagKey k)
    (hn : ["BHK_NO.", "SQUARE_FT", "LONGITUDE", "LATITUDE"].contains k = false) :
    get (collected formData) k = get (collect formData) k := by
  have h4 : k ≠ "BHK_NO." ∧ k ≠ "SQUARE_FT" ∧ k ≠ "LONGITUDE" ∧ k ≠ "LATITUDE" := by
    refine ⟨?_, ?_, ?_, ?_⟩ <;> intro e <;> rw [e] at hn <;> exact absurd hn (by decide)
  unfold collected ensureFlags ensureNumbers
  rw [get_ensureFlag_other _ _ _ (fun e => hf (Or.inr (Or.inr (Or.inr e)))),
    get_ensureFlag_other _ _ _ (fun e => hf (Or.inr (Or.inr (Or.inl e)))),
    get_ensureFlag_other _ _ _ (fun e => hf (Or.inr (Or.inl e))),
    get_ensureFlag_other _ _ _ (fun e => hf (Or.inl e)),
    get_ensureNumber_other _ _ _ h4.2.2.2, get_ensureNumber_other _ _ _ h4.2.2.1,
    get_ensureNumber_other _ _ _ h4.2.1, get_ensureNumber_other _ _ _ h4.1]

theorem alias_plain (a : String) (ha : a ∈ aliasFields) :
    ¬ isFlagKey a ∧ ["BHK_NO.", "SQUARE_FT", "LONGITUDE", "LATITUDE"].contains a = false ∧
      a ≠ "__proto__" := by
  simp only [aliasFields, List.mem_cons, List.mem_singleton, List.not_mem_nil, or_false] at ha
  rcases ha with rfl | rfl | rfl | rfl | rfl <;>
    refine ⟨?_, by decide, by decide⟩ <;>
    rintro (h | h | h | h) <;> exact absurd h (by decide)

theorem collect_alias_falsy (formData : FormData) (hno : NoAliasValues formData) (a : String)
    (ha : a ∈ aliasFields) : (get (collect formData) a).truthy = false := by
  obtain ⟨hf, hn, hp⟩ := alias_plain a ha
  have key : ∀ (l : FormData) (d : JSObject), (∀ e ∈ l, e ∈ formData) →
      (get d a).truthy = false →
      (get (l.foldl (fun data e => collectEntry data e.1 e.2) d) a).truthy = false := by
    intro l
    induction l with
    | nil => intro d _ hd; exact hd
    | cons e rest ih =>
      intro d hl hd
      rw [List.foldl_cons]
      apply ih _ (fun x hx => hl x (List.mem_cons_of_mem _ hx))
      by_cases hk : a = e.1
      · have hval : e.2 = "" := hno e (hl e (List.mem_cons_self _ _)) (hk ▸ ha)
        have hf2 : ¬ (a = "UNDER_CONSTRUCTION" ∨ a = "RERA" ∨ a = "READY_TO_MOVE" ∨
            a = "RESALE") := hf
        unfold collectEntry
        rw [← hk, if_neg hf2, if_neg (by rw [hn]; exact Bool.false_ne_true),
          get_set_same _ _ _ hp, hval]
        rfl
      · rw [get_collectEntry_other _ _ _ _ hk]
        exact hd
  unfold collect
  apply key formData initData (fun e he => he)
  have : hasOwn initData a = false := by
    cases hh : hasOwn initData a with
    | false => rfl
    | true =>
      have hm := (hasOwn_iff_mem _ _).mp hh
      simp only [initData, List.map_cons, List.map_nil, List.mem_cons, List.mem_singleton,
        List.not_mem_nil, or_false] at hm
      exact absurd hm hf
  rw [get_undefined_of_not_hasOwn _ _ this]
  rfl

theorem deriveAlias_of_falsy (d : JSObject) (a src : String) (hp : a ≠ "__proto__")
    (h : (get d a).truthy = false) : get (deriveAlias d a src) a = get d src := by
  unfold deriveAlias
  rw [h]
  exact get_set_same _ _ _ hp

theorem deriveAliases_of_falsy (d : JSObject)
    (h : ∀ a ∈ aliasFields, (get d a).truthy = false) :
    get (deriveAliases d) "area" = get d "SQUARE_FT" ∧
    get (deriveAliases d) "bedrooms" = get d "BHK_NO." ∧
    get (deriveAliases d) "longitude" = get d "LONGITUDE" ∧
    get (deriveAliases d) "latitude" = get d "LATITUDE" ∧
    get (deriveAliases d) "CITY_NAME" = jsOr (get d "ADDRESS") (JSVal.str "Unknown") := by
  have o1 : ∀ k, k ≠ "area" → get (deriveAlias d "area" "SQUARE_FT") k = get d k :=
    fun k hk => get_deriveAlias_other _ _ _ _ hk
  have o2 : ∀ k, k ≠ "area" → k ≠ "bedrooms" →
      get (deriveAlias (deriveAlias d "area" "SQUARE_FT") "bedrooms" "BHK_NO.") k = get d k :=
    fun k h1 h2 => by rw [get_deriveAlias_other _ _ _ _ h2, o1 k h1]
  have o3 : ∀ k, k ≠ "area" → k ≠ "bedrooms" → k ≠ "longitude" →
      get (deriveAlias (deriveAlias (deriveAlias d "area" "SQUARE_FT") "bedrooms" "BHK_NO.")
        "longitude" "LONGITUDE") k = get d k :=
    fun k h1 h2 h3 => by rw [get_deriveAlias_other _ _ _ _ h3, o2 k h1 h2]
  have o4 : ∀ k, k ≠ "area" → k ≠ "bedrooms" → k ≠ "longitude" → k ≠ "latitude" →
      get (deriveAlias (deriveAlias (deriveAlias (deriveAlias d "area" "SQUARE_FT") "bedrooms"
        "BHK_NO.") "longitude" "LONGITUDE") "latitude" "LATITUDE") k = get d k :=
    fun k h1 h2 h3 h4 => by rw [get_deriveAlias_other _ _ _ _ h4, o3 k h1 h2 h3]
  have a1 := deriveAlias_of_falsy d "area" "SQUARE_FT" (by decide) (h _ (by decide))
  have a2 := deriveAlias_of_falsy (deriveAlias d "area" "SQUARE_FT") "bedrooms" "BHK_NO."
    (by decide) (by rw [o1 _ (by decide)]; exact h _ (by decide))
  have a3 := deriveAlias_of_falsy
    (deriveAlias (deriveAlias d "area" "SQUARE_FT") "bedrooms" "BHK_NO.") "longitude"
    "LONGITUDE" (by decide) (by rw [o2 _ (by decide) (by decide)]; exact h _ (by decide))
  have a4 := deriveAlias_of_falsy
    (deriveAlias (deriveAlias (deriveAlias d "area" "SQUARE_FT") "bedrooms" "BHK_NO.")
      "longitude" "LONGITUDE") "latitude" "LATITUDE" (by decide)
    (by rw [o3 _ (by decide) (by decide) (by decide)]; exact h _ (by decide))
  have hcity : (get (deriveAlias (deriveAlias (deriveAlias (deriveAlias d "area" "SQUARE_FT")
      "bedrooms" "BHK_NO.") "longitude" "LONGITUDE") "latitude" "LATITUDE")
      "CITY_NAME").truthy = false := by
    rw [o4 _ (by decide) (by decide) (by decide) (by decide)]
    exact h _ (by decide)
  unfold deriveAliases
  simp only
  rw [hcity]
  simp only [Bool.not_false, if_true]
  refine ⟨?_, ?_, ?_, ?_, ?_⟩
  · rw [get_set_other _ _ _ _ (by decide), get_deriveAlias_other _ _ _ _ (by decide),
      get_deriveAlias_other _ _ _ _ (by decide), get_deriveAlias_other _ _ _ _ (by decide), a1]
  · rw [get_set_other _ _ _ _ (by decide), get_deriveAlias_other _ _ _ _ (by decide),
      get_deriveAlias_other _ _ _ _ (by decide), a2, o1 _ (by decide)]
  · rw [get_set_other _ _ _ _ (by decide), get_deriveAlias_other _ _ _ _ (by decide), a3,
      o2 _ (by decide) (by decide)]
  · rw [get_set_other _ _ _ _ (by decide), a4, o3 _ (by decide) (by decide) (by decide)]
  · rw [get_set_same _ _ _ (by decide), o4 _ (by decide) (by decide) (by decide) (by decide)]

theorem get_deriveAliases_other (d : JSObject) (k : String) (h : k ∉ aliasFields) :
    get (deriveAliases d) k = get d k := by
  have hne : k ≠ "area" ∧ k ≠ "bedrooms" ∧ k ≠ "longitude" ∧ k ≠ "latitude" ∧
      k ≠ "CITY_NAME" := by
    refine ⟨?_, ?_, ?_, ?_, ?_⟩ <;> intro e <;> rw [e] at h <;> exact h (by decide)
  have h4 : get (deriveAlias (deriveAlias (deriveAlias (deriveAlias d "area" "SQUARE_FT")
      "bedrooms" "BHK_NO.") "longitude" "LONGITUDE") "latitude" "LATITUDE") k = get d k := by
    rw [get_deriveAlias_other _ _ _ _ hne.2.2.2.1, get_deriveAlias_other _ _ _ _ hne.2.2.1,
      get_deriveAlias_other _ _ _ _ hne.2.1, get_deriveAlias_other _ _ _ _ hne.1]
  unfold deriveAliases
  simp only
  split
  · rw [get_set_other _ _ _ _ hne.2.2.2.2, h4]
  · exact h4

theorem get_reorder_expected (data : JSObject) (hn : KeysNodup data) (k : String)
    (hk : k ∈ expectedOrder) : get (reorder data) k = get data k := by
  cases ho : hasOwn data k with
  | true =>
    exact get_reorder_of_mem_keys data hn k (mem_keys_reorder_of_expected data hn k hk ho)
  | false =>
    rw [get_undefined_of_not_hasOwn data k ho]
    apply get_undefined_of_not_hasOwn
    cases hr : hasOwn (reorder data) k with
    | false => rfl
    | true =>
      have hm := (hasOwn_iff_mem _ _).mp hr
      rw [keys_reorder data hn, List.mem_append, List.mem_filter, List.mem_filter] at hm
      rcases hm with h | h
      · rw [ho] at h
        exact absurd h.2 (by decide)
      · have := (hasOwn_iff_mem data k).mpr ((mem_ownKeys data k).mp h.1)
        rw [ho] at this
        exact absurd this (by decide)

theorem member_of_expected (formData : FormData)
    (hv : validationFails (collected formData) = false) (k : String) (hk : k ∈ expectedOrder)
    (hne : k ≠ "ADDRESS") :
    (k, get (prepared formData) k) ∈ jsonMembers (reorder (prepared formData)) := by
  obtain ⟨_, hn, hd⟩ := prepared_invariants formData hv
  have ho := hasOwn_prepared_of_expected formData hv k hk hne
  rw [mem_jsonMembers]
  exact ⟨mem_keys_reorder_of_expected _ hn k hk ho, (get_reorder_expected _ hn k hk).symm,
    get_defined_of_hasOwn _ k hd ho⟩

/-- C5. For every submission that passes the validation and supplies no value for the alias
fields area, bedrooms, longitude, latitude and CITY_NAME, the body sent has area equal to
SQUARE_FT, bedrooms equal to BHK_NO., longitude equal to LONGITUDE, latitude equal to
LATITUDE, and CITY_NAME equal to ADDRESS when the body has a non-empty ADDRESS and to the
string Unknown otherwise. -/
theorem alias_fields_derived (formData : FormData) (reply : FetchOutcome) (body : JSObject)
    (hsent : sentBody formData reply = some body) (hno : NoAliasValues formData) :
    (∃ v, ("SQUARE_FT", v) ∈ jsonMembers body ∧ ("area", v) ∈ jsonMembers body) ∧
    (∃ v, ("BHK_NO.", v) ∈ jsonMembers body ∧ ("bedrooms", v) ∈ jsonMembers body) ∧
    (∃ v, ("LONGITUDE", v) ∈ jsonMembers body ∧ ("longitude", v) ∈ jsonMembers body) ∧
    (∃ v, ("LATITUDE", v) ∈ jsonMembers body ∧ ("latitude", v) ∈ jsonMembers body) ∧
    ("CITY_NAME", jsOr (get body "ADDRESS") (JSVal.str "Unknown")) ∈ jsonMembers body := by
  rw [sentBody_eq] at hsent
  split at hsent
  · exact absurd hsent (by simp)
  · rename_i hv
    have hv2 : validationFails (collected formData) = false := by simpa using hv
    have hbody : body = reorder (prepared formData) := (Option.some.inj hsent).symm
    obtain ⟨_, hn, _⟩ := prepared_invariants formData hv2
    have hfalsy : ∀ a ∈ aliasFields, (get (collected formData) a).truthy = false := by
      intro a ha
      obtain ⟨hf, hnum, _⟩ := alias_plain a ha
      rw [get_collected_other formData a hf hnum]
      exact collect_alias_falsy formData hno a ha
    obtain ⟨e1, e2, e3, e4, e5⟩ := deriveAliases_of_falsy _ hfalsy
    have hnf : ∀ k, k ∈ ["area", "bedrooms", "longitude", "latitude", "CITY_NAME", "SQUARE_FT",
        "BHK_NO.", "LONGITUDE", "LATITUDE", "ADDRESS"] → ¬ isFlagKey k := by
      intro k hk hf
      rcases hf with rfl | rfl | rfl | rfl <;> exact absurd hk (by decide)
    have hprep : ∀ k, k ∈ ["area", "bedrooms", "longitude", "latitude", "CITY_NAME",
        "SQUARE_FT", "BHK_NO.", "LONGITUDE", "LATITUDE", "ADDRESS"] →
        get (prepared formData) k = get (deriveAliases (collected formData)) k :=
      fun k hk => get_normalizeFlags_other _ k (hnf k hk)
    have hsrc : ∀ k, k ∈ ["SQUARE_FT", "BHK_NO.", "LONGITUDE", "LATITUDE", "ADDRESS"] →
        get (prepared formData) k = get (collected formData) k := by
      intro k hk
      have hk2 : k ∉ aliasFields := by
        intro ha
        simp only [List.mem_cons, List.mem_singleton, List.not_mem_nil, or_false] at hk
        rcases hk with rfl | rfl | rfl | rfl | rfl <;> exact absurd ha (by decide)
      have hk3 : k ∈ ["area", "bedrooms", "longitude", "latitude", "CITY_NAME", "SQUARE_FT",
          "BHK_NO.", "LONGITUDE", "LATITUDE", "ADDRESS"] := by
        simp only [List.mem_cons, List.mem_singleton, List.not_mem_nil, or_false] at hk
        rcases hk with rfl | rfl | rfl | rfl | rfl <;> decide
      rw [hprep k hk3, get_deriveAliases_other _ k hk2]
    have pair : ∀ a src, a ∈ ["area", "bedrooms", "longitude", "latitude"] →
        src ∈ ["SQUARE_FT", "BHK_NO.", "LONGITUDE", "LATITUDE"] →
        get (deriveAliases (collected formData)) a = get (collected formData) src →
        ∃ v, (src, v) ∈ jsonMembers (reorder (prepared formData)) ∧
          (a, v) ∈ jsonMembers (reorder (prepared formData)) := by
      intro a src ha hs heq
      have ha2 : a ∈ ["area", "bedrooms", "longitude", "latitude", "CITY_NAME", "SQUARE_FT",
          "BHK_NO.", "LONGITUDE", "LATITUDE", "ADDRESS"] := by
        simp only [List.mem_cons, List.mem_singleton, List.not_mem_nil, or_false] at ha
        rcases ha with rfl | rfl | rfl | rfl <;> decide
      have ha3 : a ∈ expectedOrder ∧ a ≠ "ADDRESS" := by
        simp only [List.mem_cons, List.mem_singleton, List.not_mem_nil, or_false] at ha
        rcases ha with rfl | rfl | rfl | rfl <;> exact ⟨by decide, by decide⟩
      have hs2 : src ∈ ["SQUARE_FT", "BHK_NO.", "LONGITUDE", "LATITUDE", "ADDRESS"] := by
        simp only [List.mem_cons, List.mem_singleton, List.not_mem_nil, or_false] at hs
        rcases hs with rfl | rfl | rfl | rfl <;> decide
      have hs3 : src ∈ expectedOrder ∧ src ≠ "ADDRESS" := by
        simp only [List.mem_cons, List.mem_singleton, List.not_mem_nil, or_false] at hs
        rcases hs with rfl | rfl | rfl | rfl <;> exact ⟨by decide, by decide⟩
      refine ⟨get (prepared formData) src, member_of_expected formData hv2 src hs3.1 hs3.2, ?_⟩
      have := member_of_expected formData hv2 a ha3.1 ha3.2
      rw [hprep a ha2, heq, ← hsrc src hs2] at this
      exact this
    rw [hbody]
    refine ⟨pair _ _ (by decide) (by decide) e1, pair _ _ (by decide) (by decide) e2,
      pair _ _ (by decide) (by decide) e3, pair _ _ (by decide) (by decide) e4, ?_⟩
    have := member_of_expected formData hv2 "CITY_NAME" (by decide) (by decide)
    rw [hprep _ (by decide), e5, ← hsrc "ADDRESS" (by decide),
      ← get_reorder_expected _ hn "ADDRESS" (by decide)] at this
    exact this

theorem noAliasValues_sampleForm : NoAliasValues sampleForm := by
  intro e he ha
  simp only [sampleForm, List.mem_cons, List.mem_singleton, List.not_mem_nil, or_false] at he
  rcases he with rfl | rfl | rfl | rfl | rfl | rfl | rfl | rfl <;> exact absurd ha (by decide)

theorem alias_fields_derived_witness :
    sentBody sampleForm (FetchOutcome.threw none) = some (payload sampleForm) ∧
    NoAliasValues sampleForm ∧
    ("area", JSVal.num (ofNat 1200)) ∈ jsonMembers (payload sampleForm) ∧
    ("bedrooms", JSVal.num (ofNat 2)) ∈ jsonMembers (payload sampleForm) ∧
    ("SQUARE_FT", JSVal.num (ofNat 1200)) ∈ jsonMembers (payload sampleForm) ∧
    ("BHK_NO.", JSVal.num (ofNat 2)) ∈ jsonMembers (payload sampleForm) ∧
    ((∃ v, ("SQUARE_FT", v) ∈ jsonMembers (payload sampleForm) ∧
        ("area", v) ∈ jsonMembers (payload sampleForm)) ∧
      (∃ v, ("BHK_NO.", v) ∈ jsonMembers (payload sampleForm) ∧
        ("bedrooms", v) ∈ jsonMembers (payload sampleForm)) ∧
      (∃ v, ("LONGITUDE", v) ∈ jsonMembers (payload sampleForm) ∧
        ("longitude", v) ∈ jsonMembers (payload sampleForm)) ∧
      (∃ v, ("LATITUDE", v) ∈ jsonMembers (payload sampleForm) ∧
        ("latitude", v) ∈ jsonMembers (payload sampleForm)) ∧
      ("CITY_NAME", jsOr (get (payload sampleForm) "ADDRESS") (JSVal.str "Unknown")) ∈
        jsonMembers (payload sampleForm)) :=
  ⟨by decide!, noAliasValues_sampleForm, by decide!, by decide!, by decide!, by decide!,
    alias_fields_derived sampleForm (FetchOutcome.threw none) (payload sampleForm) (by decide!)
      noAliasValues_sampleForm⟩

/-! ## Decimal digits -/

theorem one_pos : 0 < one := by
  unfold one
  positivity

theorem digitChar_isDigit (d : Nat) (h : d < 10) : (digitChar d).isDigit = true := by
  interval_cases d <;> decide

theorem digitVal_digitChar (d : Nat) (h : d < 10) : digitVal (digitChar d) = d := by
  interval_cases d <;> decide

theorem digitsVal_snoc (ds : List Char) (c : Char) :
    digitsVal (ds ++ [c]) = digitsVal ds * 10 + digitVal c := by
  unfold digitsVal
  rw [List.foldl_append]
  rfl

theorem digitsVal_zeros (j : Nat) (ds : List Char) :
    digitsVal (List.replicate j '0' ++ ds) = digitsVal ds := by
  induction j with
  | zero => rfl
  | succ j ih =>
    rw [List.replicate_succ, List.cons_append]
    unfold digitsVal at ih ⊢
    rw [List.foldl_cons]
    exact ih

theorem natDigitsAux_spec (fuel : Nat) :
    ∀ (n : Nat) (acc : List Char), n < fuel →
      ∃ ds, natDigitsAux fuel n acc = ds ++ acc ∧ ds ≠ [] ∧
        (∀ c ∈ ds, c.isDigit = true) ∧ digitsVal ds = n := by
  induction fuel with
  | zero => intro n acc h; exact absurd h (Nat.not_lt_zero n)
  | succ fuel ih =>
    intro n acc h
    unfold natDigitsAux
    by_cases h10 : n < 10
    · rw [if_pos h10]
      refine ⟨[digitChar n], rfl, by simp, ?_, ?_⟩
      · intro c hc
        rw [List.mem_singleton] at hc
        rw [hc]
        exact digitChar_isDigit n h10
      · have := digitsVal_snoc [] (digitChar n)
        rw [List.nil_append] at this
        rw [this, digitVal_digitChar n h10]
        show 0 * 10 + n = n
        omega
    · rw [if_neg h10]
      have hlt : n / 10 < fuel := by omega
      obtain ⟨ds, hds, _, hdig, hval⟩ := ih (n / 10) (digitChar (n % 10) :: acc) hlt
      refine ⟨ds ++ [digitChar (n % 10)], ?_, by simp, ?_, ?_⟩
      · rw [hds, List.append_assoc]
        rfl
      · intro c hc
        rcases List.mem_append.mp hc with hc | hc
        · exact hdig c hc
        · rw [List.mem_singleton] at hc
          rw [hc]
          exact digitChar_isDigit _ (Nat.mod_lt _ (by decide))
      · rw [digitsVal_snoc, hval, digitVal_digitChar _ (Nat.mod_lt _ (by decide))]
        omega

theorem natDigits_spec (n : Nat) :
    natDigits n ≠ [] ∧ (∀ c ∈ natDigits n, c.isDigit = true) ∧ digitsVal (natDigits n) = n := by
  obtain ⟨ds, hds, hne, hdig, hval⟩ := natDigitsAux_spec (n + 1) n [] (Nat.lt_succ_self n)
  unfold natDigits
  rw [hds, List.append_nil]
  exact ⟨hne, hdig, hval⟩

/-! ## The shape of `toFixed` -/

/-- The integer `toFixed(f)` writes for the magnitude `k`: the nearest to `k * 10^f` in
units of `2^-1074`, the larger on a tie. -/
theorem nearest_scaled (f k : Nat) :
    2 * ((2 * k * 10 ^ f + one) / (2 * one)) * one ≤ 2 * k * 10 ^ f + one ∧
    2 * k * 10 ^ f + one < 2 * ((2 * k * 10 ^ f + one) / (2 * one)) * one + 2 * one := by
  have hpos : 0 < 2 * one := Nat.mul_pos (by decide) one_pos
  have h1 := Nat.div_mul_le_self (2 * k * 10 ^ f + one) (2 * one)
  have h2 := Nat.lt_div_mul_add (a := 2 * k * 10 ^ f + one) hpos
  constructor
  · calc 2 * ((2 * k * 10 ^ f + one) / (2 * one)) * one
        = (2 * k * 10 ^ f + one) / (2 * one) * (2 * one) := by ring
      _ ≤ 2 * k * 10 ^ f + one := h1
  · calc 2 * k * 10 ^ f + one < (2 * k * 10 ^ f + one) / (2 * one) * (2 * one) + 2 * one := h2
      _ = 2 * ((2 * k * 10 ^ f + one) / (2 * one)) * one + 2 * one := by ring

theorem toFixed_shape (f : Nat) (hf : 0 < f) (neg : Bool) (k : Nat) (hk : k < 10 ^ 21 * one) :
    ∃ ip fp : List Char,
      toFixed f (JSNum.fin neg k) =
        String.mk ((if neg && k != 0 then ['-'] else []) ++ ip ++ '.' :: fp) ∧
      fp.length = f ∧ ip ≠ [] ∧ (∀ c ∈ ip ++ fp, c.isDigit = true) ∧
      digitsVal (ip ++ fp) = (2 * k * 10 ^ f + one) / (2 * one) := by
  obtain ⟨_, hdig, hval⟩ := natDigits_spec ((2 * k * 10 ^ f + one) / (2 * one))
  generalize hm : natDigits ((2 * k * 10 ^ f + one) / (2 * one)) = m at hdig hval
  have hlen : f + 1 ≤ (List.replicate (f + 1 - m.length) '0' ++ m).length := by
    rw [List.length_append, List.length_replicate]
    omega
  generalize hm1 : List.replicate (f + 1 - m.length) '0' ++ m = m1 at hlen
  refine ⟨m1.take (m1.length - f), m1.drop (m1.length - f), ?_, ?_, ?_, ?_, ?_⟩
  · unfold toFixed
    simp only
    rw [if_neg (Nat.not_le.mpr hk), if_neg (Nat.pos_iff_ne_zero.mp hf), hm, hm1]
  · rw [List.length_drop]
    omega
  · intro h
    have := congrArg List.length h
    rw [List.length_take, List.length_nil] at this
    omega
  · rw [List.take_append_drop]
    intro c hc
    rw [← hm1] at hc
    rcases List.mem_append.mp hc with hc | hc
    · rw [(List.mem_replicate.mp hc).2]
      decide
    · exact hdig c hc
  · rw [List.take_append_drop, ← hm1, digitsVal_zeros]
    exact hval

/-! ## `formatCurrency` -/

/-! ### Integers below `2^53` are printed digit for digit -/

theorem log2Aux_spec (fuel : Nat) : ∀ n acc : Nat, 0 < n → n < 2 ^ fuel →
    ∃ e, log2Aux fuel n acc = acc + e ∧ 2 ^ e ≤ n ∧ n < 2 ^ (e + 1) := by
  induction fuel with
  | zero =>
    intro n acc h0 h
    simp at h
    omega
  | succ fuel ih =>
    intro n acc h0 h
    unfold log2Aux
    by_cases h2 : n < 2
    · rw [if_pos h2]
      exact ⟨0, rfl, by simpa using h0, by simpa using h2⟩
    · rw [if_neg h2]
      have hd : 0 < n / 2 := Nat.div_pos (by omega) (by decide)
      have hl : n / 2 < 2 ^ fuel := by
        rw [Nat.div_lt_iff_lt_mul (by decide)]
        rw [Nat.pow_succ] at h
        exact h
      obtain ⟨e, he, h1, h3⟩ := ih (n / 2) (acc + 1) hd hl
      refine ⟨e + 1, by rw [he]; omega, ?_, ?_⟩
      · rw [Nat.pow_succ]
        omega
      · rw [Nat.pow_succ]
        omega

theorem log2_spec (n : Nat) (h : 0 < n) : 2 ^ log2 n ≤ n ∧ n < 2 ^ (log2 n + 1) := by
  obtain ⟨e, he, h1, h2⟩ := log2Aux_spec n n 0 h (Nat.lt_two_pow n)
  unfold log2
  rw [he, Nat.zero_add]
  exact ⟨h1, h2⟩

theorem floorLog2Ratio_one (c : Nat) (h : 0 < c) : floorLog2Ratio c 1 = (log2 c : Int) := by
  have h1 : log2 1 = 0 := by decide
  unfold floorLog2Ratio
  simp only [h1, Nat.cast_zero, sub_zero]
  rw [if_pos (Int.natCast_nonneg _), Int.toNat_natCast, if_pos]
  rw [Nat.one_mul]
  exact (log2_spec c h).1

theorem divRoundEven_one (a : Nat) : divRoundEven a 1 = a := by
  unfold divRoundEven
  simp [Nat.mod_one]

theorem le_divRoundEven (a b : Nat) : a / b ≤ divRoundEven a b := by
  unfold divRoundEven
  simp only
  split
  · exact Nat.le_refl _
  · split
    · omega
    · split <;> omega

theorem pow_shift_one (a : Nat) : 2 ^ (a + 1074) = 2 ^ a * one :=
  (Nat.pow_add 2 a 1074).trans (congrArg (fun w => 2 ^ a * w) (rfl : (2 : Nat) ^ 1074 = one))

theorem pow_split_one (a b : Nat) (h : a + b = 1074) : 2 ^ a * 2 ^ b = one :=
  (Nat.pow_add 2 a b).symm.trans (congrArg (fun w => 2 ^ w) h)

theorem mul_one_lt_pow (c a t : Nat) (h : c < 2 ^ a) (hat : a + 1074 ≤ t) : c * one < 2 ^ t :=
  calc c * one < 2 ^ a * one := Nat.mul_lt_mul_of_pos_right h one_pos
    _ = 2 ^ (a + 1074) := (pow_shift_one a).symm
    _ ≤ 2 ^ t := Nat.pow_le_pow_right (by decide) hat

theorem roundMag_small (c : Nat) (h0 : 0 < c) (h : c < 2 ^ 53) :
    roundMag c 1 = some (c * one) := by
  obtain ⟨hl, hu⟩ := log2_spec c h0
  have he : log2 c ≤ 52 := by
    by_contra hne
    have : 2 ^ 53 ≤ 2 ^ log2 c := Nat.pow_le_pow_right (by decide) (by omega)
    omega
  unfold roundMag
  rw [if_neg (by omega)]
  simp only [floorLog2Ratio_one c h0]
  have hmax : max (log2 c : Int) (-1022) = (log2 c : Int) := by omega
  rw [hmax]
  have hk : c * one < 2 ^ 2098 := mul_one_lt_pow c 53 2098 h (by decide)
  by_cases hs : (0 : Int) ≤ (log2 c : Int) - 52
  · rw [if_pos hs]
    have e1 : ((log2 c : Int) - 52).toNat = 0 := by omega
    have e2 : ((log2 c : Int) - 52 + 1074).toNat = 0 + 1074 := by omega
    rw [e1, e2, pow_shift_one, Nat.pow_zero, Nat.mul_one, Nat.one_mul, divRoundEven_one,
      if_pos hk]
  · rw [if_neg hs, divRoundEven_one]
    have e1 : (-((log2 c : Int) - 52)).toNat = 52 - log2 c := by omega
    have e2 : ((log2 c : Int) - 52 + 1074).toNat = log2 c + 1022 := by omega
    rw [e1, e2, Nat.mul_assoc, pow_split_one _ _ (by omega), if_pos hk]

theorem roundMag_large (c : Nat) (h : 2 ^ 53 ≤ c) (k : Nat) (hr : roundMag c 1 = some k) :
    2 ^ 53 * one ≤ k := by
  have h0 : 0 < c := Nat.lt_of_lt_of_le (by positivity) h
  obtain ⟨hl, hu⟩ := log2_spec c h0
  have he : 53 ≤ log2 c := by
    by_contra hne
    have : 2 ^ (log2 c + 1) ≤ 2 ^ 53 := Nat.pow_le_pow_right (by decide) (by omega)
    omega
  unfold roundMag at hr
  rw [if_neg (by omega)] at hr
  simp only [floorLog2Ratio_one c h0] at hr
  have hmax : max (log2 c : Int) (-1022) = (log2 c : Int) := by omega
  rw [hmax] at hr
  have hs : (0 : Int) ≤ (log2 c : Int) - 52 := by omega
  have e1 : ((log2 c : Int) - 52).toNat = log2 c - 52 := by omega
  have e2 : ((log2 c : Int) - 52 + 1074).toNat = log2 c - 52 + 1074 := by omega
  rw [if_pos hs, e1, e2, Nat.one_mul, pow_shift_one, ← Nat.mul_assoc] at hr
  split at hr
  · have hk := Option.some.inj hr
    rw [← hk]
    have h1 : 2 ^ 52 ≤ divRoundEven c (2 ^ (log2 c - 52)) := by
      refine Nat.le_trans ?_ (le_divRoundEven _ _)
      rw [Nat.le_div_iff_mul_le (by positivity), ← Nat.pow_add]
      have : 52 + (log2 c - 52) = log2 c := by omega
      rw [this]
      exact hl
    have h2 : 2 ^ 52 * 2 ^ 1 ≤ divRoundEven c (2 ^ (log2 c - 52)) * 2 ^ (log2 c - 52) :=
      Nat.mul_le_mul h1 (Nat.pow_le_pow_right (by decide) (by omega))
    exact Nat.mul_le_mul_right one h2
  · exact absurd hr (by simp)

theorem roundMag_zero : roundMag 0 1 = some 0 := rfl

theorem roundMag_eq_iff (N : Nat) (h0 : 0 < N) (h : N < 2 ^ 53) (c : Nat) :
    roundMag c 1 = some (N * one) ↔ c = N := by
  constructor
  · intro hr
    by_cases hc0 : c = 0
    · rw [hc0, roundMag_zero] at hr
      have := Option.some.inj hr
      have h1 := Nat.mul_pos h0 one_pos
      omega
    · by_cases hc : c < 2 ^ 53
      · rw [roundMag_small c (by omega) hc] at hr
        exact Nat.eq_of_mul_eq_mul_right one_pos (Option.some.inj hr)
      · have h1 := roundMag_large c (by omega) _ hr
        have h2 : N * one < 2 ^ 53 * one := Nat.mul_lt_mul_of_pos_right h one_pos
        omega
  · intro hc
    rw [hc]
    exact roundMag_small N h0 h


theorem natDigitsAux_eq (fuel : Nat) : ∀ n acc, n < fuel →
    natDigitsAux fuel n acc = natDigitsAux (n + 1) n [] ++ acc := by
  induction fuel using Nat.strong_induction_on with
  | _ fuel ih =>
    intro n acc h
    cases fuel with
    | zero => exact absurd h (Nat.not_lt_zero n)
    | succ f =>
      unfold natDigitsAux
      by_cases h10 : n < 10
      · rw [if_pos h10, if_pos h10]
        rfl
      · rw [if_neg h10, if_neg h10]
        have hd : n / 10 < n := Nat.div_lt_self (by omega) (by decide)
        rw [ih f (Nat.lt_succ_self f) (n / 10) _ (by omega)]
        cases n with
        | zero => omega
        | succ m =>
          rw [ih (m + 1) (by omega) ((m + 1) / 10) [digitChar ((m + 1) % 10)] hd]
          rw [List.append_assoc]
          rfl

theorem natDigits_lt_ten (n : Nat) (h : n < 10) : natDigits n = [digitChar n] := by
  unfold natDigits natDigitsAux
  rw [if_pos h]

theorem natDigits_step (n : Nat) (h : 10 ≤ n) :
    natDigits n = natDigits (n / 10) ++ [digitChar (n % 10)] := by
  have hd : n / 10 < n := Nat.div_lt_self (by omega) (by decide)
  unfold natDigits
  conv => lhs; unfold natDigitsAux
  rw [if_neg (by omega), natDigitsAux_eq n (n / 10) _ hd]

theorem natDigits_mul_ten (m : Nat) (h : 0 < m) : natDigits (m * 10) = natDigits m ++ ['0'] := by
  rw [natDigits_step (m * 10) (by omega), Nat.mul_div_cancel m (by decide), Nat.mul_mod_left]
  rfl

theorem natDigits_mul_pow (m : Nat) (h : 0 < m) (x : Nat) :
    natDigits (m * 10 ^ x) = natDigits m ++ List.replicate x '0' := by
  induction x with
  | zero => simp
  | succ x ih =>
    rw [Nat.pow_succ, ← Nat.mul_assoc, natDigits_mul_ten _ (Nat.mul_pos h (by positivity)), ih,
      List.append_assoc, List.replicate_succ']

theorem natDigits_bracket (n : Nat) : 0 < n →
    10 ^ ((natDigits n).length - 1) ≤ n ∧ n < 10 ^ (natDigits n).length := by
  induction n using Nat.strong_induction_on with
  | _ n ih =>
    intro h0
    by_cases h10 : n < 10
    · rw [natDigits_lt_ten n h10]
      simp
      omega
    · have hd : n / 10 < n := Nat.div_lt_self (by omega) (by decide)
      obtain ⟨h1, h2⟩ := ih (n / 10) hd (Nat.div_pos (by omega) (by decide))
      have hne := (natDigits_spec (n / 10)).1
      have hlen : 0 < (natDigits (n / 10)).length := List.length_pos.mpr hne
      rw [natDigits_step n (by omega), List.length_append, List.length_singleton,
        Nat.add_sub_cancel]
      constructor
      · have : (natDigits (n / 10)).length = ((natDigits (n / 10)).length - 1) + 1 := by omega
        rw [this, Nat.pow_succ]
        omega
      · rw [Nat.pow_succ]
        omega


theorem roundsTo_integer (N : Nat) (h0 : 0 < N) (h : N < 2 ^ 53) (s X : Nat) :
    roundsTo s (X : Int) (N * one) = decide (s * 10 ^ X = N) := by
  unfold roundsTo
  rw [if_pos (Int.natCast_nonneg X), Int.toNat_natCast]
  by_cases hc : s * 10 ^ X = N
  · rw [(roundMag_eq_iff N h0 h _).mpr hc]
    simp [hc]
  · have : roundMag (s * 10 ^ X) 1 ≠ some (N * one) := fun hr =>
      hc ((roundMag_eq_iff N h0 h _).mp hr)
    simp [hc, this]

theorem shortestAux_integer (N : Nat) (h0 : 0 < N) (h : N < 2 ^ 53) :
    ∀ fuel len, 1 ≤ len → len ≤ (natDigits N).length → (natDigits N).length < len + fuel →
      ∃ x, 10 ^ x ∣ N ∧
        shortestAux fuel len (N * one) ((natDigits N).length : Int) =
          (natDigits (N / 10 ^ x), ((natDigits N).length : Int)) := by
  intro fuel
  induction fuel with
  | zero => intro len _ h2 h3; omega
  | succ fuel ih =>
    intro len h1 h2 h3
    obtain ⟨hb1, hb2⟩ := natDigits_bracket N h0
    have hx : ((natDigits N).length : Int) - (len : Int) =
        (((natDigits N).length - len : Nat) : Int) := by omega
    generalize hX : (natDigits N).length - len = X at hx
    have hlo : N * one / (one * 10 ^ X) = N / 10 ^ X := by
      rw [Nat.mul_comm N one]
      exact Nat.mul_div_mul_left _ _ one_pos
    have hpos : 0 < 10 ^ X := by positivity
    have hhi : (N / 10 ^ X + 1) * 10 ^ X ≠ N := by
      have := Nat.lt_div_mul_add (a := N) hpos
      rw [Nat.add_mul, Nat.one_mul]
      omega
    unfold shortestAux
    simp only [hx, Int.natCast_nonneg, if_true, Int.toNat_natCast, hlo,
      roundsTo_integer N h0 h, hhi, decide_False, Bool.and_false, Bool.false_eq_true, if_false]
    by_cases hd : 10 ^ X ∣ N
    · have hmul : N / 10 ^ X * 10 ^ X = N := Nat.div_mul_cancel hd
      have hge : 10 ^ (len - 1) ≤ N / 10 ^ X := by
        rw [Nat.le_div_iff_mul_le hpos, ← Nat.pow_add]
        have : len - 1 + X = (natDigits N).length - 1 := by omega
        rw [this]
        exact hb1
      have hlt : N / 10 ^ X ≠ 10 ^ len := by
        intro he
        rw [he, ← Nat.pow_add] at hmul
        have : len + X = (natDigits N).length := by omega
        rw [this] at hmul
        omega
      refine ⟨X, hd, ?_⟩
      simp [hmul, hge, hlt]
    · have hne : N / 10 ^ X * 10 ^ X ≠ N := fun he => hd ⟨N / 10 ^ X, by rw [Nat.mul_comm]; exact he.symm⟩
      have hX1 : 1 ≤ X := by
        by_contra h0x
        have : X = 0 := by omega
        rw [this] at hd
        exact hd (by simp)
      simp only [hne, decide_False, Bool.and_false, Bool.false_eq_true, if_false]
      exact ih (len + 1) (by omega) (by omega) (by omega)

theorem shortestDecimal_integer (N : Nat) (h0 : 0 < N) (h : N < 2 ^ 53) :
    ∃ x, 10 ^ x ∣ N ∧
      shortestDecimal (N * one) = (natDigits (N / 10 ^ x), ((natDigits N).length : Int)) := by
  have hd : decExp (N * one) one = ((natDigits N).length : Int) := by
    unfold decExp
    rw [if_pos (Nat.le_mul_of_pos_left one h0), Nat.mul_div_cancel N one_pos]
  have hlen : 0 < (natDigits N).length := List.length_pos.mpr (natDigits_spec N).1
  have hlen2 : (natDigits N).length ≤ 16 := by
    by_contra hc
    have h1 := (natDigits_bracket N h0).1
    have h2 : 10 ^ 16 ≤ 10 ^ ((natDigits N).length - 1) :=
      Nat.pow_le_pow_right (by decide) (by omega)
    have h3 : (2 : Nat) ^ 53 < 10 ^ 16 := by decide
    omega
  unfold shortestDecimal
  rw [hd]
  exact shortestAux_integer N h0 h 17 1 (Nat.le_refl 1) hlen (by omega)


theorem formatEnIN_integer (neg : Bool) (ds : List Char) (n : Int) (m X : Nat)
    (hx : n - (ds.length : Int) + 3 = (X : Int)) (hn : digitsVal ds * 10 ^ X = m * 1000) :
    formatEnIN neg ds n =
      String.mk ((if neg then ['-'] else []) ++ groupIndian (natDigits m)) := by
  have h4 : stripZeros (List.replicate (3 - (natDigits 0).length) '0' ++ natDigits 0) = [] := by
    decide
  unfold formatEnIN
  simp only [hx]
  rw [if_pos (Int.natCast_nonneg X), Int.toNat_natCast, hn, Nat.mul_div_cancel m (by decide),
    Nat.mul_mod_left, h4]
  simp

theorem toLocale_fin (neg : Bool) (k : Nat) :
    toLocaleStringEnIN (JSNum.fin neg k) =
      if k = 0 then formatEnIN neg ['0'] 1
      else formatEnIN neg (shortestDecimal k).1 (shortestDecimal k).2 := rfl

theorem toLocale_integer (neg : Bool) (m : Nat) (h : m < 2 ^ 53) :
    toLocaleStringEnIN (JSNum.fin neg (m * one)) =
      String.mk ((if neg then ['-'] else []) ++ groupIndian (natDigits m)) := by
  rw [toLocale_fin]
  by_cases h0 : m = 0
  · subst h0
    rw [if_pos (Nat.zero_mul one)]
    exact formatEnIN_integer neg ['0'] 1 0 3 (by decide) (by decide)
  · have hpos : 0 < m := Nat.pos_of_ne_zero h0
    have hk : m * one ≠ 0 := Nat.ne_of_gt (Nat.mul_pos hpos one_pos)
    obtain ⟨x, hdvd, hsd⟩ := shortestDecimal_integer m hpos h
    rw [if_neg hk, hsd]
    have hq : 0 < m / 10 ^ x := Nat.div_pos (Nat.le_of_dvd hpos hdvd) (by positivity)
    have hm : m / 10 ^ x * 10 ^ x = m := Nat.div_mul_cancel hdvd
    have hlen : (natDigits m).length = (natDigits (m / 10 ^ x)).length + x := by
      conv => lhs; rw [← hm, natDigits_mul_pow _ hq x]
      rw [List.length_append, List.length_replicate]
    refine formatEnIN_integer neg _ _ m (x + 3) ?_ ?_
    · show ((natDigits m).length : Int) - ((natDigits (m / 10 ^ x)).length : Int) + 3 = _
      omega
    · show digitsVal (natDigits (m / 10 ^ x)) * 10 ^ (x + 3) = m * 1000
      rw [(natDigits_spec (m / 10 ^ x)).2.2, Nat.pow_add, ← Nat.mul_assoc, hm]

/-! ### Bounds on the quotients of the tiers -/

theorem floorLog2Ratio_of_le (p q : Nat) (hq : 0 < q) (h : q ≤ p) :
    ∃ e : Nat, floorLog2Ratio p q = (e : Int) ∧ q * 2 ^ e ≤ p := by
  have hp : 0 < p := Nat.lt_of_lt_of_le hq h
  obtain ⟨hp1, hp2⟩ := log2_spec p hp
  obtain ⟨hq1, hq2⟩ := log2_spec q hq
  have hle : log2 q ≤ log2 p := by
    by_contra hc
    have : 2 ^ (log2 p + 1) ≤ 2 ^ log2 q := Nat.pow_le_pow_right (by decide) (by omega)
    omega
  have he0 : (log2 p : Int) - (log2 q : Int) = ((log2 p - log2 q : Nat) : Int) := by omega
  unfold floorLog2Ratio
  simp only [he0]
  rw [if_pos (Int.natCast_nonneg _), Int.toNat_natCast]
  by_cases hc : q * 2 ^ (log2 p - log2 q) ≤ p
  · rw [if_pos hc]
    exact ⟨_, rfl, hc⟩
  · rw [if_neg hc]
    have h1 : 1 ≤ log2 p - log2 q := by
      by_contra h0
      have : log2 p - log2 q = 0 := by omega
      rw [this, Nat.pow_zero, Nat.mul_one] at hc
      exact hc h
    refine ⟨log2 p - log2 q - 1, by omega, ?_⟩
    have h2 : q * 2 ^ (log2 p - log2 q - 1) ≤ 2 ^ (log2 q + 1) * 2 ^ (log2 p - log2 q - 1) :=
      Nat.mul_le_mul_right _ (Nat.le_of_lt hq2)
    rw [← Nat.pow_add] at h2
    have h3 : log2 q + 1 + (log2 p - log2 q - 1) = log2 p := by omega
    rw [h3] at h2
    omega

theorem floorLog2Ratio_le (p q : Nat) (hp : 0 < p) (hq : 0 < q) (h : p < q * 2 ^ 7) :
    floorLog2Ratio p q ≤ 7 := by
  obtain ⟨hp1, hp2⟩ := log2_spec p hp
  obtain ⟨hq1, hq2⟩ := log2_spec q hq
  have hle : log2 p < log2 q + 8 := by
    by_contra hc
    have h1 : 2 ^ (log2 q + 1 + 7) ≤ 2 ^ log2 p := Nat.pow_le_pow_right (by decide) (by omega)
    rw [Nat.pow_add] at h1
    have h2 : q * 2 ^ 7 < 2 ^ (log2 q + 1) * 2 ^ 7 := Nat.mul_lt_mul_of_pos_right hq2 (by positivity)
    omega
  unfold floorLog2Ratio
  simp only
  split <;> split <;> omega

theorem divRoundEven_le (a b : Nat) : divRoundEven a b ≤ a / b + 1 := by
  unfold divRoundEven
  simp only
  split
  · omega
  · split
    · omega
    · split <;> omega

theorem roundMag_ge_one (p q : Nat) (hq : 0 < q) (h : q ≤ p) (c : Nat)
    (hr : roundMag p q = some c) : one ≤ c := by
  have hp : 0 < p := Nat.lt_of_lt_of_le hq h
  obtain ⟨e, he, hle⟩ := floorLog2Ratio_of_le p q hq h
  unfold roundMag at hr
  rw [if_neg (by omega)] at hr
  simp only [he] at hr
  have hmax : max (e : Int) (-1022) = (e : Int) := by omega
  rw [hmax] at hr
  by_cases hs : (0 : Int) ≤ (e : Int) - 52
  · have e1 : ((e : Int) - 52).toNat = e - 52 := by omega
    have e2 : ((e : Int) - 52 + 1074).toNat = e - 52 + 1074 := by omega
    rw [if_pos hs, e1, e2, pow_shift_one, ← Nat.mul_assoc] at hr
    split at hr
    · rw [← Option.some.inj hr]
      have h1 : 2 ^ 52 ≤ divRoundEven p (q * 2 ^ (e - 52)) := by
        refine Nat.le_trans ?_ (le_divRoundEven _ _)
        rw [Nat.le_div_iff_mul_le (by positivity)]
        have h2 : 2 ^ 52 * (q * 2 ^ (e - 52)) = q * 2 ^ (52 + (e - 52)) := by
          rw [Nat.pow_add]
          ring
        rw [h2]
        have h3 : 52 + (e - 52) = e := by omega
        rw [h3]
        exact hle
      have h2 : 1 ≤ divRoundEven p (q * 2 ^ (e - 52)) * 2 ^ (e - 52) :=
        Nat.mul_pos (Nat.lt_of_lt_of_le (by positivity) h1) (by positivity)
      calc one = 1 * one := (Nat.one_mul one).symm
        _ ≤ _ := Nat.mul_le_mul_right one h2
    · exact absurd hr (by simp)
  · have e1 : (-((e : Int) - 52)).toNat = 52 - e := by omega
    have e2 : ((e : Int) - 52 + 1074).toNat = e + 1022 := by omega
    rw [if_neg hs, e1, e2] at hr
    split at hr
    · rw [← Option.some.inj hr]
      have h1 : 2 ^ 52 ≤ divRoundEven (p * 2 ^ (52 - e)) q := by
        refine Nat.le_trans ?_ (le_divRoundEven _ _)
        rw [Nat.le_div_iff_mul_le hq]
        have h3 : q * 2 ^ e * 2 ^ (52 - e) ≤ p * 2 ^ (52 - e) := Nat.mul_le_mul_right _ hle
        have h4 : q * 2 ^ e * 2 ^ (52 - e) = 2 ^ 52 * q := by
          rw [Nat.mul_assoc, ← Nat.pow_add]
          have h5 : e + (52 - e) = 52 := by omega
          rw [h5, Nat.mul_comm]
        rw [← h4]
        exact h3
      have h5 : 2 ^ 52 * 2 ^ (e + 1022) ≤ divRoundEven (p * 2 ^ (52 - e)) q * 2 ^ (e + 1022) :=
        Nat.mul_le_mul_right _ h1
      have h6 : 2 ^ 52 * 2 ^ (e + 1022) = 2 ^ e * one := by
        rw [← Nat.pow_add]
        have h8 : 52 + (e + 1022) = e + 1074 := by omega
        rw [h8, pow_shift_one]
      have h7 : 1 * one ≤ 2 ^ e * one := Nat.mul_le_mul_right one Nat.one_le_two_pow
      rw [Nat.one_mul] at h7
      rw [h6] at h5
      exact Nat.le_trans h7 h5
    · exact absurd hr (by simp)

theorem roundMag_le (p q : Nat) (hq : 0 < q) (h : p < q * 2 ^ 7) :
    ∃ c, roundMag p q = some c ∧ c ≤ 2 ^ 7 * one := by
  by_cases hp0 : p = 0
  · rw [hp0]
    exact ⟨0, by unfold roundMag; rw [if_pos rfl], Nat.zero_le _⟩
  · have hp : 0 < p := Nat.pos_of_ne_zero hp0
    have he := floorLog2Ratio_le p q hp hq h
    unfold roundMag
    rw [if_neg hp0]
    simp only
    generalize floorLog2Ratio p q = e at he
    obtain ⟨t, ht, ht1, ht2⟩ : ∃ t : Nat, max e (-1022) - 52 = -(t : Int) ∧ 45 ≤ t ∧ t ≤ 1074 :=
      ⟨(52 - max e (-1022)).toNat, by omega, by omega, by omega⟩
    have hs : ¬ (0 : Int) ≤ -(t : Int) := by omega
    have e1 : (-(-(t : Int))).toNat = t := by omega
    have e2 : (-(t : Int) + 1074).toNat = 1074 - t := by omega
    rw [ht, if_neg hs, e1, e2]
    have h1 : divRoundEven (p * 2 ^ t) q ≤ 2 ^ (t + 7) := by
      refine Nat.le_trans (divRoundEven_le _ _) ?_
      have h2 : p * 2 ^ t / q < 2 ^ (t + 7) := by
        rw [Nat.div_lt_iff_lt_mul hq, Nat.pow_add]
        calc p * 2 ^ t < q * 2 ^ 7 * 2 ^ t := Nat.mul_lt_mul_of_pos_right h (by positivity)
          _ = 2 ^ t * 2 ^ 7 * q := by ring
      omega
    have h3 : divRoundEven (p * 2 ^ t) q * 2 ^ (1074 - t) ≤ 2 ^ 7 * one := by
      have h6 : t + 7 + (1074 - t) = 7 + 1074 := by omega
      have h4 : 2 ^ (t + 7) * 2 ^ (1074 - t) = 2 ^ 7 * one :=
        ((Nat.pow_add 2 (t + 7) (1074 - t)).symm.trans (congrArg (fun w => 2 ^ w) h6)).trans
          (pow_shift_one 7)
      rw [← h4]
      exact Nat.mul_le_mul_right _ h1
    have h5 : 2 ^ 7 * one < 2 ^ 2098 := mul_one_lt_pow (2 ^ 7) 8 2098 (by decide) (by decide)
    refine ⟨_, ?_, h3⟩
    rw [if_pos (Nat.lt_of_le_of_lt h3 h5)]


theorem jsDiv_units (neg : Bool) (k units : Nat) (hu : 0 < units) :
    jsDiv (JSNum.fin neg k) (ofNat units) = toNumber neg k (units * one) := by
  have hd : units * one ≠ 0 := Nat.ne_of_gt (Nat.mul_pos hu one_pos)
  unfold ofNat jsDiv
  simp only [hd, if_false]
  cases neg <;> rfl

theorem jsGe_one_fin (c : Nat) : jsGe (JSNum.fin false c) (ofNat 1) = decide (one ≤ c) := by
  unfold ofNat jsGe
  simp only [Nat.one_mul, Bool.false_eq_true, if_false]
  exact decide_eq_decide.mpr Int.ofNat_le

theorem jsGe_one_neg (c : Nat) : jsGe (JSNum.fin true c) (ofNat 1) = false := by
  unfold ofNat jsGe
  simp only [Nat.one_mul, Bool.false_eq_true, if_false, if_true, decide_eq_false_iff_not]
  have := one_pos
  omega

theorem quotient_lt_of_not_ge (k units : Nat) (hu : 0 < units)
    (h : jsGe (jsDiv (JSNum.fin false k) (ofNat units)) (ofNat 1) = false) :
    k < units * one := by
  by_contra hc
  rw [jsDiv_units false k units hu] at h
  unfold toNumber at h
  cases hr : roundMag k (units * one) with
  | none =>
    rw [hr] at h
    exact absurd h (by decide)
  | some c =>
    rw [hr] at h
    have h1 := roundMag_ge_one k (units * one) (Nat.mul_pos hu one_pos) (by omega) c hr
    rw [jsGe_one_fin] at h
    simp [h1] at h

theorem negative_quotient_not_ge (k units : Nat) (hu : 0 < units) :
    jsGe (jsDiv (JSNum.fin true k) (ofNat units)) (ofNat 1) = false := by
  rw [jsDiv_units true k units hu]
  unfold toNumber
  cases hr : roundMag k (units * one) with
  | none => rfl
  | some c => exact jsGe_one_neg c

theorem lakh_tier_bounds (neg : Bool) (k : Nat)
    (hc : jsGe (croresOf (JSNum.fin neg k)) (ofNat 1) = false)
    (hl : jsGe (lakhsOf (JSNum.fin neg k)) (ofNat 1) = true) :
    ∃ c, lakhsOf (JSNum.fin neg k) = JSNum.fin false c ∧ c < 10 ^ 21 * one := by
  cases neg with
  | true =>
    unfold lakhsOf at hl
    rw [negative_quotient_not_ge k 100000 (by decide)] at hl
    exact absurd hl (by decide)
  | false =>
    have hk : k < 10000000 * one := quotient_lt_of_not_ge k 10000000 (by decide) hc
    have hk2 : k < 100000 * one * 2 ^ 7 := by
      have h1 : 10000000 * one ≤ 100000 * one * 2 ^ 7 := by
        rw [Nat.mul_right_comm]
        exact Nat.mul_le_mul_right one (by decide)
      omega
    obtain ⟨c, hr, hle⟩ := roundMag_le k (100000 * one) (Nat.mul_pos (by decide) one_pos) hk2
    refine ⟨c, ?_, ?_⟩
    · unfold lakhsOf
      rw [jsDiv_units false k 100000 (by decide)]
      unfold toNumber
      rw [hr]
    · have h2 : 2 ^ 7 * one < 10 ^ 21 * one := Nat.mul_lt_mul_of_pos_right (by decide) one_pos
      omega

theorem third_tier_small (k : Nat)
    (hl : jsGe (lakhsOf (JSNum.fin false k)) (ofNat 1) = false) :
    nearestInteger false k < 2 ^ 53 := by
  have hk : k < 100000 * one := quotient_lt_of_not_ge k 100000 (by decide) hl
  unfold nearestInteger
  simp only [Bool.false_eq_true, if_false]
  have h1 : (2 * k + one) / (2 * one) < 100001 := by
    rw [Nat.div_lt_iff_lt_mul (Nat.mul_pos (by decide) one_pos)]
    have := one_pos
    omega
  exact Nat.lt_trans h1 (by decide)


theorem not_zero_of_truthy (amount : JSNum) (h : amount.truthy = true) :
    jsStrictEq amount (ofNat 0) = false := by
  have h0 : ofNat 0 = JSNum.fin false 0 := by
    unfold ofNat
    rw [Nat.zero_mul]
  rw [h0]
  cases amount with
  | nan => rfl
  | inf neg => rfl
  | fin neg k =>
    have hk : k ≠ 0 := by
      intro hk
      rw [hk] at h
      cases neg <;> exact absurd h (by decide)
    cases neg <;> simp [jsStrictEq, hk]

/-- C6, amended. `formatCurrency` has three tiers. A falsy amount (0, -0, NaN) gives `₹0`.
Otherwise, when `amount / 10000000 >= 1` the result is `₹`, `toFixed(2)` of that quotient,
and ` Cr`; else when `amount / 100000 >= 1` it is `₹`, `toFixed(2)` of that quotient, and
` L`; else it is `₹` and `Math.round(amount).toLocaleString('en-IN')`, with no suffix.
`toFixed(2)` has exactly two digits after the point for a finite value below `10^21`, which
every quotient of the lakh tier is; from `10^21` on it is the exponent form of
`Number::toString`, so the crore tier gives `₹1e+21 Cr` for `10^28` (and `₹Infinity Cr` for
an infinite amount). In the last tier the rounded amount is written digit for digit in
Indian grouping when its magnitude is below `2^53`, as it is for every positive amount of
the tier; a negative amount of larger magnitude shows the digits of its shortest decimal
followed by zeros. In particular 150000000 gives `₹15.00 Cr`, 2500000 gives `₹25.00 L`,
50000 gives `₹50,000` and 0 gives `₹0`; `₹1.50 Cr` and `₹2.50 L` are the results for
15000000 and 250000. -/
theorem formatCurrency_tiers :
    (∀ amount : JSNum, amount.truthy = false → formatCurrency amount = "₹0") ∧
    (∀ amount : JSNum, amount.truthy = true → jsGe (croresOf amount) (ofNat 1) = true →
      formatCurrency amount = "₹" ++ toFixed 2 (croresOf amount) ++ " Cr") ∧
    (∀ amount : JSNum, amount.truthy = true → jsGe (croresOf amount) (ofNat 1) = false →
      jsGe (lakhsOf amount) (ofNat 1) = true →
      formatCurrency amount = "₹" ++ toFixed 2 (lakhsOf amount) ++ " L" ∧
      ∃ c, lakhsOf amount = JSNum.fin false c ∧ c < 10 ^ 21 * one) ∧
    (∀ (neg : Bool) (k : Nat), k ≠ 0 → jsGe (croresOf (JSNum.fin neg k)) (ofNat 1) = false →
      jsGe (lakhsOf (JSNum.fin neg k)) (ofNat 1) = false →
      formatCurrency (JSNum.fin neg k) =
        "₹" ++ toLocaleStringEnIN (JSNum.fin neg (nearestInteger neg k * one))) ∧
    (∀ (neg : Bool) (k : Nat), k ≠ 0 → jsGe (croresOf (JSNum.fin neg k)) (ofNat 1) = false →
      jsGe (lakhsOf (JSNum.fin neg k)) (ofNat 1) = false → nearestInteger neg k < 2 ^ 53 →
      formatCurrency (JSNum.fin neg k) =
        "₹" ++ String.mk ((if neg then ['-'] else []) ++
          groupIndian (natDigits (nearestInteger neg k)))) ∧
    (∀ k : Nat, jsGe (lakhsOf (JSNum.fin false k)) (ofNat 1) = false →
      nearestInteger false k < 2 ^ 53) ∧
    (∀ (neg : Bool) (k : Nat), k < 10 ^ 21 * one →
      ∃ ip fp : List Char,
        toFixed 2 (JSNum.fin neg k) =
          String.mk ((if neg && k != 0 then ['-'] else []) ++ ip ++ '.' :: fp) ∧
        fp.length = 2 ∧ ip ≠ [] ∧ (∀ c ∈ ip ++ fp, c.isDigit = true) ∧
        digitsVal (ip ++ fp) = (2 * k * 10 ^ 2 + one) / (2 * one)) ∧
    (∀ (neg : Bool) (k : Nat), 10 ^ 21 * one ≤ k →
      toFixed 2 (JSNum.fin neg k) =
        String.mk ((if neg && k != 0 then ['-'] else []) ++
          (numberToString (JSNum.fin false k)).toList)) ∧
    formatCurrency (ofNat 150000000) = "₹15.00 Cr" ∧
    formatCurrency (ofNat 2500000) = "₹25.00 L" ∧
    formatCurrency (ofNat 50000) = "₹50,000" ∧
    formatCurrency (ofNat 0) = "₹0" ∧
    formatCurrency (ofNat 15000000) = "₹1.50 Cr" ∧
    formatCurrency (ofNat 250000) = "₹2.50 L" ∧
    formatCurrency (toNumber false (10 ^ 28) 1) = "₹1e+21 Cr" ∧
    formatCurrency (JSNum.inf false) = "₹Infinity Cr" ∧
    formatCurrency (toNumber true (10 ^ 23) 1) = "₹-1,00,00,00,00,00,00,00,00,00,00,000" := by
  have tier3 : ∀ (neg : Bool) (k : Nat), k ≠ 0 →
      jsGe (croresOf (JSNum.fin neg k)) (ofNat 1) = false →
      jsGe (lakhsOf (JSNum.fin neg k)) (ofNat 1) = false →
      formatCurrency (JSNum.fin neg k) =
        "₹" ++ toLocaleStringEnIN (JSNum.fin neg (nearestInteger neg k * one)) := by
    intro neg k hk hc hl
    have ht : (JSNum.fin neg k).truthy = true := by
      simp [JSNum.truthy, hk]
    unfold formatCurrency
    rw [ht, not_zero_of_truthy _ ht]
    simp only [Bool.not_true, Bool.or_false, Bool.false_eq_true, if_false]
    rw [hc, hl, if_neg (by decide), if_neg (by decide)]
    rfl
  refine ⟨?_, ?_, ?_, tier3, ?_, third_tier_small,
    fun neg k hk => toFixed_shape 2 (by decide) neg k hk, ?_,
    by decide!, by decide!, by decide!, by decide!, by decide!, by decide!, by decide!,
    by decide!, by decide!⟩
  · intro amount h
    unfold formatCurrency
    rw [h]
    rfl
  · intro amount h hc
    unfold formatCurrency
    rw [h, not_zero_of_truthy amount h]
    simp only [Bool.not_true, Bool.or_false, Bool.false_eq_true, if_false]
    rw [if_pos hc]
  · intro amount h hc hl
    constructor
    · unfold formatCurrency
      rw [h, not_zero_of_truthy amount h]
      simp only [Bool.not_true, Bool.or_false, Bool.false_eq_true, if_false]
      rw [hc, if_neg (by decide), if_pos hl]
    · cases amount with
      | nan => exact absurd h (by decide)
      | inf neg =>
        cases neg with
        | false => exact absurd hc (by decide)
        | true => exact absurd hl (by decide)
      | fin neg k => exact lakh_tier_bounds neg k hc hl
  · intro neg k hk hc hl hn
    rw [tier3 neg k hk hc hl, toLocale_integer neg _ hn]
  · intro neg k hk
    unfold toFixed
    simp only
    rw [if_pos hk]

theorem formatCurrency_tiers_witness :
    (ofNat 150000000).truthy = true ∧ jsGe (croresOf (ofNat 150000000)) (ofNat 1) = true ∧
    formatCurrency (ofNat 150000000) =
      "₹" ++ toFixed 2 (croresOf (ofNat 150000000)) ++ " Cr" ∧
    toFixed 2 (croresOf (ofNat 150000000)) = "15.00" :=
  ⟨by decide!, by decide!,
    formatCurrency_tiers.2.1 (ofNat 150000000) (by decide!) (by decide!), by decide!⟩

/-- C6, as stated, fails on two of its examples: 150000000 is 15 crore and 2500000 is
25 lakh, so the results are `₹15.00 Cr` and `₹25.00 L`, not `₹1.50 Cr` and `₹2.50 L`. -/
theorem formatCurrency_counterexample :
    formatCurrency (ofNat 150000000) ≠ "₹1.50 Cr" ∧
    formatCurrency (ofNat 2500000) ≠ "₹2.50 L" := by
  refine ⟨by decide!, by decide!⟩

/-! ## Numeric fields that do not parse -/

theorem lastValue_snoc (l : FormData) (e : String × String) (k : String) :
    lastValue (l ++ [e]) k = if e.1 = k then some e.2 else lastValue l k := by
  unfold lastValue
  rw [List.foldl_append]
  rfl

theorem numeric_plain (k : String) (hk : k ∈ numericFields) :
    ¬ (k = "UNDER_CONSTRUCTION" ∨ k = "RERA" ∨ k = "READY_TO_MOVE" ∨ k = "RESALE") ∧
      ["BHK_NO.", "SQUARE_FT", "LONGITUDE", "LATITUDE"].contains k = true ∧
      k ≠ "__proto__" ∧ k ∈ requiredFields := by
  simp only [numericFields, List.mem_cons, List.mem_singleton, List.not_mem_nil, or_false] at hk
  rcases hk with rfl | rfl | rfl | rfl <;>
    refine ⟨?_, by decide, by decide, by decide⟩ <;>
    rintro (h | h | h | h) <;> exact absurd h (by decide)

theorem get_collect_numeric (k : String) (hk : k ∈ numericFields) (l : FormData) :
    ∀ v, lastValue l k = some v →
      get (l.foldl (fun data e => collectEntry data e.1 e.2) initData) k =
        JSVal.num (if (parseFloatStr v).isNaN then ofNat 0 else parseFloatStr v) := by
  obtain ⟨hf, hn, hp, _⟩ := numeric_plain k hk
  induction l using List.reverseRecOn with
  | nil =>
    intro v hv
    simp [lastValue] at hv
  | append_singleton init e ih =>
    intro v hv
    rw [lastValue_snoc] at hv
    rw [List.foldl_append, List.foldl_cons, List.foldl_nil]
    by_cases he : e.1 = k
    · rw [if_pos he] at hv
      have hv2 : e.2 = v := Option.some.inj hv
      unfold collectEntry
      rw [he, if_neg hf, if_pos hn, hv2]
      exact get_set_same _ _ _ hp
    · rw [if_neg he] at hv
      rw [get_collectEntry_other _ _ _ _ (fun h => he h.symm)]
      exact ih v hv

theorem get_ensureNumber_zero (d : JSObject) (k k2 : String)
    (h : get d k2 = JSVal.num (ofNat 0)) : get (ensureNumber d k) k2 = JSVal.num (ofNat 0) := by
  by_cases hk : k2 = k
  · unfold ensureNumber
    rw [← hk, h]
    have : (JSVal.num (ofNat 0)).truthy = false := by decide!
    rw [this]
    exact h
  · rw [get_ensureNumber_other d k k2 hk]
    exact h

theorem validationFails_of_falsy (data : JSObject) (k : String) (hk : k ∈ requiredFields)
    (h : (get data k).truthy = false) : validationFails data = true := by
  simp only [requiredFields, List.mem_cons, List.mem_singleton, List.not_mem_nil, or_false] at hk
  unfold validationFails
  rcases hk with rfl | rfl | rfl | rfl | rfl | rfl <;> rw [h] <;> simp

/-- C7, amended. For every form submission in which the last entry of a numeric field
(BHK_NO., SQUARE_FT, LONGITUDE or LATITUDE) holds text that `parseFloat` turns into NaN,
the handler sets that field to 0; the field is required and 0 is falsy, so the validation
of line 350 rejects the submission: the message of line 351 is shown and no request is
sent, whatever the other fields hold. -/
theorem unparseable_numeric_rejected (formData : FormData) (reply : FetchOutcome)
    (k v : String) (hk : k ∈ numericFields) (hlast : lastValue formData k = some v)
    (hnan : (parseFloatStr v).isNaN = true) :
    get (collect formData) k = JSVal.num (ofNat 0) ∧
    get (collected formData) k = JSVal.num (ofNat 0) ∧
    handleFormSubmit formData reply = [Effect.showError validationMessage none] ∧
    sentBody formData reply = none := by
  obtain ⟨hf, _, _, hreq⟩ := numeric_plain k hk
  have h0 : get (collect formData) k = JSVal.num (ofNat 0) := by
    unfold collect
    rw [get_collect_numeric k hk formData v hlast, hnan]
    rfl
  have h1 : get (collected formData) k = JSVal.num (ofNat 0) := by
    unfold collected ensureFlags ensureNumbers
    rw [get_ensureFlag_other _ _ _ (fun e => hf (Or.inr (Or.inr (Or.inr e)))),
      get_ensureFlag_other _ _ _ (fun e => hf (Or.inr (Or.inr (Or.inl e)))),
      get_ensureFlag_other _ _ _ (fun e => hf (Or.inr (Or.inl e))),
      get_ensureFlag_other _ _ _ (fun e => hf (Or.inl e))]
    exact get_ensureNumber_zero _ _ _ (get_ensureNumber_zero _ _ _
      (get_ensureNumber_zero _ _ _ (get_ensureNumber_zero _ _ _ h0)))
  have hv : validationFails (collected formData) = true := by
    apply validationFails_of_falsy _ k hreq
    rw [h1]
    decide!
  refine ⟨h0, h1, ?_, ?_⟩
  · unfold handleFormSubmit
    simp only
    rw [if_pos hv]
    rfl
  · rw [sentBody_eq, if_pos hv]

theorem unparseable_numeric_rejected_witness :
    "BHK_NO." ∈ numericFields ∧ lastValue unparsedForm "BHK_NO." = some "two" ∧
    (parseFloatStr "two").isNaN = true ∧
    (get (collect unparsedForm) "BHK_NO." = JSVal.num (ofNat 0) ∧
      get (collected unparsedForm) "BHK_NO." = JSVal.num (ofNat 0) ∧
      handleFormSubmit unparsedForm (FetchOutcome.response true ⟨none, none, none, none, none⟩) =
        [Effect.showError validationMessage none] ∧
      sentBody unparsedForm (FetchOutcome.response true ⟨none, none, none, none, none⟩) =
        none) :=
  ⟨by decide, by decide, by decide!,
    unparseable_numeric_rejected unparsedForm
      (FetchOutcome.response true ⟨none, none, none, none, none⟩) "BHK_NO." "two"
      (by decide) (by decide) (by decide!)⟩

/-- C7, as stated, fails: with every other required field filled and the bedroom count
`two`, which does not parse, the field becomes 0 but no request is sent; the handler shows
the validation message instead. -/
theorem unparseable_numeric_counterexample :
    (parseFloatStr "two").isNaN = true ∧
    (∀ k ∈ requiredFields, k ≠ "BHK_NO." → ∃ v, lastValue unparsedForm k = some v ∧ v ≠ "") ∧
    get (collected unparsedForm) "BHK_NO." = JSVal.num (ofNat 0) ∧
    sentBody unparsedForm (FetchOutcome.response true ⟨none, none, none, none, none⟩) = none ∧
    handleFormSubmit unparsedForm (FetchOutcome.response true ⟨none, none, none, none, none⟩) =
      [Effect.showError validationMessage none] := by
  refine ⟨by decide!, ?_, by decide!, by decide!, by decide!⟩
  intro k hk hne
  simp only [requiredFields, List.mem_cons, List.mem_singleton, List.not_mem_nil, or_false] at hk
  rcases hk with rfl | rfl | rfl | rfl | rfl | rfl
  · exact ⟨"BHK", by decide, by decide⟩
  · exact absurd rfl hne
  · exact ⟨"1200", by decide, by decide⟩
  · exact ⟨"Owner", by decide, by decide⟩
  · exact ⟨"77.2090", by decide, by decide⟩
  · exact ⟨"28.6139", by decide, by decide⟩

/-! ## Messages for a failed request -/

theorem effects_of_valid (formData : FormData) (reply : FetchOutcome)
    (hv : validationFails (collected formData) = false) :
    handleFormSubmit formData reply =
      [Effect.setLoadingState true, Effect.hideResults, Effect.hideError,
       Effect.fetchPredict (payload formData)] ++
      (match reply with
       | FetchOutcome.response true result => [Effect.displayResultsAfter 300 result]
       | FetchOutcome.response false result =>
         [Effect.consoleError "API Error:",
          Effect.showError (composeErrorMsg result) (some result)]
       | FetchOutcome.threw message =>
         [Effect.consoleError "Prediction error:",
          Effect.showError (caughtErrorMsg message) none])
      ++ [Effect.setLoadingState false] := by
  unfold handleFormSubmit
  simp only
  rw [hv, if_neg (by decide)]
  rfl

theorem errorReplyOutcome_of_throws (thrown : Option String) (body : ReplyBody)
    (h : readThrows body = true) : errorReplyOutcome thrown body = FetchOutcome.threw thrown := by
  cases body with
  | notJson => rfl
  | null => rfl
  | object o =>
    have h2 : joinThrows o = true := h
    show (if joinThrows o then FetchOutcome.threw thrown
      else FetchOutcome.response false o.fields) = _
    rw [if_pos h2]

theorem errorReplyOutcome_of_reads (thrown : Option String) (o : ErrorObject)
    (h : joinThrows o = false) :
    errorReplyOutcome thrown (ReplyBody.object o) = FetchOutcome.response false o.fields := by
  show (if joinThrows o then FetchOutcome.threw thrown
    else FetchOutcome.response false o.fields) = _
  rw [h]
  rfl

theorem columnsSection_of_text (o : ErrorObject) (s : String)
    (h : o.received_columns = some (Columns.text s)) : columnsSection o.fields = "" := by
  unfold columnsSection ErrorObject.fields
  simp only [h]

/-- C8, amended. A reply that is not ok is read before its status is tested, so what the
handler shows depends on the body. When the body is a JSON object whose fields are read
without a throw, the message the handler composes and passes to `showError` is the error
text of the reply (`Prediction failed` when it has none or an empty one), followed in this
order by the received and expected column lists, the `Details:` section and the `Hint:`
section; a section is there only if its field is in the reply and not empty (the column
lists need both fields, and `received_columns` as an array), and the text `showError`
renders starts with that message. When the read throws (the body is not JSON, or is `null`,
or `received_columns` is a non-empty text next to a truthy `expected_columns`), no message
is composed from the body: the handler shows the message of the thrown error by the rule of
the `catch` block. -/
theorem non_ok_message (formData : FormData)
    (hv : validationFails (collected formData) = false) :
    (∀ result : ResponseBody,
      handleFormSubmit formData (FetchOutcome.response false result) =
        [Effect.setLoadingState true, Effect.hideResults, Effect.hideError,
         Effect.fetchPredict (payload formData), Effect.consoleError "API Error:",
         Effect.showError (composeErrorMsg result) (some result),
         Effect.setLoadingState false] ∧
      composeErrorMsg result =
        errorHead result ++ columnsSection result ++ detailsSection result ++
          hintSection result ∧
      (∀ e, result.error = some e → e ≠ "" → errorHead result = e) ∧
      (result.error = none ∨ result.error = some "" → errorHead result = "Prediction failed") ∧
      (result.received_columns = none ∨ result.expected_columns = none ∨
          result.expected_columns = some (Columns.text "") →
        columnsSection result = "") ∧
      (∀ r x, result.received_columns = some r →
        result.expected_columns = some (Columns.list x) →
        columnsSection result = "\n\nReceived columns: " ++ ", ".intercalate r ++
          ("\nExpected columns: " ++ ", ".intercalate x)) ∧
      (∀ r x, result.received_columns = some r → x ≠ "" →
        result.expected_columns = some (Columns.text x) →
        columnsSection result = "\n\nReceived columns: " ++ ", ".intercalate r ++
          ("\nExpected columns: " ++ x)) ∧
      (result.details = none ∨ result.details = some "" → detailsSection result = "") ∧
      (∀ d, result.details = some d → d ≠ "" → detailsSection result = "\n\nDetails: " ++ d) ∧
      (result.hint = none ∨ result.hint = some "" → hintSection result = "") ∧
      (∀ h, result.hint = some h → h ≠ "" → hintSection result = "\n\nHint: " ++ h) ∧
      (∃ rest, showErrorText (composeErrorMsg result) (some result) =
        composeErrorMsg result ++ rest)) ∧
    (∀ (thrown : Option String) (o : ErrorObject), joinThrows o = false →
      errorReplyOutcome thrown (ReplyBody.object o) = FetchOutcome.response false o.fields ∧
      o.fields.error = o.error ∧ o.fields.expected_columns = o.expected_columns ∧
      o.fields.details = o.details ∧ o.fields.hint = o.hint ∧
      (∀ r, o.received_columns = some (Columns.list r) → o.fields.received_columns = some r) ∧
      (o.received_columns = none → o.fields.received_columns = none) ∧
      (∀ s, o.received_columns = some (Columns.text s) → columnsSection o.fields = "")) ∧
    (∀ (thrown : Option String) (body : ReplyBody), readThrows body = true →
      handleFormSubmit formData (errorReplyOutcome thrown body) =
        [Effect.setLoadingState true, Effect.hideResults, Effect.hideError,
         Effect.fetchPredict (payload formData), Effect.consoleError "Prediction error:",
         Effect.showError (caughtErrorMsg thrown) none, Effect.setLoadingState false]) := by
  refine ⟨fun result => ⟨?_, rfl, ?_, ?_, ?_, ?_, ?_, ?_, ?_, ?_, ?_, ?_⟩, ?_, ?_⟩
  · rw [effects_of_valid formData _ hv]
    rfl
  · intro e he hne
    unfold errorHead
    rw [he]
    simp [fieldTruthy, hne]
  · intro he
    unfold errorHead
    rcases he with he | he <;> rw [he] <;> rfl
  · intro h
    unfold columnsSection
    rcases h with h | h | h
    · rw [h]
    · rw [h]
      cases result.received_columns <;> rfl
    · rw [h]
      cases result.received_columns <;> rfl
  · intro r x hr hx
    unfold columnsSection
    rw [hr, hx]
    rfl
  · intro r x hr hne hx
    unfold columnsSection
    rw [hr, hx]
    simp [columnsTruthy, columnsText, hne]
  · intro h
    unfold detailsSection
    rcases h with h | h <;> rw [h] <;> rfl
  · intro d hd hne
    unfold detailsSection
    rw [hd]
    simp [fieldTruthy, hne]
  · intro h
    unfold hintSection
    rcases h with h | h <;> rw [h] <;> rfl
  · intro h hh hne
    unfold hintSection
    rw [hh]
    simp [fieldTruthy, hne]
  · unfold showErrorText
    simp only
    split
    · split
      · exact ⟨_, by rw [String.append_assoc]⟩
      · exact ⟨_, rfl⟩
    · exact ⟨"", (String.append_empty _).symm⟩
  · intro thrown o h
    refine ⟨errorReplyOutcome_of_reads thrown o h, rfl, rfl, rfl, rfl, ?_, ?_,
      columnsSection_of_text o⟩
    · intro r hr
      unfold ErrorObject.fields
      simp only [hr]
    · intro hr
      unfold ErrorObject.fields
      simp only [hr]
  · intro thrown body h
    rw [errorReplyOutcome_of_throws thrown body h, effects_of_valid formData _ hv]
    rfl

theorem non_ok_message_witness :
    validationFails (collected sampleForm) = false ∧
    joinThrows sampleErrorObject = false ∧
    errorReplyOutcome none (ReplyBody.object sampleErrorObject) =
      FetchOutcome.response false sampleErrorBody ∧
    composeErrorMsg sampleErrorBody =
      "Feature mismatch\n\nReceived columns: POSTED_BY, RERA\nExpected columns: POSTED_BY, UNDER_CONSTRUCTION, RERA\n\nDetails: 2 columns received, 3 expected\n\nHint: Send every expected column" ∧
    handleFormSubmit sampleForm (FetchOutcome.response false sampleErrorBody) =
      [Effect.setLoadingState true, Effect.hideResults, Effect.hideError,
       Effect.fetchPredict (payload sampleForm), Effect.consoleError "API Error:",
       Effect.showError (composeErrorMsg sampleErrorBody) (some sampleErrorBody),
       Effect.setLoadingState false] :=
  ⟨by decide!, by decide, by decide, by decide!,
    ((non_ok_message sampleForm (by decide!)).1 sampleErrorBody).1⟩

/-- C8, as stated, fails for a reply that is not ok whose body cannot be read. For a body
that is an HTML page `response.json()` rejects, and the handler shows the message of the
parse error, which does not start with `Prediction failed`; for a body whose
`received_columns` is a text the call of `join` throws, and the handler shows the message of
that TypeError, not the error text `Feature mismatch` of the reply. -/
theorem non_ok_message_counterexample :
    handleFormSubmit sampleForm (errorReplyOutcome (some htmlParseError) ReplyBody.notJson) =
      [Effect.setLoadingState true, Effect.hideResults, Effect.hideError,
       Effect.fetchPredict (payload sampleForm), Effect.consoleError "Prediction error:",
       Effect.showError htmlParseError none, Effect.setLoadingState false] ∧
    startsWith htmlParseError.toList "Prediction failed".toList = false ∧
    textColumnsObject.error = some "Feature mismatch" ∧
    handleFormSubmit sampleForm
        (errorReplyOutcome (some joinTypeError) (ReplyBody.object textColumnsObject)) =
      [Effect.setLoadingState true, Effect.hideResults, Effect.hideError,
       Effect.fetchPredict (payload sampleForm), Effect.consoleError "Prediction error:",
       Effect.showError joinTypeError none, Effect.setLoadingState false] ∧
    startsWith joinTypeError.toList "Feature mismatch".toList = false := by
  refine ⟨by decide!, by decide, rfl, by decide!, by decide⟩

/-! ## Messages for a request that throws -/

theorem startsWith_iff (cs sub : List Char) :
    startsWith cs sub = true ↔ ∃ b, cs = sub ++ b := by
  induction sub generalizing cs with
  | nil => cases cs <;> simp [startsWith]
  | cons p ps ih =>
    cases cs with
    | nil => simp [startsWith]
    | cons c rest =>
      simp only [startsWith, Bool.and_eq_true, beq_iff_eq, ih, List.cons_append,
        List.cons.injEq]
      constructor
      · rintro ⟨h1, b, h2⟩
        exact ⟨b, h1, h2⟩
      · rintro ⟨b, h1, h2⟩
        exact ⟨h1, b, h2⟩

theorem includesChars_iff (cs sub : List Char) :
    includesChars cs sub = true ↔ ∃ a b, cs = a ++ sub ++ b := by
  induction cs with
  | nil =>
    unfold includesChars
    constructor
    · intro h
      have : sub = [] := by simpa using h
      exact ⟨[], [], by simp [this]⟩
    · rintro ⟨a, b, h⟩
      have h2 := congrArg List.length h
      simp only [List.length_nil, List.length_append] at h2
      have : sub.length = 0 := by omega
      simp [List.length_eq_zero.mp this]
  | cons c rest ih =>
    unfold includesChars
    rw [Bool.or_eq_true, startsWith_iff, ih]
    constructor
    · rintro (⟨b, h⟩ | ⟨a, b, h⟩)
      · exact ⟨[], b, by simpa using h⟩
      · exact ⟨c :: a, b, by simp [h]⟩
    · rintro ⟨a, b, h⟩
      cases a with
      | nil => exact Or.inl ⟨b, by simpa using h⟩
      | cons a0 a1 =>
        simp only [List.cons_append, List.cons.injEq] at h
        exact Or.inr ⟨a1, b, h.2⟩

/-- C9, amended. For every submission whose request throws, the handler shows one message
through `showError` and resets the button: the connectivity message of line 432 exactly
when the error has a message that contains `fetch`; otherwise the message of the error
itself, or the text of line 430 when the error has no message. -/
theorem thrown_error_message (formData : FormData) (message : Option String)
    (hv : validationFails (collected formData) = false) :
    handleFormSubmit formData (FetchOutcome.threw message) =
      [Effect.setLoadingState true, Effect.hideResults, Effect.hideError,
       Effect.fetchPredict (payload formData), Effect.consoleError "Prediction error:",
       Effect.showError (caughtErrorMsg message) none, Effect.setLoadingState false] ∧
    (∀ m, message = some m → (∃ a b, m.toList = a ++ "fetch".toList ++ b) →
      caughtErrorMsg message = connectivityMessage) ∧
    (∀ m, message = some m → m ≠ "" → (¬ ∃ a b, m.toList = a ++ "fetch".toList ++ b) →
      caughtErrorMsg message = m) ∧
    (message = none ∨ message = some "" → caughtErrorMsg message = fallbackMessage) := by
  refine ⟨?_, ?_, ?_, ?_⟩
  · rw [effects_of_valid formData _ hv]
    rfl
  · intro m hm hin
    have hinc := (includesChars_iff m.toList "fetch".toList).mpr hin
    have hne : m ≠ "" := by
      intro h
      rw [h] at hinc
      exact absurd hinc (by decide)
    unfold caughtErrorMsg
    simp only [hm, Option.getD_some]
    rw [hinc]
    simp [fieldTruthy, hne, connectivityMessage]
  · intro m hm hne hnot
    have hinc : includesChars m.toList "fetch".toList = false := by
      cases h : includesChars m.toList "fetch".toList with
      | false => rfl
      | true => exact absurd ((includesChars_iff _ _).mp h) hnot
    unfold caughtErrorMsg
    simp only [hm, Option.getD_some]
    rw [hinc]
    simp [fieldTruthy, hne]
  · rintro (h | h) <;> rw [h] <;> rfl

theorem thrown_error_message_witness :
    validationFails (collected sampleForm) = false ∧
    caughtErrorMsg (some "Failed to fetch") = connectivityMessage ∧
    handleFormSubmit sampleForm (FetchOutcome.threw (some "Failed to fetch")) =
      [Effect.setLoadingState true, Effect.hideResults, Effect.hideError,
       Effect.fetchPredict (payload sampleForm), Effect.consoleError "Prediction error:",
       Effect.showError (caughtErrorMsg (some "Failed to fetch")) none,
       Effect.setLoadingState false] :=
  ⟨by decide!, by decide!,
    (thrown_error_message sampleForm (some "Failed to fetch") (by decide!)).1⟩

/-- C9, as stated, fails: when the request throws an error whose message does not contain
`fetch` (here `Load failed`, and the parse error of a reply that is not JSON), the handler
shows that message, not the connectivity message. -/
theorem thrown_error_counterexample :
    handleFormSubmit sampleForm (FetchOutcome.threw (some "Load failed")) =
      [Effect.setLoadingState true, Effect.hideResults, Effect.hideError,
       Effect.fetchPredict (payload sampleForm), Effect.consoleError "Prediction error:",
       Effect.showError "Load failed" none, Effect.setLoadingState false] ∧
    caughtErrorMsg (some "Load failed") ≠ connectivityMessage ∧
    caughtErrorMsg (some "Unexpected end of JSON input") = "Unexpected end of JSON input" ∧
    caughtErrorMsg none = fallbackMessage := by
  refine ⟨by decide!, by decide!, by decide!, by decide!⟩

/-! ## The coordinate fields -/

theorem toFixed_isFixedDecimal (f : Nat) (hf : 0 < f) (neg : Bool) (k : Nat)
    (hk : k < 10 ^ 21 * one) : IsFixedDecimal f neg k (toFixed f (JSNum.fin neg k)) := by
  obtain ⟨ip, fp, h1, h2, h3, h4, h5⟩ := toFixed_shape f hf neg k hk
  have hn := nearest_scaled f k
  refine ⟨ip, fp, h1, h2, h3, h4, ?_, ?_⟩
  · rw [h5]
    exact hn.1
  · rw [h5]
    exact hn.2

/-- C10. For every location a relocate event passes to `updateCoordinates` in the form of
the active map library, with finite latitude and longitude of magnitude below `10^21`
(every coordinate of the data model is), the call succeeds, leaves the address field as it
was, and the latitude and longitude fields hold `lat.toFixed(6)` and `lng.toFixed(6)`: the
decimal rendering of the value, rounded to the nearest millionth, with exactly six digits
after the point. -/
theorem updateCoordinates_six_decimals (useGoogleMaps : Bool) (location : Location)
    (fields : CoordinateFields) (lat lng : JSNum)
    (hread : readLatLng useGoogleMaps location = some (lat, lng))
    (hlat : IsPlainFinite lat) (hlng : IsPlainFinite lng) :
    ∃ after, updateCoordinates useGoogleMaps location fields = some after ∧
      after.latitude = toFixed 6 lat ∧ after.longitude = toFixed 6 lng ∧
      after.address = fields.address ∧
      IsSixDecimals lat after.latitude ∧ IsSixDecimals lng after.longitude := by
  obtain ⟨n1, k1, e1, b1⟩ := hlat
  obtain ⟨n2, k2, e2, b2⟩ := hlng
  have s1 : IsSixDecimals lat (toFixed 6 lat) :=
    ⟨n1, k1, e1, e1 ▸ toFixed_isFixedDecimal 6 (Nat.succ_pos 5) n1 k1 b1⟩
  have s2 : IsSixDecimals lng (toFixed 6 lng) :=
    ⟨n2, k2, e2, e2 ▸ toFixed_isFixedDecimal 6 (Nat.succ_pos 5) n2 k2 b2⟩
  refine ⟨{ fields with latitude := toFixed 6 lat, longitude := toFixed 6 lng }, ?_, rfl, rfl,
    rfl, s1, s2⟩
  unfold updateCoordinates
  rw [hread]

theorem updateCoordinates_six_decimals_witness :
    parseFloatStr "28.6139" = sampleLat ∧ parseFloatStr "77.2090" = sampleLng ∧
    readLatLng false (Location.array sampleLat sampleLng) = some (sampleLat, sampleLng) ∧
    IsPlainFinite sampleLat ∧ IsPlainFinite sampleLng ∧
    updateCoordinates false (Location.array sampleLat sampleLng) ⟨"", "", ""⟩ =
      some ⟨"28.613900", "77.209000", ""⟩ ∧
    updateCoordinates true (Location.methods sampleLat sampleLng) ⟨"", "", ""⟩ =
      some ⟨"28.613900", "77.209000", ""⟩ ∧
    (∃ after, updateCoordinates false (Location.array sampleLat sampleLng) ⟨"", "", ""⟩ =
        some after ∧
      after.latitude = toFixed 6 sampleLat ∧ after.longitude = toFixed 6 sampleLng ∧
      after.address = "" ∧
      IsSixDecimals sampleLat after.latitude ∧ IsSixDecimals sampleLng after.longitude) :=
  ⟨by decide!, by decide!, rfl, ⟨false, _, rfl, by decide!⟩, ⟨false, _, rfl, by decide!⟩,
    by decide!, by decide!,
    updateCoordinates_six_decimals false (Location.array sampleLat sampleLng) ⟨"", "", ""⟩
      sampleLat sampleLng rfl ⟨false, _, rfl, by decide!⟩ ⟨false, _, rfl, by decide!⟩⟩

/-! ## The value of a flag -/

theorem flag_plain (k : String) (hk : isFlagKey k) :
    ["BHK_NO.", "SQUARE_FT", "LONGITUDE", "LATITUDE"].contains k = false ∧ k ≠ "__proto__" ∧
      k ∉ aliasFields ∧ k ∈ expectedOrder ∧ k ≠ "ADDRESS" := by
  rcases hk with rfl | rfl | rfl | rfl <;> decide

theorem get_collect_flag (k : String) (hk : isFlagKey k) (l : FormData) :
    get (l.foldl (fun data e => collectEntry data e.1 e.2) initData) k =
      JSVal.num (flagValue (lastValue l k)) := by
  obtain ⟨_, hp, _, _, _⟩ := flag_plain k hk
  induction l using List.reverseRecOn with
  | nil => rcases hk with rfl | rfl | rfl | rfl <;> rfl
  | append_singleton init e ih =>
    rw [lastValue_snoc, List.foldl_append, List.foldl_cons, List.foldl_nil]
    by_cases he : e.1 = k
    · have hk2 : k = "UNDER_CONSTRUCTION" ∨ k = "RERA" ∨ k = "READY_TO_MOVE" ∨ k = "RESALE" := hk
      rw [if_pos he]
      unfold collectEntry
      rw [he, if_pos hk2]
      exact get_set_same _ _ _ hp
    · rw [if_neg he, get_collectEntry_other _ _ _ _ (fun h => he h.symm)]
      exact ih

theorem get_ensureFlag_of_defined (d : JSObject) (k k2 : String)
    (h : get d k2 ≠ JSVal.undefined) : get (ensureFlag d k) k2 = get d k2 := by
  by_cases hk : k2 = k
  · unfold ensureFlag jsIn
    rw [← hk, hasOwn_of_get_defined d k2 h]
    rfl
  · exact get_ensureFlag_other d k k2 hk

theorem get_collected_flag (formData : FormData) (k : String) (hk : isFlagKey k) :
    get (collected formData) k = JSVal.num (flagValue (lastValue formData k)) := by
  obtain ⟨hn, _, _, _, _⟩ := flag_plain k hk
  have h4 : k ≠ "BHK_NO." ∧ k ≠ "SQUARE_FT" ∧ k ≠ "LONGITUDE" ∧ k ≠ "LATITUDE" := by
    refine ⟨?_, ?_, ?_, ?_⟩ <;> intro e <;> rw [e] at hn <;> exact absurd hn (by decide)
  have h0 : get (ensureNumbers (collect formData)) k =
      JSVal.num (flagValue (lastValue formData k)) := by
    unfold ensureNumbers
    rw [get_ensureNumber_other _ _ _ h4.2.2.2, get_ensureNumber_other _ _ _ h4.2.2.1,
      get_ensureNumber_other _ _ _ h4.2.1, get_ensureNumber_other _ _ _ h4.1]
    exact get_collect_flag k hk formData
  have step : ∀ (d : JSObject) (f : String),
      get d k = JSVal.num (flagValue (lastValue formData k)) →
      get (ensureFlag d f) k = JSVal.num (flagValue (lastValue formData k)) := by
    intro d f hd
    rw [get_ensureFlag_of_defined d f k (by rw [hd]; simp)]
    exact hd
  unfold collected ensureFlags
  exact step _ _ (step _ _ (step _ _ (step _ _ h0)))

theorem get_normalizeFlag_of_flagsOk (d : JSObject) (f k : String) (h : FlagsOk d)
    (hf : isFlagKey f) : get (normalizeFlag d f) k = get d k := by
  by_cases hk : k = f
  · obtain ⟨_, hp, _, _, _⟩ := flag_plain f hf
    rw [hk]
    unfold normalizeFlag
    rw [get_set_same _ _ _ hp]
    rcases h f hf with h0 | h1
    · rw [h0]; exact normalizeFlag_value_zero
    · rw [h1]; exact normalizeFlag_value_one
  · unfold normalizeFlag
    exact get_set_other _ _ _ _ hk

theorem flagsOk_normalizeFlag (d : JSObject) (f : String) (h : FlagsOk d) (hf : isFlagKey f) :
    FlagsOk (normalizeFlag d f) := by
  intro k hk
  rw [get_normalizeFlag_of_flagsOk d f k h hf]
  exact h k hk

theorem get_normalizeFlags_of_flagsOk (d : JSObject) (k : String) (h : FlagsOk d) :
    get (normalizeFlags d) k = get d k := by
  have f1 : isFlagKey "UNDER_CONSTRUCTION" := Or.inl rfl
  have f2 : isFlagKey "RERA" := Or.inr (Or.inl rfl)
  have f3 : isFlagKey "READY_TO_MOVE" := Or.inr (Or.inr (Or.inl rfl))
  have f4 : isFlagKey "RESALE" := Or.inr (Or.inr (Or.inr rfl))
  have h1 := flagsOk_normalizeFlag d _ h f1
  have h2 := flagsOk_normalizeFlag _ _ h1 f2
  have h3 := flagsOk_normalizeFlag _ _ h2 f3
  unfold normalizeFlags
  rw [get_normalizeFlag_of_flagsOk _ _ k h3 f4, get_normalizeFlag_of_flagsOk _ _ k h2 f3,
    get_normalizeFlag_of_flagsOk _ _ k h1 f2, get_normalizeFlag_of_flagsOk _ _ k h f1]

theorem get_prepared_flag (formData : FormData) (k : String) (hk : isFlagKey k) :
    get (prepared formData) k = JSVal.num (flagValue (lastValue formData k)) := by
  obtain ⟨_, _, ha, _, _⟩ := flag_plain k hk
  have hc := collected_invariants formData
  have hd := deriveAliases_invariants _ ⟨hc.1, hc.2.1⟩
  unfold prepared
  rw [get_normalizeFlags_of_flagsOk _ k hd.1, get_deriveAliases_other _ k ha]
  exact get_collected_flag formData k hk

theorem flagValue_some (w : String) :
    flagValue (some w) = if w = "1" ∨ w = "on" then ofNat 1 else ofNat 0 := rfl

theorem flagValue_one_iff (last : Option String) :
    flagValue last = ofNat 1 ↔ ∃ v, last = some v ∧ (v = "1" ∨ v = "on") := by
  have h01 : ofNat 0 ≠ ofNat 1 := by decide!
  cases last with
  | none =>
    constructor
    · intro h
      exact absurd h h01
    · rintro ⟨v, hv, _⟩
      exact absurd hv (by simp)
  | some w =>
    rw [flagValue_some]
    constructor
    · intro h
      by_cases hw : w = "1" ∨ w = "on"
      · exact ⟨w, rfl, hw⟩
      · rw [if_neg hw] at h
        exact absurd h h01
    · rintro ⟨v, hv, hw⟩
      rw [Option.some.inj hv, if_pos hw]

theorem flagValue_zero_iff (last : Option String) :
    flagValue last = ofNat 0 ↔ ¬ ∃ v, last = some v ∧ (v = "1" ∨ v = "on") := by
  have h01 : ofNat 0 ≠ ofNat 1 := by decide!
  rw [← flagValue_one_iff]
  cases last with
  | none => exact ⟨fun _ => h01, fun _ => rfl⟩
  | some w =>
    rw [flagValue_some]
    by_cases hw : w = "1" ∨ w = "on"
    · rw [if_pos hw]
      exact ⟨fun h => absurd h.symm h01, fun h => absurd rfl h⟩
    · rw [if_neg hw]
      exact ⟨fun _ => h01, fun _ => rfl⟩

/-- C15. For each of the four flag fields and every form submission that is sent, the body
has the flag with the value 1 if and only if the form data has an entry of that name and the
last such entry has the value `1` or `on`; otherwise, also when a checked box is submitted
with another value such as `true` or `yes`, the body has the flag with the value 0. -/
theorem flag_value_iff (formData : FormData) (reply : FetchOutcome) (body : JSObject)
    (hsent : sentBody formData reply = some body) (k : String) (hk : isFlagKey k) :
    ((k, JSVal.num (ofNat 1)) ∈ jsonMembers body ↔
      ∃ v, lastValue formData k = some v ∧ (v = "1" ∨ v = "on")) ∧
    ((k, JSVal.num (ofNat 0)) ∈ jsonMembers body ↔
      ¬ ∃ v, lastValue formData k = some v ∧ (v = "1" ∨ v = "on")) := by
  rw [sentBody_eq] at hsent
  split at hsent
  · exact absurd hsent (by simp)
  · rename_i hv
    have hv2 : validationFails (collected formData) = false := by simpa using hv
    have hbody : body = reorder (prepared formData) := (Option.some.inj hsent).symm
    obtain ⟨_, _, _, hexp, hna⟩ := flag_plain k hk
    obtain ⟨_, hn, _⟩ := prepared_invariants formData hv2
    have hmem := member_of_expected formData hv2 k hexp hna
    have hget := get_prepared_flag formData k hk
    have hval : ∀ v, (k, v) ∈ jsonMembers (reorder (prepared formData)) ↔
        v = JSVal.num (flagValue (lastValue formData k)) := by
      intro v
      constructor
      · intro h
        rw [mem_jsonMembers] at h
        rw [h.2.1, get_reorder_expected _ hn k hexp, hget]
      · intro h
        rw [h, ← hget]
        exact hmem
    have h1 := flagValue_one_iff (lastValue formData k)
    have h0 := flagValue_zero_iff (lastValue formData k)
    rw [hbody, hval, hval]
    constructor
    · exact ⟨fun h => h1.mp (JSVal.num.inj h).symm, fun h => by rw [h1.mpr h]⟩
    · exact ⟨fun h => h0.mp (JSVal.num.inj h).symm, fun h => by rw [h0.mpr h]⟩

theorem flag_value_iff_witness :
    sentBody checkedTrueForm (FetchOutcome.threw none) = some (payload checkedTrueForm) ∧
    isFlagKey "RERA" ∧ lastValue checkedTrueForm "RERA" = some "true" ∧
    ("RERA", JSVal.num (ofNat 0)) ∈ jsonMembers (payload checkedTrueForm) ∧
    ("RERA", JSVal.num (ofNat 1)) ∈ jsonMembers (payload sampleForm) ∧
    ((("RERA", JSVal.num (ofNat 1)) ∈ jsonMembers (payload checkedTrueForm) ↔
        ∃ v, lastValue checkedTrueForm "RERA" = some v ∧ (v = "1" ∨ v = "on")) ∧
      (("RERA", JSVal.num (ofNat 0)) ∈ jsonMembers (payload checkedTrueForm) ↔
        ¬ ∃ v, lastValue checkedTrueForm "RERA" = some v ∧ (v = "1" ∨ v = "on"))) :=
  ⟨by decide!, Or.inr (Or.inl rfl), by decide, by decide!, by decide!,
    flag_value_iff checkedTrueForm (FetchOutcome.threw none) (payload checkedTrueForm)
      (by decide!) "RERA" (Or.inr (Or.inl rfl))⟩

/-! ## A forward geocoding that finds nothing -/

/-- C11. For every forward-geocode call whose request throws, or whose reply is an empty
list (or no list at all), the page is the same after the call as before it but for the
console: the marker with its position, the map, the coordinate fields and the error card are
unchanged, so nothing is shown to the user. -/
theorem searchAddress_without_result (reply : GeocodeReply) (p : MapPage)
    (h : reply = GeocodeReply.threw ∨ reply = GeocodeReply.results [] ∨
      reply = GeocodeReply.notAList) :
    (searchAddress reply p).marker = p.marker ∧
    (searchAddress reply p).map = p.map ∧
    (searchAddress reply p).fields = p.fields ∧
    (searchAddress reply p).errorCard = p.errorCard ∧
    (searchAddress reply p).useGoogleMaps = p.useGoogleMaps ∧
    (reply ≠ GeocodeReply.threw → searchAddress reply p = p) := by
  rcases h with rfl | rfl | rfl
  · exact ⟨rfl, rfl, rfl, rfl, rfl, fun h => absurd rfl h⟩
  · exact ⟨rfl, rfl, rfl, rfl, rfl, fun _ => rfl⟩
  · exact ⟨rfl, rfl, rfl, rfl, rfl, fun _ => rfl⟩

theorem searchAddress_without_result_witness :
    markedPage.marker =
      some { serial := 1, backend := Backend.leaflet,
             position := some (Location.array sampleLat sampleLng) } ∧
    markedPage.fields = ⟨"28.613900", "77.209000", ""⟩ ∧
    ((searchAddress GeocodeReply.threw markedPage).marker = markedPage.marker ∧
      (searchAddress GeocodeReply.threw markedPage).map = markedPage.map ∧
      (searchAddress GeocodeReply.threw markedPage).fields = markedPage.fields ∧
      (searchAddress GeocodeReply.threw markedPage).errorCard = markedPage.errorCard ∧
      (searchAddress GeocodeReply.threw markedPage).useGoogleMaps = markedPage.useGoogleMaps ∧
      (GeocodeReply.threw ≠ GeocodeReply.threw →
        searchAddress GeocodeReply.threw markedPage = markedPage)) :=
  ⟨by decide!, by decide!,
    searchAddress_without_result GeocodeReply.threw markedPage (Or.inl rfl)⟩

theorem searchAddress_with_result_example :
    (searchAddress (GeocodeReply.results [⟨JSVal.str "19.0760", JSVal.str "72.8777"⟩])
      markedPage).fields = ⟨"19.076000", "72.877700", ""⟩ ∧
    (searchAddress (GeocodeReply.results [⟨JSVal.str "19.0760", JSVal.str "72.8777"⟩])
      markedPage).marker ≠ markedPage.marker := by
  refine ⟨by decide!, by decide!⟩

/-- A first result without a latitude parses to NaN; the free map library refuses the
coordinate, so the marker, the map and the fields stay as they were and the error is only
logged. -/
theorem searchAddress_unparsed_result :
    searchAddress (GeocodeReply.results [⟨JSVal.undefined, JSVal.str "72.8777"⟩]) markedPage =
      logGeocodingError markedPage := by
  decide!

/-! ## Setting up the map -/

theorem initMap_google (env : InitEnv) (p : MapPage) (hg : env.googleLoaded = true)
    (hk : hasGoogleMapsKey env = true) (hl : env.libraryReturns = true) :
    (initMap env p).useGoogleMaps = true ∧
    (initMap env p).map =
      some { serial := p.created, backend := Backend.google, center := defaultCenterProps,
             zoom := 5 } ∧
    (initMap env p).marker =
      some { serial := p.created + 2, backend := Backend.google, position := none } := by
  unfold initMap initGoogleMap
  rw [hg, hk, hl]
  exact ⟨rfl, rfl, rfl⟩

theorem initMap_keeps_google (env : InitEnv) (p : MapPage) (h : p.useGoogleMaps = true) :
    (initMap env p).useGoogleMaps = true := by
  unfold initMap initGoogleMap initOpenStreetMap
  split
  · split <;> rfl
  · split
    · exact h
    · exact h

theorem initCall_immediate (env : InitEnv) (p : MapPage) :
    initCall env InitCall.immediate p = if env.googleLoaded then initMap env p else p := rfl

theorem initCall_fallbackTimer (env : InitEnv) (p : MapPage) :
    initCall env InitCall.fallbackTimer p = if p.map.isNone then initMap env p else p := rfl

theorem initCall_loadCallback (env : InitEnv) (p : MapPage) :
    initCall env InitCall.loadCallback p = initMap env p := rfl

/-- C12, amended. Only the fallback timer is guarded: it calls `initMap` only while no map
exists, so once a map exists it changes nothing. The call made when the page is ready and
the load callback of the commercial library are not guarded: whenever one of them finds the
library loaded with a valid key (and the constructor returns), it sets `useGoogleMaps` and
replaces the map and the marker by new objects, whatever was there before. No call sets
`useGoogleMaps` back to false. On the fresh page the first call that runs `initMap` sets the
map and the marker and chooses the commercial backend exactly when the library is loaded and
the key is valid. -/
theorem initMap_guard :
    (∀ (env : InitEnv) (p : MapPage), p.map ≠ none → initCall env InitCall.fallbackTimer p = p) ∧
    (∀ (env : InitEnv) (call : InitCall) (p : MapPage), p.useGoogleMaps = true →
      (initCall env call p).useGoogleMaps = true) ∧
    (∀ (env : InitEnv) (call : InitCall) (p : MapPage), call ≠ InitCall.fallbackTimer →
      env.googleLoaded = true → hasGoogleMapsKey env = true → env.libraryReturns = true →
      (initCall env call p).useGoogleMaps = true ∧
      (initCall env call p).map =
        some { serial := p.created, backend := Backend.google, center := defaultCenterProps,
               zoom := 5 } ∧
      (initCall env call p).marker =
        some { serial := p.created + 2, backend := Backend.google, position := none }) ∧
    (∀ (env : InitEnv) (call : InitCall), (call = InitCall.immediate → env.googleLoaded = true) →
      env.libraryReturns = true →
      (initCall env call freshPage).map ≠ none ∧ (initCall env call freshPage).marker ≠ none ∧
      (initCall env call freshPage).useGoogleMaps = (env.googleLoaded && hasGoogleMapsKey env)) := by
  refine ⟨?_, ?_, ?_, ?_⟩
  · intro env p h
    rw [initCall_fallbackTimer]
    cases hm : p.map with
    | none => exact absurd hm h
    | some m => rfl
  · intro env call p h
    cases call with
    | immediate =>
      rw [initCall_immediate]
      split
      · exact initMap_keeps_google env p h
      · exact h
    | fallbackTimer =>
      rw [initCall_fallbackTimer]
      split
      · exact initMap_keeps_google env p h
      · exact h
    | loadCallback => exact initMap_keeps_google env p h
  · intro env call p hc hg hk hl
    cases call with
    | immediate =>
      rw [initCall_immediate, if_pos hg]
      exact initMap_google env p hg hk hl
    | fallbackTimer => exact absurd rfl hc
    | loadCallback => exact initMap_google env p hg hk hl
  · intro env call himm hl
    have key : (initMap env freshPage).map ≠ none ∧ (initMap env freshPage).marker ≠ none ∧
        (initMap env freshPage).useGoogleMaps = (env.googleLoaded && hasGoogleMapsKey env) := by
      unfold initMap initGoogleMap initOpenStreetMap
      rw [hl]
      cases hc : (env.googleLoaded && hasGoogleMapsKey env) with
      | true => exact ⟨by simp, by simp, rfl⟩
      | false => exact ⟨by simp, by simp, rfl⟩
    cases call with
    | immediate =>
      rw [initCall_immediate, if_pos (himm rfl)]
      exact key
    | fallbackTimer => exact key
    | loadCallback => exact key

theorem initMap_guard_witness :
    pageAfterFallback.map ≠ none ∧
    initCall envWithGoogle InitCall.fallbackTimer pageAfterFallback = pageAfterFallback :=
  ⟨by decide!, initMap_guard.1 envWithGoogle pageAfterFallback (by decide!)⟩

/-- C12, as stated, fails: after the fallback timer has set up the free backend (a map and
a marker exist, `useGoogleMaps` is false), the load callback of the commercial library runs
`initMap` again and takes effect: `useGoogleMaps` becomes true and the map and the marker
are replaced by objects of the other library. -/
theorem initMap_guard_counterexample :
    pageAfterFallback.useGoogleMaps = false ∧
    pageAfterFallback.map =
      some { serial := 0, backend := Backend.leaflet, center := defaultCenterArray, zoom := 5 } ∧
    pageAfterFallback.marker =
      some { serial := 1, backend := Backend.leaflet, position := some defaultCenterArray } ∧
    pageAfterLateCallback.useGoogleMaps = true ∧
    pageAfterLateCallback.map =
      some { serial := 2, backend := Backend.google, center := defaultCenterProps, zoom := 5 } ∧
    pageAfterLateCallback.marker =
      some { serial := 4, backend := Backend.google, position := none } ∧
    pageAfterLateCallback.map ≠ pageAfterFallback.map ∧
    pageAfterLateCallback.marker ≠ pageAfterFallback.marker := by
  refine ⟨by decide!, by decide!, by decide!, by decide!, by decide!, by decide!, by decide!,
    by decide!⟩

/-! ## How a failed submission ends -/

theorem failed_request_end (latency : Nat) (p : SubmitPage) (hq : p.timers = [])
    (body : JSObject) (label message : String) (details : Option ResponseBody) :
    runAllTimers
      ([Effect.setLoadingState true, Effect.hideResults, Effect.hideError,
        Effect.fetchPredict body, Effect.consoleError label, Effect.showError message details,
        Effect.setLoadingState false].foldl (fun q e => runEffect latency e q) p) =
      { now := p.now + latency, control := idleControl,
        card := { messageHtml := errorCardHtml message details,
                  display := if latency < 300 then "none" else "block",
                  opacity := "1", transform := "scale(1)",
                  transition := "all 0.3s ease-out" },
        timers := [] } := by
  simp only [List.foldl_cons, List.foldl_nil, runEffect, hideError, showError, setTimeout, hq,
    enqueueTimer, runTimersUntil, setLoadingState]
  by_cases h1 : latency < 300
  · have h2 : ¬ (p.now + 300 ≤ p.now + latency) := by omega
    by_cases h3 : p.now + 300 ≤ p.now + latency + 50
    · simp [h1, h2, h3, runAllTimers, runCallback, enqueueTimer, idleControl]
    · simp [h1, h2, h3, runAllTimers, runCallback, enqueueTimer, idleControl]
  · have h2 : p.now + 300 ≤ p.now + latency := by omega
    simp [h1, h2, runAllTimers, runCallback, enqueueTimer, idleControl]

/-- A submission that fails the validation, on a page with no timer pending: the
validation message is in the card, the card stays displayed, and the submit control is as
it was, since `setLoadingState` is not called on this path. -/
theorem submissionEnd_of_invalid (formData : FormData) (reply : FetchOutcome) (latency : Nat)
    (p : SubmitPage) (hq : p.timers = []) (hv : validationFails (collected formData) = true) :
    submissionEnd formData reply latency p =
      { now := p.now, control := p.control,
        card := { messageHtml := errorCardHtml validationMessage none,
                  display := "block", opacity := "1", transform := "scale(1)",
                  transition := "all 0.3s ease-out" },
        timers := [] } := by
  have h1 : handleFormSubmit formData reply = [Effect.showError validationMessage none] := by
    unfold handleFormSubmit
    simp only
    rw [if_pos hv]
    rfl
  unfold submissionEnd
  rw [h1]
  simp [runEffect, showError, setTimeout, hq, enqueueTimer, runAllTimers, runCallback]

/-- A submission that gets a reply that is not ok, on a page with no timer pending: the
composed message is in the card and the submit control is idle; the card is still displayed
when the timers have run only if the reply came 300 ms or more after the request. -/
theorem submissionEnd_of_not_ok (formData : FormData) (result : ResponseBody) (latency : Nat)
    (p : SubmitPage) (hq : p.timers = []) (hv : validationFails (collected formData) = false) :
    submissionEnd formData (FetchOutcome.response false result) latency p =
      { now := p.now + latency, control := idleControl,
        card := { messageHtml := errorCardHtml (composeErrorMsg result) (some result),
                  display := if latency < 300 then "none" else "block",
                  opacity := "1", transform := "scale(1)",
                  transition := "all 0.3s ease-out" },
        timers := [] } := by
  unfold submissionEnd
  rw [effects_of_valid formData _ hv]
  exact failed_request_end latency p hq _ _ _ _

/-- A submission whose request throws, on a page with no timer pending: the message of the
catch block is in the card and the submit control is idle; the card is still displayed when
the timers have run only if the request failed 300 ms or more after it was sent. -/
theorem submissionEnd_of_thrown (formData : FormData) (message : Option String)
    (latency : Nat) (p : SubmitPage) (hq : p.timers = [])
    (hv : validationFails (collected formData) = false) :
    submissionEnd formData (FetchOutcome.threw message) latency p =
      { now := p.now + latency, control := idleControl,
        card := { messageHtml := errorCardHtml (caughtErrorMsg message) none,
                  display := if latency < 300 then "none" else "block",
                  opacity := "1", transform := "scale(1)",
                  transition := "all 0.3s ease-out" },
        timers := [] } := by
  unfold submissionEnd
  rw [effects_of_valid formData _ hv]
  exact failed_request_end latency p hq _ _ _ _

/-- C13, the code at the failing input. The sample form is submitted on a page at rest and
the request fails 5 ms later with the message `Failed to fetch` (no server is listening).
The handler puts the connectivity message in the error card and sets the submit control
idle, but when the timers have run the card is not displayed: `hideError` at line 390 set a
timer that takes the card off the page 300 ms after the submission, `showError` displayed
the card before that, and the timer was not cancelled. The same failure 400 ms after the
request leaves the card displayed, and so does a validation failure, which leaves the idle
control as it is (`submissionEnd_of_invalid`, `submissionEnd_of_not_ok`,
`submissionEnd_of_thrown` give this for every form and reply). -/
theorem failure_message_removed :
    validationFails (collected sampleForm) = false ∧
    submissionEnd sampleForm (FetchOutcome.threw (some "Failed to fetch")) 5 restingPage =
      { now := 5, control := idleControl,
        card := { messageHtml := connectivityMessage, display := "none", opacity := "1",
                  transform := "scale(1)", transition := "all 0.3s ease-out" },
        timers := [] } ∧
    (submissionEnd sampleForm (FetchOutcome.response false sampleErrorBody) 5
      restingPage).card.display = "none" ∧
    (submissionEnd sampleForm (FetchOutcome.response false sampleErrorBody) 5
      restingPage).control = idleControl ∧
    (submissionEnd sampleForm (FetchOutcome.threw (some "Failed to fetch")) 400
      restingPage).card.display = "block" ∧
    validationFails (collected noTypeForm) = true ∧
    (submissionEnd noTypeForm (FetchOutcome.threw none) 5 restingPage).card.display = "block" ∧
    (submissionEnd noTypeForm (FetchOutcome.threw none) 5 restingPage).control = idleControl := by
  have hs : validationFails (collected sampleForm) = false := by decide!
  have hn : validationFails (collected noTypeForm) = true := by decide!
  refine ⟨hs, ?_, ?_, ?_, ?_, hn, ?_, ?_⟩
  · rw [submissionEnd_of_thrown sampleForm _ 5 restingPage rfl hs]
    decide!
  · rw [submissionEnd_of_not_ok sampleForm _ 5 restingPage rfl hs]
    decide
  · rw [submissionEnd_of_not_ok sampleForm _ 5 restingPage rfl hs]
  · rw [submissionEnd_of_thrown sampleForm _ 400 restingPage rfl hs]
    decide
  · rw [submissionEnd_of_invalid noTypeForm _ 5 restingPage rfl hn]
  · rw [submissionEnd_of_invalid noTypeForm _ 5 restingPage rfl hn]
    rfl

/-! ## The reorder step as a permutation -/

theorem mem_reorder_iff (data : JSObject) (hn : KeysNodup data) (e : String × JSVal) :
    e ∈ reorder data ↔
      e ∈ data ∧ (expectedOrder.contains e.1 = true ∨
        objectPrototypeNames.contains e.1 = false) := by
  rw [reorder_eq data hn, List.mem_append, List.mem_map, List.mem_map]
  constructor
  · rintro (⟨k, hk, rfl⟩ | ⟨k, hk, rfl⟩)
    · rw [List.mem_filter] at hk
      exact ⟨get_mem_of_hasOwn data k hk.2, Or.inl (by simpa using hk.1)⟩
    · rw [List.mem_filter, Bool.and_eq_true] at hk
      have ho := (hasOwn_iff_mem data k).mpr ((mem_ownKeys data k).mp hk.1)
      exact ⟨get_mem_of_hasOwn data k ho, Or.inr (by simpa using hk.2.2)⟩
  · rintro ⟨he, hc⟩
    have hkey : e.1 ∈ data.map Prod.fst := List.mem_map_of_mem Prod.fst he
    have ho : hasOwn data e.1 = true := (hasOwn_iff_mem data e.1).mpr hkey
    have hv : entryOf data e.1 = e := by
      unfold entryOf
      rw [get_eq_of_mem data e.1 e.2 hn he]
    cases hx : expectedOrder.contains e.1 with
    | true =>
      exact Or.inl ⟨e.1, List.mem_filter.mpr ⟨by simpa using hx, ho⟩, hv⟩
    | false =>
      rw [hx] at hc
      have hp : objectPrototypeNames.contains e.1 = false := by
        rcases hc with h | h
        · exact absurd h (by decide)
        · exact h
      refine Or.inr ⟨e.1, List.mem_filter.mpr ⟨(mem_ownKeys data e.1).mpr hkey, ?_⟩, hv⟩
      rw [hx, hp]
      rfl

theorem reorder_perm_of_own_names (data : JSObject) (hn : KeysNodup data)
    (hp : ∀ k ∈ data.map Prod.fst, objectPrototypeNames.contains k = false) :
    (reorder data).Perm data := by
  have n1 : (reorder data).Nodup := List.Nodup.of_map Prod.fst (keysNodup_reorder data hn)
  have n2 : data.Nodup := List.Nodup.of_map Prod.fst hn
  rw [List.perm_ext_iff_of_nodup n1 n2]
  intro e
  rw [mem_reorder_iff data hn e]
  constructor
  · exact fun h => h.1
  · exact fun h => ⟨h, Or.inr (hp e.1 (List.mem_map_of_mem Prod.fst h))⟩

/-- C14, the code at the failing input. For the sample form with one more field named
`toString`, the data before the reorder has seventeen keys, each once, among them `toString`
with the value `x`; the reordered mapping has the sixteen others and not that one, so it is
not a permutation of the data: the test `!(key in orderedData)` of line 381 is false for a
name that `Object.prototype` defines, and the entry is never copied. For data without such
names the reorder step is a permutation (`reorder_perm_of_own_names`). -/
theorem reorder_drops_inherited_name :
    (prepared protoNamedForm).map Prod.fst =
      ["UNDER_CONSTRUCTION", "RERA", "READY_TO_MOVE", "RESALE", "POSTED_BY", "BHK_NO.",
       "BHK_OR_RK", "SQUARE_FT", "ADDRESS", "LONGITUDE", "LATITUDE", "toString", "area",
       "bedrooms", "longitude", "latitude", "CITY_NAME"] ∧
    get (prepared protoNamedForm) "toString" = JSVal.str "x" ∧
    jsIn "toString" [] = true ∧
    (reorder (prepared protoNamedForm)).map Prod.fst = expectedOrder ∧
    hasOwn (reorder (prepared protoNamedForm)) "toString" = false ∧
    ¬ (reorder (prepared protoNamedForm)).Perm (prepared protoNamedForm) := by
  refine ⟨by decide!, by decide!, by decide, by decide!, by decide!, ?_⟩
  intro h
  have h1 : (reorder (prepared protoNamedForm)).length = 16 := by decide!
  have h2 : (prepared protoNamedForm).length = 17 := by decide!
  have := h.length_eq
  omega

end HousePrice
